import Mathlib

/-!
# Catch run context (`include/internal/catch_run_context.hpp`)

A shallow embedding of the test-run orchestrator `Catch::RunContext`, of the
global run-context slot and of `StreamRedirect`, followed by theorems about them.

Conventions of the embedding

* `std::size_t` values are natural numbers below `sizeMod`; every arithmetic
  operation of the source on them is followed by an explicit `% sizeMod`.
* `std::vector` is `List`; `push_back` appends at the end, `back` is the last
  element, `pop_back` is `dropLast`.
* The reporter is an event sink: its state is the chronological list of the
  events it has received.
* `ITracker*` handles are child-index paths from the root tracker.
* `double` durations are abstracted to natural-number timer readings; no
  property below computes with them.
-/

namespace Catch

/-! ## Machine integers -/

/-- Number of values of `std::size_t` (a 64-bit target). -/
def sizeMod : Nat := 18446744073709551616

/-- The operation `x++` on a `std::size_t`. -/
def incr (x : Nat) : Nat := (x + 1) % sizeMod

/-- The operation `a + b` on `std::size_t`. -/
def addSize (a b : Nat) : Nat := (a + b) % sizeMod

/-- The operation `a - b` on `std::size_t` (wraps around below zero). -/
def subSize (a b : Nat) : Nat := (a + (sizeMod - b % sizeMod)) % sizeMod

/-- The conversion `static_cast<std::size_t>( i )` of an `int`. -/
def castSize (i : Int) : Nat := (i % (sizeMod : Int)).toNat

/-! ## Counts and totals (declared in `catch_totals.hpp`) -/

/-- Modelled from the spec: the `Counts` record of `catch_totals.hpp`, which is
not among the sources; three `std::size_t` counters. -/
structure Counts where
  passed : Nat
  failed : Nat
  failedButOk : Nat
  deriving DecidableEq, Repr

/-- Value-initialised counts `Counts()`. -/
def Counts.zero : Counts := ⟨0, 0, 0⟩

/-- Modelled from the spec: `Counts::operator-`, field by field. -/
def Counts.sub (a b : Counts) : Counts :=
  ⟨subSize a.passed b.passed, subSize a.failed b.failed, subSize a.failedButOk b.failedButOk⟩

/-- Modelled from the spec: `Counts::operator+=`, field by field. -/
def Counts.add (a b : Counts) : Counts :=
  ⟨addSize a.passed b.passed, addSize a.failed b.failed, addSize a.failedButOk b.failedButOk⟩

/-- Modelled from the spec: `Counts::total()`, the sum of the three counters. -/
def Counts.total (c : Counts) : Nat := (c.passed + c.failed + c.failedButOk) % sizeMod

/-- Modelled from the spec: the `Totals` record of `catch_totals.hpp`; assertion
counts and test-case counts. -/
structure Totals where
  assertions : Counts
  testCases : Counts
  deriving DecidableEq, Repr

/-- Value-initialised totals `Totals()`. -/
def Totals.zero : Totals := ⟨Counts.zero, Counts.zero⟩

/-- Modelled from the spec: `Totals::delta( prevTotals )`, which the spec
describes as the elementwise subtraction of the earlier snapshot. -/
def Totals.delta (t prev : Totals) : Totals :=
  ⟨t.assertions.sub prev.assertions, t.testCases.sub prev.testCases⟩

/-! ## Plain data carried by the callbacks -/

/-- Source location `SourceLineInfo`. -/
structure SourceLineInfo where
  file : String
  line : Nat
  deriving DecidableEq, Repr

/-- Modelled from the spec: the stream rendering of a `SourceLineInfo`
(`catch_common.hpp` is not among the sources), as `file:line`. -/
def SourceLineInfo.render (l : SourceLineInfo) : String :=
  l.file ++ ":" ++ toString l.line

/-- Result kinds `ResultWas::OfType` (declared in `catch_result_type.h`). -/
inductive ResultWas where
  | Unknown
  | Ok
  | Info
  | Warning
  | ExpressionFailed
  | ExplicitFailure
  | ThrewException
  | DidntThrowException
  | FatalErrorCondition
  deriving DecidableEq, Repr

/-- Disposition flags `ResultDisposition::Flags`, kept as the flag word. -/
abbrev ResultDisposition := Nat

/-- The flag `ResultDisposition::Normal`. -/
def ResultDisposition.Normal : ResultDisposition := 1

/-- An `AssertionResult` as the run context observes it: `getResultType()` and
`isOk()` are its two observations, `message` the text it carries. -/
structure AssertionResult where
  resultType : ResultWas
  isOk : Bool
  message : String
  deriving DecidableEq, Repr

/-- Whether `assertionEnded` counts a result as passed: its type is `Ok`. -/
def AssertionResult.countsPassed (r : AssertionResult) : Bool :=
  decide (r.resultType = ResultWas.Ok)

/-- Whether `assertionEnded` counts a result as failed: its type is not `Ok`
and `isOk()` is false. -/
def AssertionResult.countsFailed (r : AssertionResult) : Bool :=
  !r.countsPassed && !r.isOk

/-- The record `AssertionInfo`. -/
structure AssertionInfo where
  macroName : String
  lineInfo : SourceLineInfo
  capturedExpression : String
  resultDisposition : ResultDisposition
  deriving DecidableEq, Repr

/-- Modelled from the spec: the record `MessageInfo` of `catch_message.h`, which
is not among the sources; equality is structural. -/
structure MessageInfo where
  macroName : String
  lineInfo : SourceLineInfo
  message : String
  sequence : Nat
  deriving DecidableEq, Repr

/-- The record `SectionInfo`. -/
structure SectionInfo where
  name : String
  description : String
  lineInfo : SourceLineInfo
  deriving DecidableEq, Repr

/-- The key under which `sectionStarted` acquires the tracker of a section:
what `oss << sectionInfo.name << "@" << sectionInfo.lineInfo` writes. -/
def SectionInfo.key (sectionInfo : SectionInfo) : String :=
  sectionInfo.name ++ "@" ++ sectionInfo.lineInfo.render

/-- The record `SectionEndInfo`. -/
structure SectionEndInfo where
  sectionInfo : SectionInfo
  prevAssertions : Counts
  durationInSeconds : Nat
  deriving DecidableEq, Repr

/-- The record `SectionStats` handed to the reporter. -/
structure SectionStats where
  sectionInfo : SectionInfo
  assertions : Counts
  durationInSeconds : Nat
  missingAssertions : Bool
  deriving DecidableEq, Repr

/-- The record `AssertionStats` handed to the reporter. -/
structure AssertionStats where
  assertionResult : AssertionResult
  infoMessages : List MessageInfo
  totals : Totals
  deriving DecidableEq, Repr

/-- The static part of a `TestCase` (`TestCaseInfo`). -/
structure TestCaseInfo where
  name : String
  description : String
  lineInfo : SourceLineInfo
  okToFail : Bool
  deriving DecidableEq, Repr

/-- The record `TestCaseStats` handed to the reporter. -/
structure TestCaseStats where
  testInfo : TestCaseInfo
  totals : Totals
  stdOut : String
  stdErr : String
  aborting : Bool
  deriving DecidableEq, Repr

/-- The record `GroupInfo`. -/
structure GroupInfo where
  name : String
  groupIndex : Nat
  groupsCounts : Nat
  deriving DecidableEq, Repr

/-- The record `TestGroupStats` handed to the reporter. -/
structure TestGroupStats where
  groupInfo : GroupInfo
  totals : Totals
  aborting : Bool
  deriving DecidableEq, Repr

/-- The record `TestRunStats` handed to the reporter. -/
structure TestRunStats where
  runInfo : String
  totals : Totals
  aborting : Bool
  deriving DecidableEq, Repr

/-- One call received by the `IStreamingReporter`. -/
inductive Event where
  | testRunStarting (runInfo : String)
  | testGroupStarting (groupInfo : GroupInfo)
  | testCaseStarting (testInfo : TestCaseInfo)
  | sectionStarting (sectionInfo : SectionInfo)
  | assertionEnded (stats : AssertionStats)
  | sectionEnded (stats : SectionStats)
  | testCaseEnded (stats : TestCaseStats)
  | testGroupEnded (stats : TestGroupStats)
  | testRunEnded (stats : TestRunStats)
  deriving DecidableEq, Repr

/-- The configuration `IConfig` as far as the run context reads it. -/
structure IConfig where
  name : String
  abortAfter : Int
  warnAboutMissingAssertions : Bool
  deriving DecidableEq, Repr

/-- The reporter: the events received so far, whether `assertionEnded` answers
that it consumed the pending messages, and the preference
`shouldRedirectStdOut`. -/
structure Reporter where
  log : List Event
  consumes : AssertionStats → Bool
  shouldRedirectStdOut : Bool

/-- Deliver one event to the reporter. -/
def Reporter.emit (r : Reporter) (e : Event) : Reporter := { r with log := r.log ++ [e] }

/-! ## Traversal context and tracking handles (`catch_test_case_tracker.hpp`)

The tracker header is not among the sources.  The run context uses it through
`startRun`, `startCycle`, `SectionTracker::acquire`, `currentTracker`, and on a
handle `isOpen`, `isSuccessfullyCompleted`, `hasChildren`, `close` and `fail`.
The tree of named nodes is held as a zipper whose focus is the current tracker.
-/

/-- Modelled from the spec: the per-node progress flag of a tracking handle
(not started, open, open with an opened child, failed below, complete, failed). -/
inductive CycleState where
  | NotStarted
  | Executing
  | ExecutingChildren
  | NeedsAnotherRun
  | CompletedSuccessfully
  | Failed
  deriving DecidableEq, Repr

/-- Modelled from the spec: the children of a tracking node, in insertion order;
each child has a name, a progress flag and children of its own. -/
inductive Trackers where
  | nil : Trackers
  | cons (name : String) (runState : CycleState) (children : Trackers) (rest : Trackers) : Trackers
  deriving DecidableEq, Repr

/-- Modelled from the spec: one tracking node. -/
structure Tracker where
  name : String
  runState : CycleState
  children : Trackers
  deriving DecidableEq, Repr

namespace Trackers

/-- Put a node in front of a sibling list. -/
def consT (t : Tracker) (ts : Trackers) : Trackers := cons t.name t.runState t.children ts

/-- Concatenation of sibling lists. -/
def append : Trackers → Trackers → Trackers
  | nil, bs => bs
  | cons n s c r, bs => cons n s c (append r bs)

/-- The operation `m_children.push_back( child )`. -/
def push_back (ts : Trackers) (t : Tracker) : Trackers := append ts (consT t nil)

/-- Number of children. -/
def length : Trackers → Nat
  | nil => 0
  | cons _ _ _ r => length r + 1

/-- The last child, `m_children.back()`. -/
def back? : Trackers → Option Tracker
  | nil => none
  | cons n s c nil => some ⟨n, s, c⟩
  | cons _ _ _ (cons n s c r) => back? (cons n s c r)

/-- The child at position `i`. -/
def get? : Trackers → Nat → Option Tracker
  | nil, _ => none
  | cons n s c _, 0 => some ⟨n, s, c⟩
  | cons _ _ _ r, i + 1 => get? r i

/-- The children before position `i`. -/
def take : Nat → Trackers → Trackers
  | 0, _ => nil
  | _ + 1, nil => nil
  | i + 1, cons n s c r => cons n s c (take i r)

/-- The children from position `i` on. -/
def drop : Nat → Trackers → Trackers
  | 0, ts => ts
  | _ + 1, nil => nil
  | i + 1, cons _ _ _ r => drop i r

/-- The names of the children, in order. -/
def names : Trackers → List String
  | nil => []
  | cons n _ _ r => n :: names r

/-- Position of the first child called `name` (`findChild`). -/
def findIdx? (name : String) : Trackers → Option Nat
  | nil => none
  | cons n _ _ r => if n = name then some 0 else (findIdx? name r).map (· + 1)

end Trackers

/-- Modelled from the spec: `isComplete()`, completed successfully or failed. -/
def CycleState.isComplete (s : CycleState) : Bool :=
  s = CycleState.CompletedSuccessfully || s = CycleState.Failed

/-- Modelled from the spec: `isOpen()`, started but not complete. -/
def CycleState.isOpen (s : CycleState) : Bool :=
  s ≠ CycleState.NotStarted && !s.isComplete

/-- Modelled from the spec: an ancestor of the current tracker with the hole
where the path to the current tracker passes; the siblings before and after the
hole. -/
structure Frame where
  name : String
  runState : CycleState
  before : Trackers
  after : Trackers
  deriving DecidableEq, Repr

/-- Fill the hole of a frame with a node. -/
def Frame.plug (f : Frame) (t : Tracker) : Tracker :=
  ⟨f.name, f.runState, f.before.append (Trackers.consT t f.after)⟩

/-- Modelled from the spec: the tracker tree focused at one node; `frames` are
the ancestors of the focus, innermost first. -/
structure Zipper where
  focus : Tracker
  frames : List Frame
  deriving DecidableEq, Repr

namespace Zipper

/-- The child-index path of the focus from the root. -/
def path (z : Zipper) : List Nat := (z.frames.map (fun f => f.before.length)).reverse

/-- The whole tree. -/
def root (z : Zipper) : Tracker := z.frames.foldl (fun t f => f.plug t) z.focus

/-- Move the focus to the parent (`moveToParent`); stays at the root. -/
def up (z : Zipper) : Zipper :=
  match z.frames with
  | [] => z
  | f :: fs => ⟨f.plug z.focus, fs⟩

/-- Move the focus to child `i`, when there is one. -/
def down (z : Zipper) (i : Nat) : Option Zipper :=
  match z.focus.children.get? i with
  | none => none
  | some c =>
    some ⟨c, ⟨z.focus.name, z.focus.runState, z.focus.children.take i,
               z.focus.children.drop (i + 1)⟩ :: z.frames⟩

/-- Move the focus from here down along a path. -/
def descend : Zipper → List Nat → Option Zipper
  | z, [] => some z
  | z, i :: p => match z.down i with
    | none => none
    | some z1 => descend z1 p

/-- Move the focus to the node a handle points to, leaving every node as it is. -/
def focusAt (z : Zipper) (h : List Nat) : Option Zipper := descend ⟨z.root, []⟩ h

end Zipper

/-- The node at a child-index path below `t`. -/
def Tracker.get? : Tracker → List Nat → Option Tracker
  | t, [] => some t
  | t, i :: p => match t.children.get? i with
    | none => none
    | some c => Tracker.get? c p

/-- Modelled from the spec: the run state of the traversal context. -/
inductive RunState where
  | NotStarted
  | Executing
  | CompletedCycle
  deriving DecidableEq, Repr

/-- Modelled from the spec: the traversal context `TrackerContext`.  `tree` is
the tracker tree (absent before `startRun`), focused at the current tracker. -/
structure TrackerContext where
  tree : Option Zipper
  m_runState : RunState
  deriving DecidableEq, Repr

/-- A tracking handle `ITracker*`: the child-index path of the node. -/
abbrev Handle := List Nat

/-- Modelled from the spec: `openChild()`, which marks a node and, as long as
the mark is new, its ancestors as having an opened child. -/
def openChild : List Frame → List Frame
  | [] => []
  | f :: fs =>
    if f.runState = CycleState.ExecutingChildren then f :: fs
    else { f with runState := CycleState.ExecutingChildren } :: openChild fs

namespace TrackerContext

/-- A traversal context on which no run has been started. -/
def init : TrackerContext := ⟨none, RunState.NotStarted⟩

/-- Modelled from the spec: `startRun()`, a fresh tree holding only the root. -/
def startRun (_c : TrackerContext) : TrackerContext :=
  ⟨some ⟨⟨"\x7broot\x7d", CycleState.NotStarted, Trackers.nil⟩, []⟩, RunState.Executing⟩

/-- Modelled from the spec: `startCycle()`, the root becomes the current
tracker and a new cycle begins. -/
def startCycle (c : TrackerContext) : TrackerContext :=
  ⟨c.tree.map (fun z => ⟨z.root, []⟩), RunState.Executing⟩

/-- Modelled from the spec: `completeCycle()`. -/
def completeCycle (c : TrackerContext) : TrackerContext :=
  { c with m_runState := RunState.CompletedCycle }

/-- Modelled from the spec: `completedCycle()`. -/
def completedCycle (c : TrackerContext) : Bool := c.m_runState = RunState.CompletedCycle

/-- Modelled from the spec: `currentTracker()`, the handle of the focus. -/
def currentTracker (c : TrackerContext) : Handle :=
  match c.tree with
  | none => []
  | some z => z.path

/-- Modelled from the spec: the node a handle points to. -/
def lookup (c : TrackerContext) (h : Handle) : Option Tracker :=
  match c.tree with
  | none => none
  | some z => z.root.get? h

/-- Modelled from the spec: `isOpen()` on a handle. -/
def isOpen (c : TrackerContext) (h : Handle) : Bool :=
  match c.lookup h with
  | none => false
  | some t => t.runState.isOpen

/-- Modelled from the spec: `isSuccessfullyCompleted()` on a handle. -/
def isSuccessfullyCompleted (c : TrackerContext) (h : Handle) : Bool :=
  match c.lookup h with
  | none => false
  | some t => t.runState = CycleState.CompletedSuccessfully

/-- Modelled from the spec: `hasChildren()` on a handle. -/
def hasChildren (c : TrackerContext) (h : Handle) : Bool :=
  match c.lookup h with
  | none => false
  | some t => t.children ≠ Trackers.nil

/-- Modelled from the spec: `SectionTracker::acquire( ctx, name )`.  The child of
the current tracker called `name` is found, or created as the last child; unless
the cycle is already completed or the child is complete, the child is opened: it
becomes the current tracker and its ancestors are marked by `openChild`. -/
def acquire (c : TrackerContext) (name : String) : TrackerContext × Handle :=
  match c.tree with
  | none => (c, [])
  | some z =>
    let found := z.focus.children.findIdx? name
    let kids := match found with
      | some _ => z.focus.children
      | none => z.focus.children.push_back ⟨name, CycleState.NotStarted, Trackers.nil⟩
    let i := match found with
      | some i => i
      | none => z.focus.children.length
    let z1 : Zipper := ⟨{ z.focus with children := kids }, z.frames⟩
    match kids.get? i with
    | none => ({ c with tree := some z1 }, z.path ++ [i])
    | some sec =>
      if !c.completedCycle && !sec.runState.isComplete then
        let f : Frame := ⟨z.focus.name, z.focus.runState, kids.take i, kids.drop (i + 1)⟩
        ({ c with tree := some ⟨{ sec with runState := CycleState.Executing },
                                 openChild (f :: z.frames)⟩ }, z.path ++ [i])
      else ({ c with tree := some z1 }, z.path ++ [i])

/-- Modelled from the spec: the progress flag of a node after `close()`; an open
node becomes complete unless it has opened children of which the last is not
complete. -/
def closedState (t : Tracker) : CycleState :=
  match t.runState with
  | CycleState.Executing => CycleState.CompletedSuccessfully
  | CycleState.ExecutingChildren =>
    match t.children.back? with
    | none => CycleState.CompletedSuccessfully
    | some b => if b.runState.isComplete then CycleState.CompletedSuccessfully
                else CycleState.ExecutingChildren
  | s => s

/-- Modelled from the spec: `close()` on the current tracker.  An open node
becomes complete unless its last child is not complete yet, the parent becomes
the current tracker and the cycle is completed; a node that is not started or
is already complete is left alone. -/
def closeCurrent (c : TrackerContext) : TrackerContext :=
  match c.tree with
  | none => c
  | some z =>
    match z.focus.runState with
    | CycleState.NotStarted => c
    | CycleState.CompletedSuccessfully => c
    | CycleState.Failed => c
    | _ =>
      let z1 : Zipper := ⟨{ z.focus with runState := closedState z.focus }, z.frames⟩
      ⟨some z1.up, RunState.CompletedCycle⟩

/-- Modelled from the spec: the loop at the head of `close()`; trackers below
the handle that are still current are closed first. -/
def closeBelow : Nat → Handle → TrackerContext → TrackerContext
  | 0, _, c => c
  | fuel + 1, h, c =>
    if c.currentTracker = h then c else closeBelow fuel h c.closeCurrent

/-- Modelled from the spec: `close()` on a handle. -/
def close (c : TrackerContext) (h : Handle) : TrackerContext :=
  let c1 := closeBelow c.currentTracker.length h c
  if c1.currentTracker = h then c1.closeCurrent else c1

/-- Modelled from the spec: `fail()` on a handle.  The node is marked failed, its
parent as needing another run, the parent becomes the current tracker and the
cycle is completed. -/
def fail (c : TrackerContext) (h : Handle) : TrackerContext :=
  match c.tree with
  | none => c
  | some z =>
    match z.focusAt h with
    | none => c
    | some z1 =>
      let frames := match z1.frames with
        | [] => []
        | f :: fs => { f with runState := CycleState.NeedsAnotherRun } :: fs
      let z2 : Zipper := ⟨{ z1.focus with runState := CycleState.Failed }, frames⟩
      ⟨some z2.up, RunState.CompletedCycle⟩

end TrackerContext

/-! ## Output streams and `StreamRedirect` -/

/-- The stream buffers of the process by address, and the buffer currently
installed (`rdbuf`) in `Catch::cout()` and in `Catch::cerr()`. -/
structure Streams where
  buffers : List String
  cout : Nat
  cerr : Nat
  deriving DecidableEq, Repr

namespace Streams

/-- The operation `stream.rdbuf()`; `toCerr` selects `Catch::cerr()`. -/
def rdbuf (s : Streams) (toCerr : Bool) : Nat := if toCerr then s.cerr else s.cout

/-- The operation `stream.rdbuf( buf )`. -/
def setRdbuf (s : Streams) (toCerr : Bool) (buf : Nat) : Streams :=
  if toCerr then { s with cerr := buf } else { s with cout := buf }

/-- Write text to a stream: it goes to the buffer installed in the stream. -/
def write (s : Streams) (toCerr : Bool) (text : String) : Streams :=
  { s with buffers := s.buffers.set (s.rdbuf toCerr) (s.buffers.getD (s.rdbuf toCerr) "" ++ text) }

/-- A sequence of writes, each to `Catch::cerr()` or `Catch::cout()`. -/
def writes (ws : List (Bool × String)) (s : Streams) : Streams :=
  ws.foldl (fun st w => st.write w.1 w.2) s

/-- What a sequence of writes sends to one of the two streams, in order. -/
def written (toCerr : Bool) : List (Bool × String) → String
  | [] => ""
  | w :: ws => if w.1 = toCerr then w.2 ++ written toCerr ws else written toCerr ws

end Streams

/-- A live `StreamRedirect`: the stream it redirects, the buffer that was
installed before, and the buffer of its own `m_oss`. -/
structure StreamRedirect where
  toCerr : Bool
  m_prevBuf : Nat
  m_oss : Nat
  deriving DecidableEq, Repr

/-- The constructor `StreamRedirect( stream, targetString )`: remembers the
installed buffer and installs the buffer of a new string stream. -/
def StreamRedirect.create (s : Streams) (toCerr : Bool) : Streams × StreamRedirect :=
  let oss := s.buffers.length
  (({ s with buffers := s.buffers ++ [""] } : Streams).setRdbuf toCerr oss,
   ⟨toCerr, s.rdbuf toCerr, oss⟩)

/-- The destructor `~StreamRedirect()`: appends what `m_oss` holds to the target
string and installs the remembered buffer again. -/
def StreamRedirect.release (r : StreamRedirect) (s : Streams) (targetString : String) :
    Streams × String :=
  (s.setRdbuf r.toCerr r.m_prevBuf, targetString ++ s.buffers.getD r.m_oss "")

/-! ## The global run-context slot -/

/-- The function `setGlobalRunContext( context )` on the slot
`g_globalRunContext`; `none` is the null pointer.  The result is `none` when the
assertion fails, otherwise the new content of the slot. -/
def setGlobalRunContext {α : Type} (g_globalRunContext : Option α) (context : Option α) :
    Option (Option α) :=
  if g_globalRunContext.isNone || context.isNone then some context else none

/-- The function `tryGetGlobalRunContext()`: the value returned, next to the
slot after the call. -/
def tryGetGlobalRunContext {α : Type} (g_globalRunContext : Option α) :
    Option α × Option α :=
  (g_globalRunContext, g_globalRunContext)

/-! ## The run context -/

/-- The members of `RunContext`, and the process-wide output streams. -/
structure RunContext where
  m_runInfo : String
  m_config : IConfig
  m_reporter : Reporter
  m_trackerContext : TrackerContext
  m_totals : Totals
  m_activeTestCaseInfo : Option TestCaseInfo
  m_lastResult : AssertionResult
  m_lastAssertionInfo : AssertionInfo
  m_unfinishedSections : List SectionEndInfo
  m_activeSections : List Handle
  m_messages : List MessageInfo
  streams : Streams

namespace RunContext

/-- The constructor `RunContext( config, reporter )` after registration in the
global slot: default members, and `testRunStarting` reported. -/
def create (config : IConfig) (reporter : Reporter) (streams : Streams) : RunContext :=
  { m_runInfo := config.name
    m_config := config
    m_reporter := reporter.emit (Event.testRunStarting config.name)
    m_trackerContext := TrackerContext.init
    m_totals := Totals.zero
    m_activeTestCaseInfo := none
    m_lastResult := ⟨ResultWas.Unknown, true, ""⟩
    m_lastAssertionInfo := ⟨"", ⟨"", 0⟩, "", ResultDisposition.Normal⟩
    m_unfinishedSections := []
    m_activeSections := []
    m_messages := []
    streams := streams }

/-- The method `isAborting()`. -/
def isAborting (rc : RunContext) : Bool :=
  rc.m_totals.assertions.failed = castSize rc.m_config.abortAfter

/-- The method `testGroupEnded( testSpec, totals, groupIndex, groupsCount )`. -/
def testGroupEnded (rc : RunContext) (testSpec : String) (totals : Totals)
    (groupIndex groupsCount : Nat) : RunContext :=
  let stats : TestGroupStats := ⟨⟨testSpec, groupIndex, groupsCount⟩, totals, rc.isAborting⟩
  { rc with m_reporter := rc.m_reporter.emit (Event.testGroupEnded stats) }

/-- The counters after the first statement of `assertionEnded`. -/
def countAssertion (t : Totals) (result : AssertionResult) : Totals :=
  if result.resultType = ResultWas.Ok then
    { t with assertions := { t.assertions with passed := incr t.assertions.passed } }
  else if !result.isOk then
    { t with assertions := { t.assertions with failed := incr t.assertions.failed } }
  else t

/-- The method `assertionEnded( result )`. -/
def assertionEnded (rc : RunContext) (result : AssertionResult) : RunContext :=
  let totals := countAssertion rc.m_totals result
  let stats : AssertionStats := ⟨result, rc.m_messages, totals⟩
  { rc with
    m_totals := totals
    m_reporter := rc.m_reporter.emit (Event.assertionEnded stats)
    m_messages := if rc.m_reporter.consumes stats then [] else rc.m_messages
    m_lastAssertionInfo :=
      ⟨"", rc.m_lastAssertionInfo.lineInfo,
       "\x7bUnknown expression after the reported line\x7d",
       rc.m_lastAssertionInfo.resultDisposition⟩
    m_lastResult := result }

/-- The method `sectionStarted( sectionInfo, assertions )`; `assertions` is the
output parameter, returned as the third component. -/
def sectionStarted (rc : RunContext) (sectionInfo : SectionInfo) (assertions : Counts) :
    RunContext × Bool × Counts :=
  let acq := rc.m_trackerContext.acquire sectionInfo.key
  let rc1 := { rc with m_trackerContext := acq.1 }
  if !rc1.m_trackerContext.isOpen acq.2 then (rc1, false, assertions)
  else
    ({ rc1 with
       m_activeSections := rc1.m_activeSections ++ [acq.2]
       m_lastAssertionInfo := { rc1.m_lastAssertionInfo with lineInfo := sectionInfo.lineInfo }
       m_reporter := rc1.m_reporter.emit (Event.sectionStarting sectionInfo) },
     true, rc1.m_totals.assertions)

/-- The method `testForMissingAssertions( assertions )`; the updated counts of
the caller are the second component. -/
def testForMissingAssertions (rc : RunContext) (assertions : Counts) :
    RunContext × Counts × Bool :=
  if assertions.total ≠ 0 then (rc, assertions, false)
  else if !rc.m_config.warnAboutMissingAssertions then (rc, assertions, false)
  else if rc.m_trackerContext.hasChildren rc.m_trackerContext.currentTracker then
    (rc, assertions, false)
  else
    let counted : Counts :=
      { rc.m_totals.assertions with failed := incr rc.m_totals.assertions.failed }
    ({ rc with m_totals := { rc.m_totals with assertions := counted } },
     { assertions with failed := incr assertions.failed }, true)

/-- Lines 196 to 199 of `sectionEnded`: when `m_activeSections` is not empty,
its last handle is closed and popped. -/
def closeBack (rc : RunContext) : RunContext :=
  match rc.m_activeSections.getLast? with
  | some back => { rc with
      m_trackerContext := rc.m_trackerContext.close back
      m_activeSections := rc.m_activeSections.dropLast }
  | none => rc

/-- The method `sectionEnded( endInfo )`. -/
def sectionEnded (rc : RunContext) (endInfo : SectionEndInfo) : RunContext :=
  let r := rc.testForMissingAssertions (rc.m_totals.assertions.sub endInfo.prevAssertions)
  let rc2 := r.1.closeBack
  let stats : SectionStats := ⟨endInfo.sectionInfo, r.2.1, endInfo.durationInSeconds, r.2.2⟩
  { rc2 with
    m_reporter := rc2.m_reporter.emit (Event.sectionEnded stats)
    m_messages := [] }

/-- The method `sectionEndedEarly( endInfo )`. -/
def sectionEndedEarly (rc : RunContext) (endInfo : SectionEndInfo) : RunContext :=
  let tc := match rc.m_activeSections.getLast? with
    | some back =>
      if rc.m_unfinishedSections.isEmpty then rc.m_trackerContext.fail back
      else rc.m_trackerContext.close back
    | none => rc.m_trackerContext
  { rc with
    m_trackerContext := tc
    m_activeSections := rc.m_activeSections.dropLast
    m_unfinishedSections := rc.m_unfinishedSections ++ [endInfo] }

/-- The method `pushScopedMessage( message )`. -/
def pushScopedMessage (rc : RunContext) (message : MessageInfo) : RunContext :=
  { rc with m_messages := rc.m_messages ++ [message] }

/-- The method `popScopedMessage( message )`: erase-remove by value. -/
def popScopedMessage (rc : RunContext) (message : MessageInfo) : RunContext :=
  { rc with m_messages := rc.m_messages.filter (fun m => m ≠ message) }

/-- The method `getCurrentTestName()`. -/
def getCurrentTestName (rc : RunContext) : String :=
  match rc.m_activeTestCaseInfo with
  | some info => info.name
  | none => ""

/-- The method `handleUnfinishedSections()`. -/
def handleUnfinishedSections (rc : RunContext) : RunContext :=
  { (rc.m_unfinishedSections.reverse.foldl sectionEnded rc) with m_unfinishedSections := [] }

end RunContext

/-! ## Test units and their bodies -/

/-- Modelled from the spec: what a test unit does when invoked, as the sequence
of callbacks it issues.  A section follows the `Section` guard of
`catch_section.hpp`, which is not among the sources: `sectionStarted` on entry,
the inner body when that returned true, then `sectionEnded`, or
`sectionEndedEarly` when an exception passes through it.  `elapsed` is what the
timer of the section reads at its end. -/
inductive Body where
  | done : Body
  | assertion (result : AssertionResult) (rest : Body) : Body
  | inSection (info : SectionInfo) (elapsed : Nat) (inner : Body) (rest : Body) : Body
  | write (toCerr : Bool) (text : String) (rest : Body) : Body
  | throwTestFailure : Body
  | throwOther (what : String) : Body
  deriving Repr

/-- How an invocation of a test unit ends. -/
inductive Outcome where
  | returned
  | testFailure
  | otherException (what : String)
  deriving DecidableEq, Repr

/-- A test unit `TestCase`: its `TestCaseInfo`, its body, and what the timer
reads when a pass over it returns. -/
structure TestCase extends TestCaseInfo where
  body : Body
  elapsed : Nat

/-- Modelled from the spec: the builder `ResultBuilder` of
`catch_result_builder.h`, which is not among the sources; it is seeded from an
`AssertionInfo` and carries a result type and a message. -/
structure ResultBuilder where
  assertionInfo : AssertionInfo
  resultType : ResultWas
  message : String
  deriving DecidableEq, Repr

namespace RunContext

/-- The method `makeUnexpectedResultBuilder()`. -/
def makeUnexpectedResultBuilder (rc : RunContext) : ResultBuilder :=
  ⟨rc.m_lastAssertionInfo, ResultWas.Unknown, ""⟩

/-- Modelled from the spec: `ResultBuilder::useActiveException()`, which
synthesises a failing result carrying the description of the exception and
hands it to `assertionEnded`. -/
def useActiveException (rc : RunContext) (_b : ResultBuilder) (what : String) : RunContext :=
  rc.assertionEnded ⟨ResultWas.ThrewException, false, what⟩

/-- Modelled from the spec: `ResultBuilder::captureExpression()`, which hands
the failing result built so far to `assertionEnded`. -/
def captureExpression (rc : RunContext) (b : ResultBuilder) : RunContext :=
  rc.assertionEnded ⟨b.resultType, false, b.message⟩

/-- The method `invokeTestCase( testCase )`: the callbacks of the body are
applied in order; an exception skips what follows it. -/
def invoke : Body → RunContext → RunContext × Outcome
  | Body.done, rc => (rc, Outcome.returned)
  | Body.assertion result rest, rc => invoke rest (rc.assertionEnded result)
  | Body.inSection info elapsed inner rest, rc =>
    let r := rc.sectionStarted info Counts.zero
    if r.2.1 then
      match invoke inner r.1 with
      | (rc2, Outcome.returned) => invoke rest (rc2.sectionEnded ⟨info, r.2.2, elapsed⟩)
      | (rc2, o) => (rc2.sectionEndedEarly ⟨info, r.2.2, elapsed⟩, o)
    else invoke rest r.1
  | Body.write toCerr text rest, rc =>
    invoke rest { rc with streams := rc.streams.write toCerr text }
  | Body.throwTestFailure, rc => (rc, Outcome.testFailure)
  | Body.throwOther what, rc => (rc, Outcome.otherException what)

/-- The result of the stages of one pass: the context, the two capture
strings, and a value of the stage. -/
structure PassState (α : Type) where
  rc : RunContext
  redirectedCout : String
  redirectedCerr : String
  val : α

/-- The single-pass `runTest`, lines 277 to 297: `sectionStarting` for the
whole unit, then the `try` block; the output redirections are released when the
block is left, by return or by exception.  The value is how the invocation of
the unit ended. -/
def passRan (rc : RunContext) (testCase : TestCase) (redirectedCout redirectedCerr : String) :
    PassState Outcome :=
  let testCaseSection : SectionInfo :=
    ⟨testCase.name, testCase.description, testCase.lineInfo⟩
  let rc1 := { rc with m_reporter := rc.m_reporter.emit (Event.sectionStarting testCaseSection) }
  let rc2 := { rc1 with
    m_lastAssertionInfo := ⟨"TEST_CASE", testCase.lineInfo, "", ResultDisposition.Normal⟩ }
  if rc2.m_reporter.shouldRedirectStdOut then
    let coutRedir := StreamRedirect.create rc2.streams false
    let cerrRedir := StreamRedirect.create coutRedir.1 true
    let r := invoke testCase.body { rc2 with streams := cerrRedir.1 }
    let e := cerrRedir.2.release r.1.streams redirectedCerr
    let o := coutRedir.2.release e.1 redirectedCout
    ⟨{ r.1 with streams := o.1 }, o.2, e.2, r.2⟩
  else
    let r := invoke testCase.body rc2
    ⟨r.1, redirectedCout, redirectedCerr, r.2⟩

/-- The single-pass `runTest`, lines 277 to 303: the `try` block with its two
handlers.  The value is the duration. -/
def passInvoke (rc : RunContext) (testCase : TestCase) (redirectedCout redirectedCerr : String) :
    PassState Nat :=
  let ran := passRan rc testCase redirectedCout redirectedCerr
  match ran.val with
  | Outcome.returned => { ran with val := testCase.elapsed }
  | Outcome.testFailure => { ran with val := 0 }
  | Outcome.otherException what =>
    { ran with
      rc := ran.rc.useActiveException ran.rc.makeUnexpectedResultBuilder what
      val := 0 }

/-- The single-pass `runTest`, lines 304 to 307: the current tracker is closed,
the unfinished sections are replayed, the pending messages are cleared. -/
def passClose (rc : RunContext) : RunContext :=
  let rc1 := { rc with
    m_trackerContext := rc.m_trackerContext.close rc.m_trackerContext.currentTracker }
  { rc1.handleUnfinishedSections with m_messages := [] }

/-- The counts handed to the reporter at line 318: for a unit that is
`okToFail` the `failed` and `failedButOk` counts of the pass are swapped. -/
def passAssertions (testCase : TestCase) (assertions : Counts) : Counts :=
  if testCase.okToFail then
    { assertions with failedButOk := assertions.failed, failed := assertions.failedButOk }
  else assertions

/-- The `SectionStats` built at line 318. -/
def passStats (testCase : TestCase) (assertions : Counts) (duration : Nat)
    (missingAssertions : Bool) : SectionStats :=
  ⟨⟨testCase.name, testCase.description, testCase.lineInfo⟩,
   passAssertions testCase assertions, duration, missingAssertions⟩

/-- The single-pass `runTest`, lines 312 to 319: the reclassification for a
unit that is `okToFail`, and `sectionEnded` for the whole unit. -/
def passEnd (rc : RunContext) (testCase : TestCase) (assertions : Counts)
    (duration : Nat) (missingAssertions : Bool) : RunContext :=
  let assertions1 := passAssertions testCase assertions
  let counted : Counts :=
    { rc.m_totals.assertions with
      failed := subSize rc.m_totals.assertions.failed assertions1.failedButOk
      failedButOk := addSize rc.m_totals.assertions.failedButOk assertions1.failedButOk }
  let rc1 := if testCase.okToFail then
      { rc with m_totals := { rc.m_totals with assertions := counted } }
    else rc
  let stats := passStats testCase assertions duration missingAssertions
  { rc1 with m_reporter := rc1.m_reporter.emit (Event.sectionEnded stats) }

/-- The state of a pass after the missing-assertions check of line 310, with
the counts of the pass and the flag of the check. -/
def passCounted (rc : RunContext) (testCase : TestCase)
    (redirectedCout redirectedCerr : String) : PassState (Counts × Bool × Nat) :=
  let prevAssertions := rc.m_totals.assertions
  let p := passInvoke rc testCase redirectedCout redirectedCerr
  let rc1 := passClose p.rc
  let m := rc1.testForMissingAssertions (rc1.m_totals.assertions.sub prevAssertions)
  ⟨m.1, p.redirectedCout, p.redirectedCerr, (m.2.1, m.2.2, p.val)⟩

/-- The private method `runTest( testCase, redirectedCout, redirectedCerr )`:
one pass over the unit. -/
def runTestPass (rc : RunContext) (testCase : TestCase)
    (redirectedCout redirectedCerr : String) : PassState Unit :=
  let c := passCounted rc testCase redirectedCout redirectedCerr
  ⟨passEnd c.rc testCase c.val.1 c.val.2.2 c.val.2.1, c.redirectedCout, c.redirectedCerr, ()⟩

/-- One round of the `do`/`while` loop of the public `runTest`, lines 123 to
127: a new cycle, the tracker of the unit acquired, one pass, and as value the
loop condition. -/
def runTestCycle (rc : RunContext) (testCase : TestCase)
    (redirectedCout redirectedCerr : String) : PassState Bool :=
  let acq := rc.m_trackerContext.startCycle.acquire testCase.name
  let p := runTestPass { rc with m_trackerContext := acq.1 } testCase
    redirectedCout redirectedCerr
  ⟨p.rc, p.redirectedCout, p.redirectedCerr,
   !p.rc.m_trackerContext.isSuccessfullyCompleted acq.2 && !p.rc.isAborting⟩

/-- The `do`/`while` loop of the public `runTest`.  The value is the number of
passes made; the result is `none` when the loop is still running after `fuel`
passes. -/
def runTestLoop : Nat → RunContext → TestCase → String → String → Option (PassState Nat)
  | 0, _, _, _, _ => none
  | fuel + 1, rc, testCase, redirectedCout, redirectedCerr =>
    let p := runTestCycle rc testCase redirectedCout redirectedCerr
    if p.val then
      match runTestLoop fuel p.rc testCase p.redirectedCout p.redirectedCerr with
      | none => none
      | some q => some { q with val := q.val + 1 }
    else some { p with val := 1 }

/-- What the public `runTest` leaves: the context, the returned `Totals`, and
the number of passes it made over the unit. -/
structure RunResult where
  rc : RunContext
  totals : Totals
  passes : Nat

/-- The context on which the `do`/`while` loop of the public `runTest` starts,
lines 112 to 121. -/
def runTestStart (rc : RunContext) (testCase : TestCase) : RunContext :=
  { rc with
    m_activeTestCaseInfo := some testCase.toTestCaseInfo
    m_reporter := rc.m_reporter.emit (Event.testCaseStarting testCase.toTestCaseInfo)
    m_trackerContext := rc.m_trackerContext.startRun }

/-- The public method `runTest( testCase )`. -/
def runTest (fuel : Nat) (rc : RunContext) (testCase : TestCase) : Option RunResult :=
  let prevTotals := rc.m_totals
  match runTestLoop fuel (rc.runTestStart testCase) testCase "" "" with
  | none => none
  | some p =>
    let deltaTotals := p.rc.m_totals.delta prevTotals
    let rc2 := { p.rc with
      m_totals := { p.rc.m_totals with
                    testCases := p.rc.m_totals.testCases.add deltaTotals.testCases } }
    let stats : TestCaseStats :=
      ⟨testCase.toTestCaseInfo, deltaTotals, p.redirectedCout, p.redirectedCerr, rc2.isAborting⟩
    some ⟨{ rc2 with
            m_reporter := rc2.m_reporter.emit (Event.testCaseEnded stats)
            m_activeTestCaseInfo := none }, deltaTotals, p.val⟩

/-- The method `handleFatalErrorCondition( message )`; `none` when there is no
active test unit to dereference. -/
def handleFatalErrorCondition (rc : RunContext) (message : String) : Option RunContext :=
  let resultBuilder : ResultBuilder :=
    { rc.makeUnexpectedResultBuilder with
      resultType := ResultWas.FatalErrorCondition, message := message }
  let rc1 := (rc.captureExpression resultBuilder).handleUnfinishedSections
  match rc1.m_activeTestCaseInfo with
  | none => none
  | some info =>
    let testCaseSection : SectionInfo := ⟨info.name, info.description, info.lineInfo⟩
    let assertions : Counts := { Counts.zero with failed := 1 }
    let testCaseSectionStats : SectionStats := ⟨testCaseSection, assertions, 0, false⟩
    let rc2 := { rc1 with
      m_reporter := rc1.m_reporter.emit (Event.sectionEnded testCaseSectionStats) }
    let deltaTotals : Totals := { Totals.zero with testCases := { Counts.zero with failed := 1 } }
    let testCaseStats : TestCaseStats := ⟨info, deltaTotals, "", "", false⟩
    let rc3 := { rc2 with
      m_reporter := rc2.m_reporter.emit (Event.testCaseEnded testCaseStats) }
    let testCases : Counts :=
      { rc3.m_totals.testCases with failed := incr rc3.m_totals.testCases.failed }
    let rc4 := { rc3 with m_totals := { rc3.m_totals with testCases := testCases } }
    let rc5 := rc4.testGroupEnded "" rc4.m_totals 1 1
    let testRunStats : TestRunStats := ⟨rc5.m_runInfo, rc5.m_totals, false⟩
    some { rc5 with m_reporter := rc5.m_reporter.emit (Event.testRunEnded testRunStats) }

end RunContext

/-! ## The tree of sections of a body -/

namespace Body

/-- Number of leaves among the sections at the top level of a body and below
them; 0 when the body has no section. -/
def sectionLeaves : Body → Nat
  | done => 0
  | assertion _ rest => sectionLeaves rest
  | inSection _ _ inner rest =>
    (if sectionLeaves inner = 0 then 1 else sectionLeaves inner) + sectionLeaves rest
  | write _ _ rest => sectionLeaves rest
  | throwTestFailure => 0
  | throwOther _ => 0

/-- Number of leaves of the tree of nested sections of a body: a body without
section is one leaf. -/
def leaves (b : Body) : Nat := if sectionLeaves b = 0 then 1 else sectionLeaves b

/-- The body reaches its end: it throws nowhere. -/
def throwFree : Body → Bool
  | done => true
  | assertion _ rest => throwFree rest
  | inSection _ _ inner rest => throwFree inner && throwFree rest
  | write _ _ rest => throwFree rest
  | throwTestFailure => false
  | throwOther _ => false

/-- No assertion of the body counts as failed: each has the result type `Ok`
or reports `isOk()`. -/
def noFailure : Body → Bool
  | done => true
  | assertion result rest => (result.resultType = ResultWas.Ok || result.isOk) && noFailure rest
  | inSection _ _ inner rest => noFailure inner && noFailure rest
  | write _ _ rest => noFailure rest
  | throwTestFailure => true
  | throwOther _ => true

/-- The tracker keys of the sections at the top level of a body. -/
def keys : Body → List String
  | done => []
  | assertion _ rest => keys rest
  | inSection info _ _ rest => info.key :: keys rest
  | write _ _ rest => keys rest
  | throwTestFailure => []
  | throwOther _ => []

/-- Sibling sections have different keys, at every level. -/
def distinctKeys : Body → Bool
  | done => true
  | assertion _ rest => distinctKeys rest
  | inSection info _ inner rest =>
    !(keys rest).contains info.key && distinctKeys inner && distinctKeys rest
  | write _ _ rest => distinctKeys rest
  | throwTestFailure => true
  | throwOther _ => true

/-- The progress flag of the tracker of a body that has been passed `j` times. -/
def nodeState (b : Body) (j : Nat) : CycleState :=
  if j = 0 then CycleState.NotStarted
  else if j < leaves b then CycleState.ExecutingChildren
  else CycleState.CompletedSuccessfully

/-- The trackers of the sections at the top level of a body after `j` passes
through them: the passes go to the sections in order, each section taking as
many as it has leaves; a section not reached yet has no children. -/
def kidsAt : Body → Nat → Trackers
  | done, _ => Trackers.nil
  | assertion _ rest, j => kidsAt rest j
  | inSection info _ inner rest, j =>
    Trackers.cons info.key (nodeState inner (min j (leaves inner)))
      (if min j (leaves inner) = 0 then Trackers.nil else kidsAt inner (min j (leaves inner)))
      (kidsAt rest (j - leaves inner))
  | write _ _ rest, j => kidsAt rest j
  | throwTestFailure, _ => Trackers.nil
  | throwOther _, _ => Trackers.nil

/-- The children of the tracker of a body that has been passed `j` times. -/
def kidsOf (b : Body) (j : Nat) : Trackers := if j = 0 then Trackers.nil else kidsAt b j

/-- The traversal context after an invocation of a body that throws nowhere:
each section acquires its tracker and, when that is open, runs its inner body
and closes the tracker. -/
def track : Body → TrackerContext → TrackerContext
  | done, c => c
  | assertion _ rest, c => track rest c
  | inSection info _ inner rest, c =>
    if (c.acquire info.key).1.isOpen (c.acquire info.key).2 then
      track rest ((track inner (c.acquire info.key).1).close (c.acquire info.key).2)
    else track rest (c.acquire info.key).1
  | write _ _ rest, c => track rest c
  | throwTestFailure, c => c
  | throwOther _, c => c

end Body

/-- The traversal context after `j` passes over a unit called `name` with body
`b`: the root tracker with the tracker of the unit as its only child. -/
def trackedAfter (name : String) (b : Body) (j : Nat) : TrackerContext :=
  if j = 0 then TrackerContext.init.startRun
  else
    ⟨some ⟨⟨"\x7broot\x7d", CycleState.ExecutingChildren,
            Trackers.cons name (b.nodeState j) (b.kidsOf j) Trackers.nil⟩, []⟩,
     RunState.CompletedCycle⟩

/-- The state of the public `runTest` after `j` rounds of its loop: the context,
the capture strings and the loop condition after the `j`-th pass. -/
def afterPasses (rc : RunContext) (testCase : TestCase) : Nat → RunContext.PassState Bool
  | 0 => ⟨rc.runTestStart testCase, "", "", true⟩
  | j + 1 =>
    (afterPasses rc testCase j).rc.runTestCycle testCase
      (afterPasses rc testCase j).redirectedCout (afterPasses rc testCase j).redirectedCerr

/-! ## Measures for the counters -/

/-- Number of assertions and sections of a body: a bound on the callbacks that
one pass over it issues. -/
def Body.steps : Body → Nat
  | Body.done => 0
  | Body.assertion _ rest => Body.steps rest + 1
  | Body.inSection _ _ inner rest => Body.steps inner + Body.steps rest + 1
  | Body.write _ _ rest => Body.steps rest
  | Body.throwTestFailure => 0
  | Body.throwOther _ => 0

/-- Each of the five run-wide counters of `a` is at most the one of `b`. -/
def Totals.atMost (a b : Totals) : Prop :=
  a.assertions.passed ≤ b.assertions.passed ∧ a.assertions.failed ≤ b.assertions.failed ∧
  a.assertions.failedButOk ≤ b.assertions.failedButOk ∧
  a.testCases.passed ≤ b.testCases.passed ∧ a.testCases.failed ≤ b.testCases.failed

instance (a b : Totals) : Decidable (a.atMost b) := by
  unfold Totals.atMost; infer_instance

/-- Each of the five run-wide counters can grow by `k` without wrapping around
the range of `std::size_t`. -/
def Totals.headroom (t : Totals) (k : Nat) : Prop :=
  t.assertions.passed + k < sizeMod ∧ t.assertions.failed + k < sizeMod ∧
  t.assertions.failedButOk + k < sizeMod ∧
  t.testCases.passed + k < sizeMod ∧ t.testCases.failed + k < sizeMod

instance (t : Totals) (k : Nat) : Decidable (t.headroom k) := by
  unfold Totals.headroom; infer_instance

/-! ## Failures reported to the reporter -/

/-- Whether an event reports an assertion that was counted as failed: an
`assertionEnded` whose result is neither of type `Ok` nor `isOk()`. -/
def Event.failedAssertion : Event → Bool
  | Event.assertionEnded stats => stats.assertionResult.countsFailed
  | _ => false

/-- Whether an event reports a failure counted by the missing-assertions check:
a `sectionEnded` whose stats carry the flag `missingAssertions`. -/
def Event.missingAssertions : Event → Bool
  | Event.sectionEnded stats => stats.missingAssertions
  | _ => false

/-- Whether an event reports one failure added to the run-wide failed count. -/
def Event.countsFailure (e : Event) : Bool := e.failedAssertion || e.missingAssertions

/-- The state `rc2` comes after `rc`: the reporter has received further events,
and the run-wide failed count, a value of `size_t` in `rc`, has grown by the
number of failures those events report, in `size_t` arithmetic. -/
def RunContext.Tally (rc rc2 : RunContext) : Prop :=
  ∃ evs : List Event, rc2.m_reporter.log = rc.m_reporter.log ++ evs ∧
    (rc.m_totals.assertions.failed < sizeMod →
      rc2.m_totals.assertions.failed
        = (rc.m_totals.assertions.failed + evs.countP Event.countsFailure) % sizeMod)

/-! ## Sample data for concrete runs -/

/-- A reporter that has received nothing yet, consumes pending messages and
does not ask for output redirection. -/
def sampleReporter : Reporter := ⟨[], fun _ => true, false⟩

/-- Two stream buffers, the first installed in `Catch::cout()`, the second in
`Catch::cerr()`. -/
def sampleStreams : Streams := ⟨["", ""], 0, 1⟩

/-- A configuration with the given abort threshold and no warning about
missing assertions. -/
def sampleConfig (abortAfter : Int) : IConfig := ⟨"run", abortAfter, false⟩

/-- A freshly constructed run context with the given abort threshold. -/
def sampleContext (abortAfter : Int) : RunContext :=
  RunContext.create (sampleConfig abortAfter) sampleReporter sampleStreams

/-- A section called `name` at line `line` of `test.cpp`. -/
def sampleSection (name : String) (line : Nat) : SectionInfo := ⟨name, "", ⟨"test.cpp", line⟩⟩

/-- A test unit called `name` with the given body. -/
def sampleTestCase (name : String) (okToFail : Bool) (body : Body) : TestCase :=
  { name := name, description := "", lineInfo := ⟨"test.cpp", 1⟩, okToFail := okToFail,
    body := body, elapsed := 0 }

/-- A passing assertion result. -/
def passingResult : AssertionResult := ⟨ResultWas.Ok, true, ""⟩

/-- A failing assertion result. -/
def failingResult : AssertionResult := ⟨ResultWas.ExpressionFailed, false, ""⟩

/-- A run context inside a pass over unit `T`, with sections `A`, `B` and `C`
entered one inside the other and none of them left. -/
def threeOpenSections : RunContext :=
  let rc := sampleContext (-1)
  let unit := sampleTestCase "T" false Body.done
  let rc1 := { rc with
    m_activeTestCaseInfo := some unit.toTestCaseInfo
    m_trackerContext := (rc.m_trackerContext.startRun.startCycle.acquire "T").1 }
  let rc2 := (rc1.sectionStarted (sampleSection "A" 2) Counts.zero).1
  let rc3 := (rc2.sectionStarted (sampleSection "B" 3) Counts.zero).1
  (rc3.sectionStarted (sampleSection "C" 4) Counts.zero).1

/-- A body with three sections: `B` inside `A` records a failure and raises
the test-failure signal, `C` throws another exception. -/
def throwingBody : Body :=
  Body.inSection (sampleSection "A" 2) 0
    (Body.inSection (sampleSection "B" 3) 0
      (Body.assertion failingResult Body.throwTestFailure) Body.done)
    (Body.inSection (sampleSection "C" 4) 0 (Body.throwOther "boom") Body.done)

/-- A unit flagged `okToFail` that records a failing and a passing assertion. -/
def okToFailUnit : TestCase :=
  sampleTestCase "T" true (Body.assertion failingResult (Body.assertion passingResult Body.done))

/-- A unit that records one failing assertion. -/
def failingUnit (name : String) : TestCase :=
  sampleTestCase name false (Body.assertion failingResult Body.done)

/-- What `runTest` on a unit with one failing assertion leaves of a fresh run
context with the abort threshold 1. -/
def afterFirstUnit : RunContext.RunResult :=
  match (RunContext.create (sampleConfig 1) sampleReporter sampleStreams).runTest 3
      (failingUnit "first") with
  | some res => res
  | none => ⟨sampleContext 1, Totals.zero, 0⟩

/-- A body with two independent sections at the top level, each recording one
passing assertion. -/
def twoSections : Body :=
  Body.inSection (sampleSection "A" 2) 0 (Body.assertion passingResult Body.done)
    (Body.inSection (sampleSection "B" 3) 0 (Body.assertion passingResult Body.done) Body.done)

/-- The end record of the sample section `name` at line `line`, entered with no
assertion counted. -/
def sampleEndInfo (name : String) (line : Nat) : SectionEndInfo :=
  ⟨sampleSection name line, Counts.zero, 0⟩

/-- A unit that is not `okToFail`, records one failing assertion and then leaves
by an exception: the `TestFailureException` signal for `none`, another exception
with the given description otherwise. -/
def throwingUnit (what : Option String) : TestCase :=
  sampleTestCase "T" false (Body.assertion failingResult
    (match what with
     | none => Body.throwTestFailure
     | some w => Body.throwOther w))

/-- A unit flagged `okToFail` with two independent sections at the top level,
each recording one failing assertion. -/
def okToFailSections : TestCase :=
  sampleTestCase "T" true
    (Body.inSection (sampleSection "A" 2) 0 (Body.assertion failingResult Body.done)
      (Body.inSection (sampleSection "B" 3) 0 (Body.assertion failingResult Body.done) Body.done))

/-- A body that records `n` failing assertions and then goes on as `rest`. -/
def failures : Nat → Body → Body
  | 0, rest => rest
  | n + 1, rest => Body.assertion failingResult (failures n rest)

/-- A unit, not `okToFail`, that records `t + 1` failing assertions and then has
the two passing sections of `twoSections`. -/
def overshootUnit (t : Nat) : TestCase := sampleTestCase "T" false (failures (t + 1) twoSections)

/-- A unit flagged `okToFail` that records `t` failing assertions. -/
def okToFailFailures (t : Nat) : TestCase := sampleTestCase "T" true (failures t Body.done)

/-- A fresh run context with the abort threshold `t` after `n` calls of
`assertionEnded` with a failing result. -/
def afterFailures (t : Int) (n : Nat) : RunContext :=
  (List.replicate n failingResult).foldl RunContext.assertionEnded (sampleContext t)

/-- A configuration with the given abort threshold and the warning about
missing assertions on. -/
def warningConfig (abortAfter : Int) : IConfig := ⟨"run", abortAfter, true⟩

/-- A unit, not `okToFail`, with an empty section followed by one failing
assertion. -/
def emptySectionUnit : TestCase :=
  sampleTestCase "first" false
    (Body.inSection (sampleSection "A" 2) 0 Body.done (Body.assertion failingResult Body.done))

/-- A unit, not `okToFail`, with the two sections of `twoSections`, one passing
assertion in each. -/
def twoSectionsUnit : TestCase := sampleTestCase "second" false twoSections

/-! # Properties -/

/-! ## Machine integers -/

theorem castSize_lt (i : Int) : castSize i < sizeMod := by
  unfold castSize sizeMod
  omega

theorem castSize_zero : castSize 0 = 0 := by
  unfold castSize sizeMod; rfl

theorem subSize_self (x : Nat) : subSize x x = 0 := by
  unfold subSize sizeMod; omega

/-! ## Counting assertions -/

/-- C1: `assertionEnded( r )` changes the run-wide assertion counters in exactly
one of three ways.  If the result type of `r` is `Ok`, `passed` is incremented
and `failed` is unchanged; otherwise, if `r.isOk()` is false, `failed` is
incremented and `passed` is unchanged; otherwise neither changes.  In all three
cases `failedButOk` and the test-case counters are unchanged.  The increment is
the `++` of `std::size_t`. -/
theorem assertionEnded_counts (rc : RunContext) (r : AssertionResult) :
    ((r.resultType = ResultWas.Ok ∧
        (rc.assertionEnded r).m_totals.assertions.passed = incr rc.m_totals.assertions.passed ∧
        (rc.assertionEnded r).m_totals.assertions.failed = rc.m_totals.assertions.failed) ∨
     (r.resultType ≠ ResultWas.Ok ∧ r.isOk = false ∧
        (rc.assertionEnded r).m_totals.assertions.failed = incr rc.m_totals.assertions.failed ∧
        (rc.assertionEnded r).m_totals.assertions.passed = rc.m_totals.assertions.passed) ∨
     (r.resultType ≠ ResultWas.Ok ∧ r.isOk = true ∧
        (rc.assertionEnded r).m_totals.assertions.passed = rc.m_totals.assertions.passed ∧
        (rc.assertionEnded r).m_totals.assertions.failed = rc.m_totals.assertions.failed)) ∧
    (rc.assertionEnded r).m_totals.assertions.failedButOk = rc.m_totals.assertions.failedButOk ∧
    (rc.assertionEnded r).m_totals.testCases = rc.m_totals.testCases := by
  by_cases h1 : r.resultType = ResultWas.Ok
  · simp [RunContext.assertionEnded, RunContext.countAssertion, h1]
  · cases h2 : r.isOk <;> simp [RunContext.assertionEnded, RunContext.countAssertion, h1, h2]

/-! ## The abort threshold -/

/-- C5, as the claim states its second half, fails: with the abort threshold 0
a freshly constructed run context, whose failed-assertion count is 0, is
aborting. -/
theorem isAborting_threshold_zero_fresh :
    (sampleContext 0).m_config.abortAfter = 0 ∧ (sampleContext 0).isAborting = true := by
  decide

/-- C5, amended: `isAborting()` is true if and only if the run-wide
failed-assertion count equals the abort threshold converted to `std::size_t`,
which is the value below `2^64` congruent to the threshold; it is a function of
the state and changes nothing.  With the threshold 0 it is true exactly in the
states whose failed-assertion count is 0. -/
theorem isAborting_iff (rc : RunContext) :
    (rc.isAborting = true ↔ rc.m_totals.assertions.failed = castSize rc.m_config.abortAfter) ∧
    castSize rc.m_config.abortAfter < sizeMod ∧
    ((castSize rc.m_config.abortAfter : Int) - rc.m_config.abortAfter) % (sizeMod : Int) = 0 ∧
    (({ rc with m_config := { rc.m_config with abortAfter := 0 } } : RunContext).isAborting = true
      ↔ rc.m_totals.assertions.failed = 0) := by
  refine ⟨by simp [RunContext.isAborting], castSize_lt _, ?_,
    by simp [RunContext.isAborting, castSize_zero]⟩
  unfold castSize sizeMod
  omega

/-! ## The global run-context slot -/

/-- C9: `setGlobalRunContext( c )` is rejected exactly when the slot and `c`
are both non-empty; when it is not rejected the slot afterwards holds `c`;
`tryGetGlobalRunContext` returns the content of the slot and leaves it as it
is.  The slot is arbitrary, so this holds after every sequence of earlier
calls. -/
theorem setGlobalRunContext_spec {α : Type} (g c : Option α) :
    (setGlobalRunContext g c = none ↔ (g.isSome = true ∧ c.isSome = true)) ∧
    (setGlobalRunContext g c = none ∨ setGlobalRunContext g c = some c) ∧
    (tryGetGlobalRunContext g).1 = g ∧ (tryGetGlobalRunContext g).2 = g := by
  cases g <;> cases c <;> simp [setGlobalRunContext, tryGetGlobalRunContext]

namespace RunContext

/-! ### Effect of the callbacks on single members -/

theorem testForMissingAssertions_frame (rc : RunContext) (a : Counts) :
    (rc.testForMissingAssertions a).1.m_reporter = rc.m_reporter ∧
    (rc.testForMissingAssertions a).1.m_activeSections = rc.m_activeSections ∧
    (rc.testForMissingAssertions a).1.m_unfinishedSections = rc.m_unfinishedSections ∧
    (rc.testForMissingAssertions a).1.m_trackerContext = rc.m_trackerContext ∧
    (rc.testForMissingAssertions a).1.m_config = rc.m_config ∧
    (rc.testForMissingAssertions a).1.m_activeTestCaseInfo = rc.m_activeTestCaseInfo ∧
    (rc.testForMissingAssertions a).1.m_runInfo = rc.m_runInfo ∧
    (rc.testForMissingAssertions a).1.streams = rc.streams ∧
    (rc.testForMissingAssertions a).1.m_totals.testCases = rc.m_totals.testCases ∧
    (rc.testForMissingAssertions a).1.m_totals.assertions.passed = rc.m_totals.assertions.passed ∧
    (rc.testForMissingAssertions a).1.m_totals.assertions.failedButOk
      = rc.m_totals.assertions.failedButOk := by
  unfold testForMissingAssertions
  split_ifs <;> simp

theorem closeBack_frame (rc : RunContext) :
    rc.closeBack.m_reporter = rc.m_reporter ∧
    rc.closeBack.m_activeSections = rc.m_activeSections.dropLast ∧
    rc.closeBack.m_unfinishedSections = rc.m_unfinishedSections ∧
    rc.closeBack.m_config = rc.m_config ∧
    rc.closeBack.m_activeTestCaseInfo = rc.m_activeTestCaseInfo ∧
    rc.closeBack.m_runInfo = rc.m_runInfo ∧
    rc.closeBack.streams = rc.streams ∧
    rc.closeBack.m_totals = rc.m_totals := by
  unfold closeBack
  cases hb : rc.m_activeSections.getLast? with
  | none => simp [List.getLast?_eq_none_iff.mp hb]
  | some b => simp

theorem sectionEnded_log (rc : RunContext) (e : SectionEndInfo) :
    ∃ st : SectionStats, st.sectionInfo = e.sectionInfo ∧
      st.durationInSeconds = e.durationInSeconds ∧
      (rc.sectionEnded e).m_reporter.log = rc.m_reporter.log ++ [Event.sectionEnded st] := by
  have h := (testForMissingAssertions_frame rc (rc.m_totals.assertions.sub e.prevAssertions)).1
  have h2 := (closeBack_frame (rc.testForMissingAssertions
    (rc.m_totals.assertions.sub e.prevAssertions)).1).1
  refine ⟨⟨e.sectionInfo, (rc.testForMissingAssertions (rc.m_totals.assertions.sub e.prevAssertions)).2.1, e.durationInSeconds, (rc.testForMissingAssertions (rc.m_totals.assertions.sub e.prevAssertions)).2.2⟩, rfl, rfl, ?_⟩
  simp [sectionEnded, Reporter.emit, h, h2]

theorem sectionEnded_activeSections (rc : RunContext) (e : SectionEndInfo) :
    (rc.sectionEnded e).m_activeSections = rc.m_activeSections.dropLast := by
  have h := (testForMissingAssertions_frame rc (rc.m_totals.assertions.sub e.prevAssertions)).2.1
  have h2 := (closeBack_frame (rc.testForMissingAssertions
    (rc.m_totals.assertions.sub e.prevAssertions)).1).2.1
  simp [sectionEnded, h, h2]

theorem sectionEnded_frame (rc : RunContext) (e : SectionEndInfo) :
    (rc.sectionEnded e).m_unfinishedSections = rc.m_unfinishedSections ∧
    (rc.sectionEnded e).m_config = rc.m_config ∧
    (rc.sectionEnded e).m_activeTestCaseInfo = rc.m_activeTestCaseInfo ∧
    (rc.sectionEnded e).m_runInfo = rc.m_runInfo ∧
    (rc.sectionEnded e).streams = rc.streams ∧
    (rc.sectionEnded e).m_reporter.consumes = rc.m_reporter.consumes ∧
    (rc.sectionEnded e).m_reporter.shouldRedirectStdOut = rc.m_reporter.shouldRedirectStdOut ∧
    (rc.sectionEnded e).m_totals.testCases = rc.m_totals.testCases ∧
    (rc.sectionEnded e).m_totals.assertions.passed = rc.m_totals.assertions.passed ∧
    (rc.sectionEnded e).m_totals.assertions.failedButOk = rc.m_totals.assertions.failedButOk ∧
    (rc.sectionEnded e).m_messages = [] := by
  obtain ⟨h1, h2, h3, h4, h5, h6, h7, h8, h9, h10, h11⟩ :=
    testForMissingAssertions_frame rc (rc.m_totals.assertions.sub e.prevAssertions)
  obtain ⟨k1, k2, k3, k4, k5, k6, k7, k8⟩ := closeBack_frame (rc.testForMissingAssertions
    (rc.m_totals.assertions.sub e.prevAssertions)).1
  simp [sectionEnded, Reporter.emit, *]

/-- Replaying a list of end records: one `sectionEnded` event per record, in the
order of the list, and one handle popped per record. -/
theorem foldl_sectionEnded (l : List SectionEndInfo) (rc : RunContext) :
    ∃ sts : List SectionStats,
      sts.map (fun st => (st.sectionInfo, st.durationInSeconds))
        = l.map (fun e => (e.sectionInfo, e.durationInSeconds)) ∧
      (l.foldl sectionEnded rc).m_reporter.log = rc.m_reporter.log ++ sts.map Event.sectionEnded ∧
      (l.foldl sectionEnded rc).m_activeSections
        = rc.m_activeSections.take (rc.m_activeSections.length - l.length) ∧
      (l.foldl sectionEnded rc).m_activeTestCaseInfo = rc.m_activeTestCaseInfo ∧
      (l.foldl sectionEnded rc).m_runInfo = rc.m_runInfo ∧
      (l.foldl sectionEnded rc).m_config = rc.m_config ∧
      (l.foldl sectionEnded rc).m_totals.testCases = rc.m_totals.testCases ∧
      (l.foldl sectionEnded rc).m_totals.assertions.passed = rc.m_totals.assertions.passed ∧
      (l.foldl sectionEnded rc).m_totals.assertions.failedButOk
        = rc.m_totals.assertions.failedButOk := by
  induction l generalizing rc with
  | nil => exact ⟨[], by simp⟩
  | cons e l ih =>
    obtain ⟨st, hs1, hs2, hlog⟩ := sectionEnded_log rc e
    obtain ⟨sts, hm, hl, ha, h1, h2, h3, h4, h5, h6⟩ := ih (rc.sectionEnded e)
    obtain ⟨f1, f2, f3, f4, f5, f6, f7, f8, f9, f10, f11⟩ := sectionEnded_frame rc e
    refine ⟨st :: sts, by simp [hm, hs1, hs2], by simp [hl, hlog], ?_, by simp [h1, f3],
      by simp [h2, f4], by simp [h3, f2], by simp [h4, f8], by simp [h5, f9], by simp [h6, f10]⟩
    simp only [List.foldl_cons, ha, sectionEnded_activeSections, List.length_cons,
      List.length_dropLast, List.dropLast_eq_take, List.take_take, List.length_take]
    congr 1
    omega

theorem handleUnfinishedSections_frame (rc : RunContext) :
    ∃ sts : List SectionStats,
      sts.map (fun st => (st.sectionInfo, st.durationInSeconds))
        = rc.m_unfinishedSections.reverse.map (fun e => (e.sectionInfo, e.durationInSeconds)) ∧
      rc.handleUnfinishedSections.m_reporter.log
        = rc.m_reporter.log ++ sts.map Event.sectionEnded ∧
      rc.handleUnfinishedSections.m_unfinishedSections = [] ∧
      rc.handleUnfinishedSections.m_activeSections
        = rc.m_activeSections.take (rc.m_activeSections.length - rc.m_unfinishedSections.length) ∧
      rc.handleUnfinishedSections.m_activeTestCaseInfo = rc.m_activeTestCaseInfo ∧
      rc.handleUnfinishedSections.m_runInfo = rc.m_runInfo ∧
      rc.handleUnfinishedSections.m_config = rc.m_config ∧
      rc.handleUnfinishedSections.m_totals.testCases = rc.m_totals.testCases ∧
      rc.handleUnfinishedSections.m_totals.assertions.passed = rc.m_totals.assertions.passed ∧
      rc.handleUnfinishedSections.m_totals.assertions.failedButOk
        = rc.m_totals.assertions.failedButOk := by
  obtain ⟨sts, h⟩ := foldl_sectionEnded rc.m_unfinishedSections.reverse rc
  refine ⟨sts, ?_⟩
  simpa [handleUnfinishedSections] using h

theorem assertionEnded_frame (rc : RunContext) (r : AssertionResult) :
    (rc.assertionEnded r).m_activeSections = rc.m_activeSections ∧
    (rc.assertionEnded r).m_unfinishedSections = rc.m_unfinishedSections ∧
    (rc.assertionEnded r).m_activeTestCaseInfo = rc.m_activeTestCaseInfo ∧
    (rc.assertionEnded r).m_runInfo = rc.m_runInfo ∧
    (rc.assertionEnded r).m_config = rc.m_config ∧
    (rc.assertionEnded r).m_trackerContext = rc.m_trackerContext ∧
    (rc.assertionEnded r).streams = rc.streams ∧
    (rc.assertionEnded r).m_totals.testCases = rc.m_totals.testCases ∧
    (rc.assertionEnded r).m_totals.assertions.failedButOk = rc.m_totals.assertions.failedButOk := by
  simp only [assertionEnded, countAssertion]
  split_ifs <;> simp

theorem sectionStarted_frame (rc : RunContext) (info : SectionInfo) (a : Counts) :
    (rc.sectionStarted info a).1.m_activeSections
      = (if (rc.sectionStarted info a).2.1 then
          rc.m_activeSections ++ [(rc.m_trackerContext.acquire info.key).2]
         else rc.m_activeSections) ∧
    (rc.sectionStarted info a).1.m_unfinishedSections = rc.m_unfinishedSections ∧
    (rc.sectionStarted info a).1.m_config = rc.m_config ∧
    (rc.sectionStarted info a).1.m_totals = rc.m_totals := by
  simp only [sectionStarted]
  cases h : (rc.m_trackerContext.acquire info.key).1.isOpen
    (rc.m_trackerContext.acquire info.key).2 <;> simp

theorem sectionEndedEarly_frame (rc : RunContext) (e : SectionEndInfo) :
    (rc.sectionEndedEarly e).m_activeSections = rc.m_activeSections.dropLast ∧
    (rc.sectionEndedEarly e).m_unfinishedSections = rc.m_unfinishedSections ++ [e] ∧
    (rc.sectionEndedEarly e).m_config = rc.m_config ∧
    (rc.sectionEndedEarly e).m_totals = rc.m_totals := by
  simp [sectionEndedEarly]

/-- An invocation of a body leaves `m_activeSections` as it found it, whether
it returns or throws, and does not touch the configuration, the test-case
counters or the failed-but-permitted counter. -/
theorem invoke_frame (b : Body) (rc : RunContext) :
    (invoke b rc).1.m_activeSections = rc.m_activeSections ∧
    (invoke b rc).1.m_config = rc.m_config ∧
    (invoke b rc).1.m_totals.testCases = rc.m_totals.testCases ∧
    (invoke b rc).1.m_totals.assertions.failedButOk = rc.m_totals.assertions.failedButOk := by
  induction b generalizing rc with
  | done => simp [invoke]
  | assertion r rest ih =>
    obtain ⟨a1, _, _, _, a5, _, _, a8, a9⟩ := assertionEnded_frame rc r
    obtain ⟨i1, i2, i3, i4⟩ := ih (rc.assertionEnded r)
    simp only [invoke]
    exact ⟨i1.trans a1, i2.trans a5, i3.trans a8, i4.trans a9⟩
  | inSection info elapsed inner rest ihi ihr =>
    obtain ⟨s1, _, s3, s4⟩ := sectionStarted_frame rc info Counts.zero
    simp only [invoke]
    cases hs : (rc.sectionStarted info Counts.zero).2.1 with
    | false =>
      simp only [hs, Bool.false_eq_true, if_false] at s1 ⊢
      obtain ⟨i1, i2, i3, i4⟩ := ihr (rc.sectionStarted info Counts.zero).1
      exact ⟨i1.trans s1, i2.trans s3, i3.trans (by rw [s4]), i4.trans (by rw [s4])⟩
    | true =>
      simp only [hs, if_true] at s1 ⊢
      obtain ⟨j1, j2, j3, j4⟩ := ihi (rc.sectionStarted info Counts.zero).1
      rcases hinv : invoke inner (rc.sectionStarted info Counts.zero).1 with ⟨rc2, o⟩
      rw [hinv] at j1 j2 j3 j4
      simp only at j1 j2 j3 j4
      cases o with
      | returned =>
        simp only
        obtain ⟨i1, i2, i3, i4⟩ := ihr (rc2.sectionEnded
          ⟨info, (rc.sectionStarted info Counts.zero).2.2, elapsed⟩)
        obtain ⟨_, f2, _, _, _, _, _, f8, _, f10, _⟩ := sectionEnded_frame rc2
          ⟨info, (rc.sectionStarted info Counts.zero).2.2, elapsed⟩
        refine ⟨?_, ?_, ?_, ?_⟩
        · rw [i1, sectionEnded_activeSections, j1, s1]; simp
        · rw [i2, f2, j2, s3]
        · rw [i3, f8, j3, s4]
        · rw [i4, f10, j4, s4]
      | testFailure =>
        simp only
        obtain ⟨e1, _, e3, e4⟩ := sectionEndedEarly_frame rc2
          ⟨info, (rc.sectionStarted info Counts.zero).2.2, elapsed⟩
        refine ⟨?_, ?_, ?_, ?_⟩
        · rw [e1, j1, s1]; simp
        · rw [e3, j2, s3]
        · rw [e4, j3, s4]
        · rw [e4, j4, s4]
      | otherException w =>
        simp only
        obtain ⟨e1, _, e3, e4⟩ := sectionEndedEarly_frame rc2
          ⟨info, (rc.sectionStarted info Counts.zero).2.2, elapsed⟩
        refine ⟨?_, ?_, ?_, ?_⟩
        · rw [e1, j1, s1]; simp
        · rw [e3, j2, s3]
        · rw [e4, j3, s4]
        · rw [e4, j4, s4]
  | write c t rest ih =>
    obtain ⟨i1, i2, i3, i4⟩ := ih { rc with streams := rc.streams.write c t }
    simp only [invoke]
    exact ⟨i1, i2, i3, i4⟩
  | throwTestFailure => simp [invoke]
  | throwOther w => simp [invoke]


/-! ## Replay of unfinished sections -/

/-- C10: `handleUnfinishedSections` closes every entry of `m_unfinishedSections`
exactly once, in reverse order of insertion: the reporter receives one
`sectionEnded` event per entry, the i-th of them carrying the section and the
duration of the i-th entry of the reversed list, and the list is empty
afterwards.  In every pass this replay comes before the `sectionEnded` of the
pass itself, which is the last event of the pass. -/
theorem handleUnfinishedSections_replay (rc : RunContext) (testCase : TestCase)
    (redirectedCout redirectedCerr : String) :
    (∃ sts : List SectionStats,
      sts.map (fun st => (st.sectionInfo, st.durationInSeconds))
        = rc.m_unfinishedSections.reverse.map (fun e => (e.sectionInfo, e.durationInSeconds)) ∧
      rc.handleUnfinishedSections.m_reporter.log
        = rc.m_reporter.log ++ sts.map Event.sectionEnded ∧
      rc.handleUnfinishedSections.m_unfinishedSections = []) ∧
    (∃ own : SectionStats,
      own.sectionInfo = ⟨testCase.name, testCase.description, testCase.lineInfo⟩ ∧
      (runTestPass rc testCase redirectedCout redirectedCerr).rc.m_reporter.log
        = (handleUnfinishedSections
            { (passInvoke rc testCase redirectedCout redirectedCerr).rc with
              m_trackerContext :=
                (passInvoke rc testCase redirectedCout redirectedCerr).rc.m_trackerContext.close
                  (passInvoke rc testCase redirectedCout redirectedCerr).rc.m_trackerContext.currentTracker
            }).m_reporter.log ++ [Event.sectionEnded own]) := by
  constructor
  · obtain ⟨sts, h1, h2, h3, _⟩ := handleUnfinishedSections_frame rc
    exact ⟨sts, h1, h2, h3⟩
  · refine ⟨passStats testCase
      (passCounted rc testCase redirectedCout redirectedCerr).val.1
      (passCounted rc testCase redirectedCout redirectedCerr).val.2.2
      (passCounted rc testCase redirectedCout redirectedCerr).val.2.1, rfl, ?_⟩
    simp only [runTestPass, passEnd, passCounted, passClose, Reporter.emit]
    split_ifs <;>
      simp [(testForMissingAssertions_frame _ _).1]

/-! ## The fatal-error path -/

/-- C8: with an active test unit, `handleFatalErrorCondition( message )`
increments the run-wide failed-test-case counter and leaves the passed
test-case counter unchanged, and after the replay of the unfinished sections it
reports, in this order and once each: `sectionEnded` for the whole unit with
assertion counts `failed = 1` and all others 0, `testCaseEnded` with delta
totals `testCases.failed = 1` and empty captured output, `testGroupEnded`, and
`testRunEnded`. -/
theorem handleFatalErrorCondition_events (rc : RunContext) (message : String)
    (info : TestCaseInfo) (h : rc.m_activeTestCaseInfo = some info) :
    ∃ rc1 : RunContext, rc.handleFatalErrorCondition message = some rc1 ∧
      rc1.m_totals.testCases.failed = incr rc.m_totals.testCases.failed ∧
      rc1.m_totals.testCases.passed = rc.m_totals.testCases.passed ∧
      rc1.m_reporter.log =
        ((rc.captureExpression
            ⟨rc.m_lastAssertionInfo, ResultWas.FatalErrorCondition, message⟩
          ).handleUnfinishedSections).m_reporter.log ++
        [Event.sectionEnded ⟨⟨info.name, info.description, info.lineInfo⟩, ⟨0, 1, 0⟩, 0, false⟩,
         Event.testCaseEnded ⟨info, ⟨⟨0, 0, 0⟩, ⟨0, 1, 0⟩⟩, "", "", false⟩,
         Event.testGroupEnded ⟨⟨"", 1, 1⟩, rc1.m_totals, rc1.isAborting⟩,
         Event.testRunEnded ⟨rc.m_runInfo, rc1.m_totals, false⟩] := by
  obtain ⟨sts, _, _, _, _, h5, h6, h7, h8, _⟩ := handleUnfinishedSections_frame
    (rc.assertionEnded ⟨ResultWas.FatalErrorCondition, false, message⟩)
  obtain ⟨_, _, a3, a4, a5, _, _, a8, _⟩ := assertionEnded_frame rc
    ⟨ResultWas.FatalErrorCondition, false, message⟩
  rw [a3] at h5
  rw [a4] at h6
  rw [a8] at h8
  simp only [handleFatalErrorCondition, makeUnexpectedResultBuilder, captureExpression, h5, h]
  refine ⟨_, rfl, ?_, ?_, ?_⟩
  · simp [testGroupEnded, Reporter.emit, h8]
  · simp [testGroupEnded, Reporter.emit, h8]
  · simp [testGroupEnded, Reporter.emit, h6, isAborting, Counts.zero, Totals.zero]

/-- C8 at a concrete state: the fatal path taken inside unit `T` with three
sections open. -/
theorem handleFatalErrorCondition_events_witness :
    threeOpenSections.m_activeTestCaseInfo
        = some (sampleTestCase "T" false Body.done).toTestCaseInfo ∧
    ∃ rc1 : RunContext, threeOpenSections.handleFatalErrorCondition "SIGSEGV" = some rc1 ∧
      rc1.m_totals.testCases.failed = incr threeOpenSections.m_totals.testCases.failed ∧
      rc1.m_totals.testCases.passed = threeOpenSections.m_totals.testCases.passed ∧
      rc1.m_reporter.log =
        ((threeOpenSections.captureExpression
            ⟨threeOpenSections.m_lastAssertionInfo, ResultWas.FatalErrorCondition, "SIGSEGV"⟩
          ).handleUnfinishedSections).m_reporter.log ++
        [Event.sectionEnded
           ⟨⟨(sampleTestCase "T" false Body.done).name,
             (sampleTestCase "T" false Body.done).description,
             (sampleTestCase "T" false Body.done).lineInfo⟩, ⟨0, 1, 0⟩, 0, false⟩,
         Event.testCaseEnded
           ⟨(sampleTestCase "T" false Body.done).toTestCaseInfo,
            ⟨⟨0, 0, 0⟩, ⟨0, 1, 0⟩⟩, "", "", false⟩,
         Event.testGroupEnded ⟨⟨"", 1, 1⟩, rc1.m_totals, rc1.isAborting⟩,
         Event.testRunEnded ⟨threeOpenSections.m_runInfo, rc1.m_totals, false⟩] :=
  ⟨rfl, handleFatalErrorCondition_events threeOpenSections "SIGSEGV"
    (sampleTestCase "T" false Body.done).toTestCaseInfo rfl⟩

theorem passInvoke_frame (rc : RunContext) (tc : TestCase) (o e : String) :
    (passInvoke rc tc o e).rc.m_activeSections = rc.m_activeSections ∧
    (passInvoke rc tc o e).rc.m_config = rc.m_config ∧
    (passInvoke rc tc o e).rc.m_totals.testCases = rc.m_totals.testCases ∧
    (passInvoke rc tc o e).rc.m_totals.assertions.failedButOk
      = rc.m_totals.assertions.failedButOk := by
  simp only [passInvoke, passRan]
  split_ifs with hr
  · obtain ⟨i1, i2, i3, i4⟩ := invoke_frame tc.body
      { rc with
        m_reporter := rc.m_reporter.emit (Event.sectionStarting
          ⟨tc.name, tc.description, tc.lineInfo⟩)
        m_lastAssertionInfo := ⟨"TEST_CASE", tc.lineInfo, "", ResultDisposition.Normal⟩
        streams := (StreamRedirect.create (StreamRedirect.create rc.streams false).1 true).1 }
    split
    · exact ⟨i1, i2, i3, i4⟩
    · exact ⟨i1, i2, i3, i4⟩
    · rename_i w _
      obtain ⟨a1, _, _, _, a5, _, _, a8, a9⟩ := assertionEnded_frame
        ({ (invoke tc.body
          { rc with
            m_reporter := rc.m_reporter.emit (Event.sectionStarting
              ⟨tc.name, tc.description, tc.lineInfo⟩)
            m_lastAssertionInfo := ⟨"TEST_CASE", tc.lineInfo, "", ResultDisposition.Normal⟩
            streams := (StreamRedirect.create (StreamRedirect.create rc.streams false).1 true).1 }).1
          with streams := _ }) ⟨ResultWas.ThrewException, false, w⟩
      simp only [useActiveException]
      exact ⟨a1.trans i1, a5.trans i2, a8.trans i3, a9.trans i4⟩
  · obtain ⟨i1, i2, i3, i4⟩ := invoke_frame tc.body
      { rc with
        m_reporter := rc.m_reporter.emit (Event.sectionStarting
          ⟨tc.name, tc.description, tc.lineInfo⟩)
        m_lastAssertionInfo := ⟨"TEST_CASE", tc.lineInfo, "", ResultDisposition.Normal⟩ }
    split
    · exact ⟨i1, i2, i3, i4⟩
    · exact ⟨i1, i2, i3, i4⟩
    · rename_i w _
      obtain ⟨a1, _, _, _, a5, _, _, a8, a9⟩ := assertionEnded_frame
        (invoke tc.body
          { rc with
            m_reporter := rc.m_reporter.emit (Event.sectionStarting
              ⟨tc.name, tc.description, tc.lineInfo⟩)
            m_lastAssertionInfo := ⟨"TEST_CASE", tc.lineInfo, "", ResultDisposition.Normal⟩ }).1
          ⟨ResultWas.ThrewException, false, w⟩
      simp only [useActiveException]
      exact ⟨a1.trans i1, a5.trans i2, a8.trans i3, a9.trans i4⟩

theorem passClose_frame (rc : RunContext) :
    rc.passClose.m_activeSections
      = rc.m_activeSections.take (rc.m_activeSections.length - rc.m_unfinishedSections.length) ∧
    rc.passClose.m_unfinishedSections = [] ∧
    rc.passClose.m_config = rc.m_config ∧
    rc.passClose.m_totals.testCases = rc.m_totals.testCases ∧
    rc.passClose.m_totals.assertions.failedButOk = rc.m_totals.assertions.failedButOk := by
  obtain ⟨sts, _, _, h3, h4, _, _, h7, h8, _, h10⟩ := handleUnfinishedSections_frame
    { rc with m_trackerContext := rc.m_trackerContext.close rc.m_trackerContext.currentTracker }
  simp only [passClose]
  exact ⟨h4, h3, h7, h8, h10⟩

theorem passEnd_frame (rc : RunContext) (tc : TestCase) (a : Counts) (d : Nat) (m : Bool) :
    (rc.passEnd tc a d m).m_activeSections = rc.m_activeSections ∧
    (rc.passEnd tc a d m).m_unfinishedSections = rc.m_unfinishedSections ∧
    (rc.passEnd tc a d m).m_config = rc.m_config ∧
    (rc.passEnd tc a d m).m_trackerContext = rc.m_trackerContext ∧
    (rc.passEnd tc a d m).m_totals.testCases = rc.m_totals.testCases ∧
    (rc.passEnd tc a d m).m_reporter.log
      = rc.m_reporter.log ++ [Event.sectionEnded (passStats tc a d m)] := by
  simp only [passEnd, Reporter.emit]
  split_ifs <;> simp

/-- One pass started without open section ends without open section and without
unfinished section. -/
theorem runTestPass_sections (rc : RunContext) (tc : TestCase) (o e : String)
    (h : rc.m_activeSections = []) :
    (rc.runTestPass tc o e).rc.m_activeSections = [] ∧
    (rc.runTestPass tc o e).rc.m_unfinishedSections = [] := by
  obtain ⟨i1, _⟩ := passInvoke_frame rc tc o e
  obtain ⟨c1, c2, _⟩ := passClose_frame (passInvoke rc tc o e).rc
  obtain ⟨m1, m2, m3, _⟩ := testForMissingAssertions_frame (passInvoke rc tc o e).rc.passClose
    ((passInvoke rc tc o e).rc.passClose.m_totals.assertions.sub rc.m_totals.assertions)
  obtain ⟨e1, e2, _⟩ := passEnd_frame (passCounted rc tc o e).rc tc
    (passCounted rc tc o e).val.1 (passCounted rc tc o e).val.2.2 (passCounted rc tc o e).val.2.1
  simp only [runTestPass]
  rw [e1, e2]
  simp only [passCounted]
  rw [m2, m3, c1, c2, i1, h]
  simp

theorem runTestCycle_sections (rc : RunContext) (tc : TestCase) (o e : String)
    (h : rc.m_activeSections = []) :
    (rc.runTestCycle tc o e).rc.m_activeSections = [] ∧
    (rc.runTestCycle tc o e).rc.m_unfinishedSections = [] := by
  simp only [runTestCycle]
  exact runTestPass_sections _ tc o e h

theorem runTestLoop_sections (fuel : Nat) (rc : RunContext) (tc : TestCase) (o e : String)
    (h : rc.m_activeSections = []) :
    ∀ p ∈ rc.runTestLoop fuel tc o e,
      p.rc.m_activeSections = [] ∧ p.rc.m_unfinishedSections = [] := by
  induction fuel generalizing rc o e with
  | zero => intro p hp; simp [runTestLoop] at hp
  | succ n ih =>
    intro p hp
    have hc := runTestCycle_sections rc tc o e h
    simp only [runTestLoop] at hp
    split_ifs at hp with hv
    · cases hq : runTestLoop n (rc.runTestCycle tc o e).rc tc
          (rc.runTestCycle tc o e).redirectedCout (rc.runTestCycle tc o e).redirectedCerr with
      | none => rw [hq] at hp; simp at hp
      | some q =>
        rw [hq] at hp
        simp only [Option.mem_def, Option.some.injEq] at hp
        subst hp
        exact ih _ _ _ hc.1 q hq
    · simp only [Option.mem_def, Option.some.injEq] at hp
      subst hp
      exact hc

/-- C3: if `m_activeSections` is empty when the public `runTest` is called, it
is empty when `runTest` returns, and so is `m_unfinishedSections`; the same
holds for every single pass.  The body is arbitrary: its sections are
bracketed by the section guard, and a pass may end by normal return, by the
test-failure signal or by another exception. -/
theorem runTest_sections_empty (fuel : Nat) (rc : RunContext) (testCase : TestCase)
    (h : rc.m_activeSections = []) :
    (∀ redirectedCout redirectedCerr : String,
      (rc.runTestPass testCase redirectedCout redirectedCerr).rc.m_activeSections = [] ∧
      (rc.runTestPass testCase redirectedCout redirectedCerr).rc.m_unfinishedSections = []) ∧
    (∀ res ∈ rc.runTest fuel testCase,
      res.rc.m_activeSections = [] ∧ res.rc.m_unfinishedSections = []) := by
  refine ⟨fun o e => runTestPass_sections rc testCase o e h, ?_⟩
  intro res hres
  simp only [runTest] at hres
  cases hq : runTestLoop fuel (rc.runTestStart testCase) testCase "" "" with
  | none => rw [hq] at hres; simp at hres
  | some q =>
    rw [hq] at hres
    simp only [Option.mem_def, Option.some.injEq] at hres
    subst hres
    exact runTestLoop_sections fuel (rc.runTestStart testCase) testCase "" ""
      (by simpa [runTestStart] using h) q hq


/-- C3 on a unit whose sections throw: four passes are made, and no section is
left open or unfinished. -/
theorem runTest_sections_empty_witness :
    (sampleContext (-1)).m_activeSections = [] ∧
    ((sampleContext (-1)).runTest 5 (sampleTestCase "T" false throwingBody)).map
      (fun r => (r.rc.m_activeSections, r.rc.m_unfinishedSections.length, r.passes))
      = some ([], 0, 4) ∧
    ((∀ redirectedCout redirectedCerr : String,
      ((sampleContext (-1)).runTestPass (sampleTestCase "T" false throwingBody)
        redirectedCout redirectedCerr).rc.m_activeSections = [] ∧
      ((sampleContext (-1)).runTestPass (sampleTestCase "T" false throwingBody)
        redirectedCout redirectedCerr).rc.m_unfinishedSections = []) ∧
    (∀ res ∈ (sampleContext (-1)).runTest 5 (sampleTestCase "T" false throwingBody),
      res.rc.m_activeSections = [] ∧ res.rc.m_unfinishedSections = [])) :=
  ⟨rfl, by decide,
   runTest_sections_empty 5 (sampleContext (-1)) (sampleTestCase "T" false throwingBody) rfl⟩

theorem subSize_sub_cancel (f p : Nat) (hp : p < sizeMod) : subSize f (subSize f p) = p := by
  unfold subSize sizeMod at *
  omega

theorem incr_subSize (f p : Nat) : incr (subSize f p) = subSize (incr f) p := by
  unfold incr subSize sizeMod
  omega

/-- The counts of a pass after the missing-assertions check: the failed count
is the growth of the run-wide failed count over the pass, and no
failed-but-permitted assertion is counted. -/
theorem passCounted_counts (rc : RunContext) (tc : TestCase) (o e : String) :
    (rc.passCounted tc o e).val.1.failed
      = subSize (rc.passCounted tc o e).rc.m_totals.assertions.failed
          rc.m_totals.assertions.failed ∧
    (rc.passCounted tc o e).val.1.failedButOk = 0 ∧
    (rc.passCounted tc o e).rc.m_totals.assertions.failedButOk
      = rc.m_totals.assertions.failedButOk := by
  obtain ⟨_, _, _, i4⟩ := passInvoke_frame rc tc o e
  obtain ⟨_, _, _, _, c5⟩ := passClose_frame (passInvoke rc tc o e).rc
  have hfbo : (passInvoke rc tc o e).rc.passClose.m_totals.assertions.failedButOk
      = rc.m_totals.assertions.failedButOk := c5.trans i4
  simp only [passCounted, testForMissingAssertions]
  split_ifs <;> simp [Counts.sub, hfbo, subSize_self, incr_subSize]

/-! ## Units that are allowed to fail -/

/-- C4: for a unit flagged `okToFail`, let `k` be the number of failing
assertions counted in a pass, the missing-assertions failure included: the
growth of the run-wide failed count up to the check of line 310, in `size_t`
arithmetic.  After the pass the run-wide failed count has its value from before
the pass, the run-wide failed-but-permitted count has grown by `k`, and the
section stats reported for the pass, the last event of the pass, carry
`failedButOk = k` and `failed = 0`. -/
theorem runTestPass_okToFail (rc : RunContext) (testCase : TestCase)
    (redirectedCout redirectedCerr : String) (hok : testCase.okToFail = true)
    (hrange : rc.m_totals.assertions.failed < sizeMod) :
    (rc.runTestPass testCase redirectedCout redirectedCerr).rc.m_totals.assertions.failed
      = rc.m_totals.assertions.failed ∧
    (rc.runTestPass testCase redirectedCout redirectedCerr).rc.m_totals.assertions.failedButOk
      = addSize rc.m_totals.assertions.failedButOk
          (subSize (rc.passCounted testCase redirectedCout redirectedCerr).rc.m_totals.assertions.failed
            rc.m_totals.assertions.failed) ∧
    ∃ st : SectionStats,
      (rc.runTestPass testCase redirectedCout redirectedCerr).rc.m_reporter.log.getLast?
        = some (Event.sectionEnded st) ∧
      st.assertions.failedButOk
        = subSize (rc.passCounted testCase redirectedCout redirectedCerr).rc.m_totals.assertions.failed
            rc.m_totals.assertions.failed ∧
      st.assertions.failed = 0 := by
  obtain ⟨h1, h2, h3⟩ := passCounted_counts rc testCase redirectedCout redirectedCerr
  refine ⟨?_, ?_, passStats testCase
      (passCounted rc testCase redirectedCout redirectedCerr).val.1
      (passCounted rc testCase redirectedCout redirectedCerr).val.2.2
      (passCounted rc testCase redirectedCout redirectedCerr).val.2.1, ?_, ?_, ?_⟩
  · simp only [runTestPass, passEnd, passAssertions, hok, if_true, h1]
    exact subSize_sub_cancel _ _ hrange
  · simp only [runTestPass, passEnd, passAssertions, hok, if_true, h1, h3]
  · simp [runTestPass, (passEnd_frame _ _ _ _ _).2.2.2.2.2]
  · simp [passStats, passAssertions, hok, h1]
  · simp [passStats, passAssertions, hok, h2]

/-- C4 with `k = 1`: a unit flagged `okToFail` that records one failing and one
passing assertion leaves the failed count at 0 and the failed-but-permitted
count at 1. -/
theorem runTestPass_okToFail_witness :
    okToFailUnit.okToFail = true ∧
    (sampleContext (-1)).m_totals.assertions.failed < sizeMod ∧
    ((sampleContext (-1)).passCounted okToFailUnit "" "").rc.m_totals.assertions = ⟨1, 1, 0⟩ ∧
    ((sampleContext (-1)).runTestPass okToFailUnit "" "").rc.m_totals.assertions = ⟨1, 0, 1⟩ ∧
    (((sampleContext (-1)).runTestPass okToFailUnit "" "").rc.m_totals.assertions.failed
      = (sampleContext (-1)).m_totals.assertions.failed ∧
    ((sampleContext (-1)).runTestPass okToFailUnit "" "").rc.m_totals.assertions.failedButOk
      = addSize (sampleContext (-1)).m_totals.assertions.failedButOk
          (subSize ((sampleContext (-1)).passCounted okToFailUnit "" "").rc.m_totals.assertions.failed
            (sampleContext (-1)).m_totals.assertions.failed) ∧
    ∃ st : SectionStats,
      ((sampleContext (-1)).runTestPass okToFailUnit "" "").rc.m_reporter.log.getLast?
        = some (Event.sectionEnded st) ∧
      st.assertions.failedButOk
        = subSize ((sampleContext (-1)).passCounted okToFailUnit "" "").rc.m_totals.assertions.failed
            (sampleContext (-1)).m_totals.assertions.failed ∧
      st.assertions.failed = 0) :=
  ⟨rfl, by decide, by decide, by decide,
   runTestPass_okToFail (sampleContext (-1)) okToFailUnit "" "" rfl (by decide)⟩

/-! ## The loop of the public `runTest` -/

theorem runTestLoop_passes (fuel : Nat) (rc : RunContext) (tc : TestCase) (o e : String) :
    ∀ p ∈ rc.runTestLoop fuel tc o e, 1 ≤ p.val ∧
      ((rc.runTestCycle tc o e).val = false → p.val = 1) := by
  cases fuel with
  | zero => intro p hp; simp [runTestLoop] at hp
  | succ n =>
    intro p hp
    simp only [runTestLoop] at hp
    split_ifs at hp with hv
    · cases hq : runTestLoop n (rc.runTestCycle tc o e).rc tc
          (rc.runTestCycle tc o e).redirectedCout (rc.runTestCycle tc o e).redirectedCerr with
      | none => rw [hq] at hp; simp at hp
      | some q =>
        rw [hq] at hp
        simp only [Option.mem_def, Option.some.injEq] at hp
        subst hp
        simp [hv]
    · simp only [Option.mem_def, Option.some.injEq] at hp
      subst hp
      simp

theorem runTestLoop_stops (fuel : Nat) (rc : RunContext) (tc : TestCase) (o e : String)
    (h : (rc.runTestCycle tc o e).val = false) :
    (rc.runTestLoop (fuel + 1) tc o e).isSome = true := by
  simp [runTestLoop, h]

theorem runTestPass_config (rc : RunContext) (tc : TestCase) (o e : String) :
    (rc.runTestPass tc o e).rc.m_config = rc.m_config := by
  obtain ⟨_, i2, _⟩ := passInvoke_frame rc tc o e
  obtain ⟨_, _, c3, _⟩ := passClose_frame (passInvoke rc tc o e).rc
  obtain ⟨_, _, _, _, m5, _⟩ := testForMissingAssertions_frame (passInvoke rc tc o e).rc.passClose
    ((passInvoke rc tc o e).rc.passClose.m_totals.assertions.sub rc.m_totals.assertions)
  obtain ⟨_, _, e3, _⟩ := passEnd_frame (passCounted rc tc o e).rc tc
    (passCounted rc tc o e).val.1 (passCounted rc tc o e).val.2.2 (passCounted rc tc o e).val.2.1
  simp only [runTestPass]
  rw [e3]
  simp only [passCounted]
  rw [m5, c3, i2]

theorem runTestLoop_config (fuel : Nat) (rc : RunContext) (tc : TestCase) (o e : String) :
    ∀ p ∈ rc.runTestLoop fuel tc o e, p.rc.m_config = rc.m_config := by
  induction fuel generalizing rc o e with
  | zero => intro p hp; simp [runTestLoop] at hp
  | succ n ih =>
    intro p hp
    have hc : (rc.runTestCycle tc o e).rc.m_config = rc.m_config := by
      simp only [runTestCycle]
      exact runTestPass_config _ tc o e
    simp only [runTestLoop] at hp
    split_ifs at hp with hv
    · cases hq : runTestLoop n (rc.runTestCycle tc o e).rc tc
          (rc.runTestCycle tc o e).redirectedCout (rc.runTestCycle tc o e).redirectedCerr with
      | none => rw [hq] at hp; simp at hp
      | some q =>
        rw [hq] at hp
        simp only [Option.mem_def, Option.some.injEq] at hp
        subst hp
        exact (ih _ _ _ q hq).trans hc
    · simp only [Option.mem_def, Option.some.injEq] at hp
      subst hp
      exact hc

theorem runTest_config (fuel : Nat) (rc : RunContext) (tc : TestCase) :
    ∀ res ∈ rc.runTest fuel tc, res.rc.m_config = rc.m_config := by
  intro res hres
  simp only [runTest] at hres
  cases hq : runTestLoop fuel (rc.runTestStart tc) tc "" "" with
  | none => rw [hq] at hres; simp at hres
  | some q =>
    rw [hq] at hres
    simp only [Option.mem_def, Option.some.injEq] at hres
    subst hres
    exact runTestLoop_config fuel (rc.runTestStart tc) tc "" "" q hq

theorem afterFirstUnit_eq :
    (create (sampleConfig 1) sampleReporter sampleStreams).runTest 3 (failingUnit "first")
      = some afterFirstUnit := by
  rfl

theorem afterFirstUnit_failed : afterFirstUnit.rc.m_totals.assertions.failed = 1 := by
  decide

end RunContext

/-! ## The tracker tree -/

namespace Trackers

@[simp] theorem nil_append (b : Trackers) : append nil b = b := rfl

@[simp] theorem cons_append (n : String) (s : CycleState) (c r b : Trackers) :
    append (cons n s c r) b = cons n s c (append r b) := rfl

@[simp] theorem append_nil (a : Trackers) : append a nil = a := by
  induction a with
  | nil => rfl
  | cons n s c r _ ih => simp [ih]

theorem append_assoc (a b c : Trackers) : append (append a b) c = append a (append b c) := by
  induction a with
  | nil => rfl
  | cons n s ch r _ ih => simp [ih]

theorem get?_append_length (a : Trackers) (n : String) (s : CycleState) (c r : Trackers) :
    get? (append a (cons n s c r)) a.length = some ⟨n, s, c⟩ := by
  induction a with
  | nil => rfl
  | cons n' s' c' r' _ ih => simpa [length, get?] using ih

theorem take_append_length (a b : Trackers) : take a.length (append a b) = a := by
  induction a with
  | nil => cases b <;> rfl
  | cons n' s' c' r' _ ih => simp [length, take, ih]

theorem drop_append_length (a : Trackers) (n : String) (s : CycleState) (c r : Trackers) :
    drop (a.length + 1) (append a (cons n s c r)) = r := by
  induction a with
  | nil => rfl
  | cons n' s' c' r' _ ih => simpa [length, drop] using ih

theorem findIdx?_append_new (a : Trackers) (name : String) (h : name ∉ a.names) :
    findIdx? name a = none := by
  induction a with
  | nil => rfl
  | cons n' s' c' r' _ ih =>
    simp only [names, List.mem_cons, not_or] at h
    simp [findIdx?, ih h.2, Ne.symm h.1]

theorem findIdx?_append_found (a : Trackers) (name : String) (s : CycleState) (c r : Trackers)
    (h : name ∉ a.names) :
    findIdx? name (append a (cons name s c r)) = some a.length := by
  induction a with
  | nil => simp [findIdx?, length]
  | cons n' s' c' r' _ ih =>
    simp only [names, List.mem_cons, not_or] at h
    simp [findIdx?, ih h.2, Ne.symm h.1, length]

theorem names_append (a b : Trackers) : (append a b).names = a.names ++ b.names := by
  induction a with
  | nil => rfl
  | cons n' s' c' r' _ ih => simp [names, ih]

theorem back?_append_cons (a : Trackers) (n : String) (s : CycleState) (c r : Trackers) :
    back? (append a (cons n s c r)) = back? (cons n s c r) := by
  induction a with
  | nil => rfl
  | cons n' s' c' r' _ ih =>
    cases r' with
    | nil => simp [back?]
    | cons n2 s2 c2 r2 =>
      simp only [cons_append, back?] at ih ⊢
      exact ih

end Trackers

theorem openChild_before (K : List Frame) :
    (openChild K).map (fun f => f.before.length) = K.map (fun f => f.before.length) := by
  induction K with
  | nil => rfl
  | cons f K ih =>
    simp only [openChild]
    split_ifs <;> simp [ih]

namespace Zipper

theorem root_get? (K : List Frame) (focus : Tracker) (q : List Nat) :
    (root ⟨focus, K⟩).get? (path ⟨focus, K⟩ ++ q) = focus.get? q := by
  induction K generalizing focus q with
  | nil => simp [root, path]
  | cons f K ih =>
    have h := ih (f.plug focus) (f.before.length :: q)
    simp only [root, path, List.map_cons, List.reverse_cons, List.foldl_cons,
      List.append_assoc, List.singleton_append] at h ⊢
    rw [h]
    simp [Tracker.get?, Frame.plug, Trackers.consT, Trackers.get?_append_length]

theorem path_openChild (t : Tracker) (K : List Frame) :
    path ⟨t, openChild K⟩ = path ⟨t, K⟩ := by
  simp [path, openChild_before]

end Zipper


/-! ## Acquiring and closing the current tracker -/

namespace TrackerContext

/-- Acquiring the tracker of a key that is either the child after the children
`pre` or, when the children are `pre` only, a new child. -/
theorem acquire_child (n : String) (st : CycleState) (pre : Trackers) (K : List Frame)
    (rs : RunState) (key : String) (s : CycleState) (ch Xr children : Trackers)
    (hpre : key ∉ pre.names)
    (hkids : children = pre.append (Trackers.cons key s ch Xr) ∨
      (children = pre ∧ s = CycleState.NotStarted ∧ ch = Trackers.nil ∧ Xr = Trackers.nil)) :
    acquire ⟨some ⟨⟨n, st, children⟩, K⟩, rs⟩ key =
      (if rs ≠ RunState.CompletedCycle ∧ s.isComplete = false then
         ⟨some ⟨⟨key, CycleState.Executing, ch⟩, openChild (⟨n, st, pre, Xr⟩ :: K)⟩, rs⟩
       else ⟨some ⟨⟨n, st, pre.append (Trackers.cons key s ch Xr)⟩, K⟩, rs⟩,
       Zipper.path ⟨⟨n, st, children⟩, K⟩ ++ [pre.length]) := by
  rcases hkids with h | ⟨h1, h2, h3, h4⟩
  · subst h
    simp only [acquire, Trackers.findIdx?_append_found _ _ _ _ _ hpre,
      Trackers.get?_append_length, Trackers.take_append_length, Trackers.drop_append_length,
      completedCycle]
    by_cases hrs : rs = RunState.CompletedCycle
    · simp [hrs]
    · cases hc : s.isComplete <;> simp [hrs, hc]
  · subst h1 h2 h3 h4
    simp only [acquire, Trackers.findIdx?_append_new _ _ hpre, Trackers.push_back,
      Trackers.consT, Trackers.get?_append_length, Trackers.take_append_length,
      Trackers.drop_append_length, completedCycle]
    by_cases hrs : rs = RunState.CompletedCycle
    · simp [hrs, CycleState.isComplete]
    · simp [hrs, CycleState.isComplete]

theorem lookup_current (t : Tracker) (K : List Frame) (rs : RunState) :
    lookup ⟨some ⟨t, K⟩, rs⟩ (Zipper.path ⟨t, K⟩) = some t := by
  have h := Zipper.root_get? K t []
  simpa [lookup, Tracker.get?] using h

theorem lookup_child (t : Tracker) (K : List Frame) (rs : RunState) (i : Nat) :
    lookup ⟨some ⟨t, K⟩, rs⟩ (Zipper.path ⟨t, K⟩ ++ [i]) = t.children.get? i := by
  have h := Zipper.root_get? K t [i]
  simp only [lookup, h, Tracker.get?]
  cases t.children.get? i <;> rfl

theorem path_focus (t u : Tracker) (K : List Frame) : Zipper.path ⟨t, K⟩ = Zipper.path ⟨u, K⟩ := rfl

/-- Whether the tracker acquired for a section is open afterwards. -/
theorem acquire_isOpen (n : String) (st : CycleState) (pre : Trackers) (K : List Frame)
    (rs : RunState) (key : String) (s : CycleState) (ch Xr children : Trackers)
    (hpre : key ∉ pre.names)
    (hkids : children = pre.append (Trackers.cons key s ch Xr) ∨
      (children = pre ∧ s = CycleState.NotStarted ∧ ch = Trackers.nil ∧ Xr = Trackers.nil)) :
    (acquire ⟨some ⟨⟨n, st, children⟩, K⟩, rs⟩ key).1.isOpen
      (acquire ⟨some ⟨⟨n, st, children⟩, K⟩, rs⟩ key).2 =
      (if rs ≠ RunState.CompletedCycle ∧ s.isComplete = false then true else s.isOpen) := by
  rw [acquire_child n st pre K rs key s ch Xr children hpre hkids]
  split_ifs with h
  · have hp : Zipper.path ⟨⟨n, st, children⟩, K⟩ ++ [pre.length]
        = Zipper.path ⟨⟨key, CycleState.Executing, ch⟩, openChild (⟨n, st, pre, Xr⟩ :: K)⟩ := by
      rw [Zipper.path_openChild]
      simp [Zipper.path]
    simp only [isOpen]
    rw [hp, lookup_current]
    rfl
  · simp only [isOpen]
    rw [path_focus ⟨n, st, children⟩ ⟨n, st, pre.append (Trackers.cons key s ch Xr)⟩ K,
      lookup_child]
    simp [Trackers.get?_append_length]

theorem closeBelow_self (fuel : Nat) (c : TrackerContext) :
    closeBelow fuel c.currentTracker c = c := by
  cases fuel <;> simp [closeBelow]

/-- Closing the current tracker through its handle. -/
theorem close_current (t : Tracker) (f : Frame) (K : List Frame) (rs : RunState)
    (h : t.runState = CycleState.Executing ∨ t.runState = CycleState.ExecutingChildren) :
    close ⟨some ⟨t, f :: K⟩, rs⟩ (Zipper.path ⟨t, f :: K⟩) =
      ⟨some ⟨f.plug { t with runState := closedState t }, K⟩, RunState.CompletedCycle⟩ := by
  have hcur : (⟨some ⟨t, f :: K⟩, rs⟩ : TrackerContext).currentTracker
      = Zipper.path ⟨t, f :: K⟩ := rfl
  simp only [close]
  rw [← hcur, closeBelow_self]
  simp only [if_true, closeCurrent]
  rcases h with h | h <;> simp [h, Zipper.up]

end TrackerContext

/-! ## The trackers of the sections of a body -/

namespace Body

theorem leaves_pos (b : Body) : 1 ≤ b.leaves := by
  unfold leaves; split_ifs <;> omega

theorem sectionLeaves_inSection (info : SectionInfo) (el : Nat) (inner rest : Body) :
    (inSection info el inner rest).sectionLeaves = inner.leaves + rest.sectionLeaves := rfl

theorem kidsAt_noSections (b : Body) (h : b.sectionLeaves = 0) (j : Nat) :
    kidsAt b j = Trackers.nil := by
  induction b generalizing j with
  | done => rfl
  | assertion r rest ih => exact ih h j
  | inSection info el inner rest _ _ =>
    rw [sectionLeaves_inSection] at h
    have := leaves_pos inner
    omega
  | write c t rest ih => exact ih h j
  | throwTestFailure => rfl
  | throwOther w => rfl

theorem track_noSections (b : Body) (h : b.sectionLeaves = 0) (c : TrackerContext) :
    track b c = c := by
  induction b generalizing c with
  | done => rfl
  | assertion r rest ih => exact ih h c
  | inSection info el inner rest _ _ =>
    rw [sectionLeaves_inSection] at h
    have := leaves_pos inner
    omega
  | write ch t rest ih => exact ih h c
  | throwTestFailure => rfl
  | throwOther w => rfl

theorem back?_cons (n : String) (s : CycleState) (c r : Trackers) :
    (Trackers.cons n s c r).back? = match r.back? with
      | some t => some t
      | none => some ⟨n, s, c⟩ := by
  induction r generalizing n s c with
  | nil => rfl
  | cons n2 s2 c2 r2 _ ih =>
    simp only [Trackers.back?]
    rw [ih]
    cases r2.back? <;> rfl

theorem nodeState_isComplete (b : Body) (j : Nat) :
    (nodeState b j).isComplete = decide (b.leaves ≤ j) := by
  have := leaves_pos b
  unfold nodeState
  split_ifs with h1 h2
  · subst h1; simp [CycleState.isComplete]; omega
  · simp [CycleState.isComplete]; omega
  · simp [CycleState.isComplete]; omega

/-- The last tracker among the sections of a body is complete exactly when all
passes through the sections are made. -/
theorem back?_kidsAt (b : Body) (h : b.sectionLeaves ≠ 0) (j : Nat) :
    ∃ t, (kidsAt b j).back? = some t ∧ t.runState.isComplete = decide (b.sectionLeaves ≤ j) := by
  induction b generalizing j with
  | done => exact absurd rfl h
  | assertion r rest ih => exact ih h j
  | inSection info el inner rest _ ihr =>
    have hl := leaves_pos inner
    simp only [kidsAt, back?_cons, sectionLeaves_inSection]
    by_cases hr : rest.sectionLeaves = 0
    · rw [kidsAt_noSections rest hr]
      refine ⟨_, rfl, ?_⟩
      simp only [nodeState_isComplete, hr, Nat.add_zero]
      congr 1
      apply propext
      constructor <;> intro h' <;> omega
    · obtain ⟨t, ht, hc⟩ := ihr hr (j - inner.leaves)
      refine ⟨t, by rw [ht], ?_⟩
      rw [hc]
      congr 1
      apply propext
      constructor <;> intro h' <;> omega
  | write c t rest ih => exact ih h j
  | throwTestFailure => exact absurd rfl h
  | throwOther w => exact absurd rfl h

end Body

namespace Body

theorem kidsAt_inSection_zero (info : SectionInfo) (el : Nat) (inner rest : Body) :
    kidsAt (inSection info el inner rest) 0
      = Trackers.cons info.key CycleState.NotStarted Trackers.nil (kidsAt rest 0) := by
  simp [kidsAt, nodeState]

theorem keys_fresh (info : SectionInfo) (el : Nat) (inner rest : Body) (pre : Trackers)
    (s : CycleState) (ch : Trackers)
    (hpre : ∀ k ∈ (inSection info el inner rest).keys, k ∉ pre.names)
    (hkeys : (inSection info el inner rest).distinctKeys = true) :
    ∀ k ∈ rest.keys, k ∉ (pre.append (Trackers.cons info.key s ch Trackers.nil)).names := by
  intro k hk
  simp only [distinctKeys, Bool.and_eq_true, Bool.not_eq_true', List.contains_eq_any_beq,
    List.any_eq_false, beq_iff_eq] at hkeys
  have h1 : k ∉ pre.names := hpre k (by simp [keys, hk])
  have h2 : k ≠ info.key := fun h => hkeys.1.1 k hk h.symm
  simp [Trackers.names_append, Trackers.names, h1, h2]

/-- Once the cycle is completed, the remaining sections of a body are only
registered: each gets its tracker, none is entered. -/
theorem track_done (b : Body) :
    ∀ (n : String) (st : CycleState) (pre : Trackers) (K : List Frame) (X : Trackers),
      (X = Trackers.nil ∨ X = kidsAt b 0) →
      (∀ k ∈ b.keys, k ∉ pre.names) → b.distinctKeys = true →
      track b ⟨some ⟨⟨n, st, pre.append X⟩, K⟩, RunState.CompletedCycle⟩
        = ⟨some ⟨⟨n, st, pre.append (kidsAt b 0)⟩, K⟩, RunState.CompletedCycle⟩ := by
  induction b with
  | done =>
    intro n st pre K X hX _ _
    rcases hX with h | h <;> subst h <;> rfl
  | assertion r rest ih =>
    intro n st pre K X hX hpre hkeys
    exact ih n st pre K X hX hpre hkeys
  | inSection info el inner rest _ ihr =>
    intro n st pre K X hX hpre hkeys
    have hkey : info.key ∉ pre.names := hpre _ (by simp [keys])
    have hpre' := keys_fresh info el inner rest pre CycleState.NotStarted Trackers.nil hpre hkeys
    have hdist : rest.distinctKeys = true := by
      simp only [distinctKeys, Bool.and_eq_true] at hkeys
      exact hkeys.2
    have step : ∀ Xr : Trackers, (Xr = Trackers.nil ∨ Xr = kidsAt rest 0) →
        (pre.append X
            = pre.append (Trackers.cons info.key CycleState.NotStarted Trackers.nil Xr) ∨
          (pre.append X = pre ∧ CycleState.NotStarted = CycleState.NotStarted ∧
            Trackers.nil = Trackers.nil ∧ Xr = Trackers.nil)) →
        track (inSection info el inner rest)
            ⟨some ⟨⟨n, st, pre.append X⟩, K⟩, RunState.CompletedCycle⟩
          = ⟨some ⟨⟨n, st, pre.append (kidsAt (inSection info el inner rest) 0)⟩, K⟩,
             RunState.CompletedCycle⟩ := by
      intro Xr hXr hk
      have hacq := TrackerContext.acquire_child n st pre K RunState.CompletedCycle info.key
        CycleState.NotStarted Trackers.nil Xr (pre.append X) hkey hk
      have hopen := TrackerContext.acquire_isOpen n st pre K RunState.CompletedCycle info.key
        CycleState.NotStarted Trackers.nil Xr (pre.append X) hkey hk
      simp only [ne_eq, not_true_eq_false, false_and, if_false] at hacq hopen
      have hopen' : (TrackerContext.acquire ⟨some ⟨⟨n, st, pre.append X⟩, K⟩,
          RunState.CompletedCycle⟩ info.key).1.isOpen
          (TrackerContext.acquire ⟨some ⟨⟨n, st, pre.append X⟩, K⟩,
          RunState.CompletedCycle⟩ info.key).2 = false := by
        rw [hopen]; rfl
      simp only [track, hopen', Bool.false_eq_true, if_false]
      rw [hacq]
      have h := ihr n st (pre.append (Trackers.cons info.key CycleState.NotStarted
        Trackers.nil Trackers.nil)) K Xr hXr hpre' hdist
      simp only [Trackers.append_assoc, Trackers.cons_append, Trackers.nil_append] at h
      rw [h, kidsAt_inSection_zero]
    rcases hX with h | h
    · subst h
      exact step Trackers.nil (Or.inl rfl) (Or.inr ⟨by simp, rfl, rfl, rfl⟩)
    · subst h
      exact step (kidsAt rest 0) (Or.inr rfl) (Or.inl (by rw [kidsAt_inSection_zero]))
  | write c t rest ih =>
    intro n st pre K X hX hpre hkeys
    exact ih n st pre K X hX hpre hkeys
  | throwTestFailure =>
    intro n st pre K X hX _ _
    rcases hX with h | h <;> subst h <;> rfl
  | throwOther w =>
    intro n st pre K X hX _ _
    rcases hX with h | h <;> subst h <;> rfl

end Body

namespace Body

theorem openChild_settled (n : String) (st : CycleState) (pre Xr : Trackers) (K : List Frame)
    (hK : openChild K = K) :
    openChild (⟨n, st, pre, Xr⟩ :: K) = ⟨n, CycleState.ExecutingChildren, pre, Xr⟩ :: K := by
  simp only [openChild]
  split_ifs with h
  · simp only at h; subst h; rfl
  · rw [hK]

theorem openChild_head (n : String) (pre Xr : Trackers) (K : List Frame) :
    openChild (⟨n, CycleState.ExecutingChildren, pre, Xr⟩ :: K)
      = ⟨n, CycleState.ExecutingChildren, pre, Xr⟩ :: K := by
  simp [openChild]

theorem nodeState_lt (b : Body) (j : Nat) (h : j < b.leaves) :
    (nodeState b j).isComplete = false := by
  rw [nodeState_isComplete]; simp; omega

/-- The step of a pass at a section that is entered: its tracker is opened, the
inner body runs, the tracker is closed. -/
theorem close_after_inner (inner : Body) (key n : String) (pre Xr : Trackers) (K : List Frame)
    (j : Nat) (hj : j < inner.leaves)
    (hin : track inner ⟨some ⟨⟨key, CycleState.Executing, inner.kidsOf j⟩,
        ⟨n, CycleState.ExecutingChildren, pre, Xr⟩ :: K⟩, RunState.Executing⟩
      = (if inner.sectionLeaves = 0 then
          ⟨some ⟨⟨key, CycleState.Executing, inner.kidsOf j⟩,
            ⟨n, CycleState.ExecutingChildren, pre, Xr⟩ :: K⟩, RunState.Executing⟩
         else
          ⟨some ⟨⟨key, CycleState.ExecutingChildren, kidsAt inner (j + 1)⟩,
            ⟨n, CycleState.ExecutingChildren, pre, Xr⟩ :: K⟩, RunState.CompletedCycle⟩)) :
    (track inner ⟨some ⟨⟨key, CycleState.Executing, inner.kidsOf j⟩,
        ⟨n, CycleState.ExecutingChildren, pre, Xr⟩ :: K⟩, RunState.Executing⟩).close
        (Zipper.path ⟨⟨n, CycleState.ExecutingChildren, pre⟩, K⟩ ++ [pre.length])
      = ⟨some ⟨⟨n, CycleState.ExecutingChildren,
          pre.append (Trackers.cons key (nodeState inner (j + 1)) (kidsAt inner (j + 1)) Xr)⟩, K⟩,
         RunState.CompletedCycle⟩ := by
  rw [hin]
  by_cases hs : inner.sectionLeaves = 0
  · have hl : inner.leaves = 1 := by simp [leaves, hs]
    have hj0 : j = 0 := by omega
    subst hj0
    simp only [hs, if_true]
    have hp : Zipper.path ⟨⟨n, CycleState.ExecutingChildren, pre⟩, K⟩ ++ [pre.length]
        = Zipper.path ⟨⟨key, CycleState.Executing, inner.kidsOf 0⟩,
            ⟨n, CycleState.ExecutingChildren, pre, Xr⟩ :: K⟩ := by
      simp [Zipper.path]
    rw [hp, TrackerContext.close_current _ _ _ _ (Or.inl rfl)]
    simp [Frame.plug, Trackers.consT, TrackerContext.closedState, nodeState, hl,
      kidsAt_noSections inner hs, kidsOf]
  · simp only [hs, if_false]
    have hl : inner.leaves = inner.sectionLeaves := by simp [leaves, hs]
    have hp : Zipper.path ⟨⟨n, CycleState.ExecutingChildren, pre⟩, K⟩ ++ [pre.length]
        = Zipper.path ⟨⟨key, CycleState.ExecutingChildren, kidsAt inner (j + 1)⟩,
            ⟨n, CycleState.ExecutingChildren, pre, Xr⟩ :: K⟩ := by
      simp [Zipper.path]
    rw [hp, TrackerContext.close_current _ _ _ _ (Or.inr rfl)]
    obtain ⟨t, ht, hc⟩ := back?_kidsAt inner hs (j + 1)
    have hst : TrackerContext.closedState
        ⟨key, CycleState.ExecutingChildren, kidsAt inner (j + 1)⟩ = nodeState inner (j + 1) := by
      simp only [TrackerContext.closedState, ht, hc, nodeState]
      by_cases hle : inner.sectionLeaves ≤ j + 1
      · have : ¬ (j + 1 < inner.leaves) := by omega
        simp [hle, this]
      · have : j + 1 < inner.leaves := by omega
        simp [hle, this]
    simp [Frame.plug, Trackers.consT, hst]

end Body

namespace Body

theorem kidsAt_inSection (info : SectionInfo) (el : Nat) (inner rest : Body) (j : Nat) :
    kidsAt (inSection info el inner rest) j
      = Trackers.cons info.key (nodeState inner (min j inner.leaves))
          (inner.kidsOf (min j inner.leaves)) (kidsAt rest (j - inner.leaves)) := rfl

theorem distinctKeys_inSection (info : SectionInfo) (el : Nat) (inner rest : Body)
    (h : (inSection info el inner rest).distinctKeys = true) :
    inner.distinctKeys = true ∧ rest.distinctKeys = true := by
  simp only [distinctKeys, Bool.and_eq_true] at h
  exact ⟨h.1.2, h.2⟩

/-- A pass that has not yet entered a leaf enters the first section that is not
complete, runs one more pass through it, and registers the sections after it:
the trackers of the sections move from `j` passes to `j + 1`. -/
theorem track_run (b : Body) :
    ∀ (n : String) (st : CycleState) (pre : Trackers) (K : List Frame) (X : Trackers) (j : Nat),
      openChild K = K →
      ((X = Trackers.nil ∧ j = 0) ∨ X = kidsAt b j) →
      (∀ k ∈ b.keys, k ∉ pre.names) → b.distinctKeys = true → j < b.sectionLeaves →
      track b ⟨some ⟨⟨n, st, pre.append X⟩, K⟩, RunState.Executing⟩
        = ⟨some ⟨⟨n, CycleState.ExecutingChildren, pre.append (kidsAt b (j + 1))⟩, K⟩,
           RunState.CompletedCycle⟩ := by
  induction b with
  | done => intro n st pre K X j _ _ _ _ hj; simp [sectionLeaves] at hj
  | assertion r rest ih =>
    intro n st pre K X j hK hX hpre hkeys hj
    exact ih n st pre K X j hK hX hpre hkeys hj
  | inSection info el inner rest ihi ihr =>
    intro n st pre K X j hK hX hpre hkeys hj
    have hkey : info.key ∉ pre.names := hpre _ (by simp [keys])
    obtain ⟨hdi, hdr⟩ := distinctKeys_inSection info el inner rest hkeys
    have hli := leaves_pos inner
    rw [sectionLeaves_inSection] at hj
    by_cases hcase : inner.leaves ≤ j
    · -- the section is complete already
      have hXk : X = kidsAt (inSection info el inner rest) j := by
        rcases hX with ⟨_, h0⟩ | h
        · omega
        · exact h
      subst hXk
      have hmin : min j inner.leaves = inner.leaves := by omega
      have hs : (nodeState inner (min j inner.leaves)).isComplete = true := by
        rw [nodeState_isComplete]; simp [hmin]
      have hso : (nodeState inner (min j inner.leaves)).isOpen = false := by
        simp [CycleState.isOpen, hs]
      have hk : pre.append (kidsAt (inSection info el inner rest) j)
          = pre.append (Trackers.cons info.key (nodeState inner (min j inner.leaves))
              (inner.kidsOf (min j inner.leaves)) (kidsAt rest (j - inner.leaves))) := rfl
      have hacq := TrackerContext.acquire_child n st pre K RunState.Executing info.key
        _ _ _ _ hkey (Or.inl hk)
      have hopen := TrackerContext.acquire_isOpen n st pre K RunState.Executing info.key
        _ _ _ _ hkey (Or.inl hk)
      simp only [hs, Bool.true_eq_false, and_false, if_false] at hacq hopen
      rw [hso] at hopen
      simp only [track, hopen, Bool.false_eq_true, if_false]
      rw [hacq]
      have hpre' := keys_fresh info el inner rest pre (nodeState inner (min j inner.leaves))
        (inner.kidsOf (min j inner.leaves)) hpre hkeys
      have h := ihr n st (pre.append (Trackers.cons info.key
        (nodeState inner (min j inner.leaves)) (inner.kidsOf (min j inner.leaves))
        Trackers.nil)) K (kidsAt rest (j - inner.leaves)) (j - inner.leaves) hK (Or.inr rfl)
        hpre' hdr (by omega)
      simp only [Trackers.append_assoc, Trackers.cons_append, Trackers.nil_append] at h
      rw [h, kidsAt_inSection]
      have e1 : min (j + 1) inner.leaves = min j inner.leaves := by omega
      have e2 : j + 1 - inner.leaves = j - inner.leaves + 1 := by omega
      rw [e1, e2]
    · -- the section is entered
      have hlt : j < inner.leaves := by omega
      have hmin : min j inner.leaves = j := by omega
      have hs : (nodeState inner j).isComplete = false := nodeState_lt inner j hlt
      have step : ∀ Xr : Trackers, (Xr = Trackers.nil ∨ Xr = kidsAt rest 0) →
          (pre.append X = pre.append (Trackers.cons info.key (nodeState inner j)
              (inner.kidsOf j) Xr) ∨
            (pre.append X = pre ∧ nodeState inner j = CycleState.NotStarted ∧
              inner.kidsOf j = Trackers.nil ∧ Xr = Trackers.nil)) →
          track (inSection info el inner rest)
              ⟨some ⟨⟨n, st, pre.append X⟩, K⟩, RunState.Executing⟩
            = ⟨some ⟨⟨n, CycleState.ExecutingChildren,
                pre.append (kidsAt (inSection info el inner rest) (j + 1))⟩, K⟩,
               RunState.CompletedCycle⟩ := by
        intro Xr hXr hk
        have hacq := TrackerContext.acquire_child n st pre K RunState.Executing info.key
          _ _ _ _ hkey hk
        have hopen := TrackerContext.acquire_isOpen n st pre K RunState.Executing info.key
          _ _ _ _ hkey hk
        simp only [hs, ne_eq, reduceCtorEq, not_false_eq_true, and_self, if_true] at hacq hopen
        simp only [track, hopen, if_true]
        rw [hacq, openChild_settled n st pre Xr K hK]
        have hin : track inner ⟨some ⟨⟨info.key, CycleState.Executing, inner.kidsOf j⟩,
              ⟨n, CycleState.ExecutingChildren, pre, Xr⟩ :: K⟩, RunState.Executing⟩
            = (if inner.sectionLeaves = 0 then
                ⟨some ⟨⟨info.key, CycleState.Executing, inner.kidsOf j⟩,
                  ⟨n, CycleState.ExecutingChildren, pre, Xr⟩ :: K⟩, RunState.Executing⟩
               else
                ⟨some ⟨⟨info.key, CycleState.ExecutingChildren, kidsAt inner (j + 1)⟩,
                  ⟨n, CycleState.ExecutingChildren, pre, Xr⟩ :: K⟩, RunState.CompletedCycle⟩) := by
          split_ifs with h0
          · exact track_noSections inner h0 _
          · have hl : inner.leaves = inner.sectionLeaves := by simp [leaves, h0]
            have hX' : (inner.kidsOf j = Trackers.nil ∧ j = 0) ∨ inner.kidsOf j = kidsAt inner j := by
              by_cases hj0 : j = 0
              · left; exact ⟨by simp [kidsOf, hj0], hj0⟩
              · right; simp [kidsOf, hj0]
            have h := ihi info.key CycleState.Executing Trackers.nil
              (⟨n, CycleState.ExecutingChildren, pre, Xr⟩ :: K) (inner.kidsOf j) j
              (openChild_head n pre Xr K) hX' (by simp [Trackers.names]) hdi (by omega)
            simpa using h
        have hclose := close_after_inner inner info.key n pre Xr K j hlt hin
        have hpath : Zipper.path ⟨⟨n, st, pre.append X⟩, K⟩
            = Zipper.path ⟨⟨n, CycleState.ExecutingChildren, pre⟩, K⟩ := rfl
        simp only [hpath]
        rw [hclose]
        have hpre' := keys_fresh info el inner rest pre (nodeState inner (j + 1))
          (kidsAt inner (j + 1)) hpre hkeys
        have h := track_done rest n CycleState.ExecutingChildren
          (pre.append (Trackers.cons info.key (nodeState inner (j + 1)) (kidsAt inner (j + 1))
            Trackers.nil)) K Xr hXr hpre' hdr
        simp only [Trackers.append_assoc, Trackers.cons_append, Trackers.nil_append] at h
        rw [h, kidsAt_inSection]
        have e1 : min (j + 1) inner.leaves = j + 1 := by omega
        have e2 : j + 1 - inner.leaves = 0 := by omega
        rw [e1, e2]
        simp [kidsOf]
      rcases hX with ⟨hX0, hj0⟩ | hXk
      · subst hX0 hj0
        exact step Trackers.nil (Or.inl rfl)
          (Or.inr ⟨by simp, by simp [nodeState], by simp [kidsOf], rfl⟩)
      · subst hXk
        refine step (kidsAt rest 0) (Or.inr rfl) (Or.inl ?_)
        rw [kidsAt_inSection, hmin]
        have e2 : j - inner.leaves = 0 := by omega
        rw [e2]
  | write c t rest ih =>
    intro n st pre K X j hK hX hpre hkeys hj
    exact ih n st pre K X j hK hX hpre hkeys hj
  | throwTestFailure => intro n st pre K X j _ _ _ _ hj; simp [sectionLeaves] at hj
  | throwOther w => intro n st pre K X j _ _ _ _ hj; simp [sectionLeaves] at hj

end Body

namespace RunContext

/-! ## Passes over a unit that records no failure -/

theorem testForMissingAssertions_nowarn (rc : RunContext) (a : Counts)
    (h : rc.m_config.warnAboutMissingAssertions = false) :
    rc.testForMissingAssertions a = (rc, a, false) := by
  simp only [testForMissingAssertions, h]
  split_ifs <;> simp_all

theorem closeBack_append (rc : RunContext) (l : List Handle) (h : Handle)
    (ha : rc.m_activeSections = l ++ [h]) :
    rc.closeBack.m_trackerContext = rc.m_trackerContext.close h := by
  simp [closeBack, ha]

theorem closeBack_nil (rc : RunContext) (ha : rc.m_activeSections = []) :
    rc.closeBack = rc := by
  simp [closeBack, ha]

/-- Without the missing-assertions warning `sectionEnded` counts nothing. -/
theorem sectionEnded_nowarn (rc : RunContext) (e : SectionEndInfo)
    (h : rc.m_config.warnAboutMissingAssertions = false) :
    (rc.sectionEnded e).m_totals = rc.m_totals ∧
    (rc.sectionEnded e).m_trackerContext = rc.closeBack.m_trackerContext := by
  simp only [sectionEnded, testForMissingAssertions_nowarn rc _ h]
  exact ⟨(closeBack_frame rc).2.2.2.2.2.2.2, trivial⟩

theorem countAssertion_ok (t : Totals) (r : AssertionResult)
    (h : (decide (r.resultType = ResultWas.Ok) || r.isOk) = true) :
    (countAssertion t r).assertions.failed = t.assertions.failed := by
  simp only [countAssertion]
  split_ifs with h1 h2
  · rfl
  · simp_all
  · rfl

/-- An invocation of a body that throws nowhere returns, leaves the traversal
context that `track` computes, and adds no unfinished section; when no assertion
of the body fails and the missing-assertions warning is off, the failed count
is unchanged. -/
theorem invoke_throwFree (b : Body) (rc : RunContext) (ht : b.throwFree = true) :
    (invoke b rc).2 = Outcome.returned ∧
    (invoke b rc).1.m_trackerContext = b.track rc.m_trackerContext ∧
    (invoke b rc).1.m_unfinishedSections = rc.m_unfinishedSections ∧
    (b.noFailure = true → rc.m_config.warnAboutMissingAssertions = false →
      (invoke b rc).1.m_totals.assertions.failed = rc.m_totals.assertions.failed) := by
  induction b generalizing rc with
  | done => simp [invoke, Body.track]
  | assertion r rest ih =>
    simp only [Body.throwFree] at ht
    obtain ⟨i1, i2, i3, i4⟩ := ih (rc.assertionEnded r) ht
    obtain ⟨_, a2, _, _, a5, a6, _⟩ := assertionEnded_frame rc r
    simp only [invoke, Body.track]
    refine ⟨i1, by rw [i2, a6], by rw [i3, a2], ?_⟩
    intro hn hw
    simp only [Body.noFailure, Bool.and_eq_true] at hn
    rw [i4 hn.2 (by rw [a5]; exact hw)]
    simp only [assertionEnded]
    exact countAssertion_ok _ _ hn.1
  | inSection info el inner rest ihi ihr =>
    simp only [Body.throwFree, Bool.and_eq_true] at ht
    obtain ⟨s1, s2, s3, s4⟩ := sectionStarted_frame rc info Counts.zero
    have st : (rc.sectionStarted info Counts.zero).1.m_trackerContext
        = (rc.m_trackerContext.acquire info.key).1 := by
      simp only [sectionStarted]
      split_ifs <;> rfl
    have so : (rc.sectionStarted info Counts.zero).2.1
        = (rc.m_trackerContext.acquire info.key).1.isOpen
            (rc.m_trackerContext.acquire info.key).2 := by
      simp only [sectionStarted]
      cases (rc.m_trackerContext.acquire info.key).1.isOpen
        (rc.m_trackerContext.acquire info.key).2 <;> simp
    simp only [invoke, Body.track]
    rw [← so]
    cases hs : (rc.sectionStarted info Counts.zero).2.1 with
    | false =>
      simp only [hs, Bool.false_eq_true, if_false] at s1 ⊢
      obtain ⟨i1, i2, i3, i4⟩ := ihr (rc.sectionStarted info Counts.zero).1 ht.2
      refine ⟨i1, by rw [i2, st], by rw [i3, s2], ?_⟩
      intro hn hw
      simp only [Body.noFailure, Bool.and_eq_true] at hn
      rw [i4 hn.2 (by rw [s3]; exact hw), s4]
    | true =>
      simp only [hs, if_true] at s1 ⊢
      obtain ⟨j1, j2, j3, j4⟩ := ihi (rc.sectionStarted info Counts.zero).1 ht.1
      obtain ⟨f1, f2, _, _⟩ := invoke_frame inner (rc.sectionStarted info Counts.zero).1
      rcases hinv : invoke inner (rc.sectionStarted info Counts.zero).1 with ⟨rc2, o⟩
      rw [hinv] at j1 j2 j3 j4 f1 f2
      simp only at j1 j2 j3 j4 f1 f2
      subst j1
      simp only
      obtain ⟨i1, i2, i3, i4⟩ := ihr (rc2.sectionEnded
        ⟨info, (rc.sectionStarted info Counts.zero).2.2, el⟩) ht.2
      obtain ⟨e1, e2, _⟩ := sectionEnded_frame rc2
        ⟨info, (rc.sectionStarted info Counts.zero).2.2, el⟩
      have hact : rc2.m_activeSections
          = rc.m_activeSections ++ [(rc.m_trackerContext.acquire info.key).2] := by
        rw [f1, s1]
      have htr : (rc2.sectionEnded ⟨info, (rc.sectionStarted info Counts.zero).2.2,
          el⟩).m_trackerContext
          = (inner.track (rc.m_trackerContext.acquire info.key).1).close
              (rc.m_trackerContext.acquire info.key).2 := by
        have hm := (testForMissingAssertions_frame rc2
          (rc2.m_totals.assertions.sub (rc.sectionStarted info Counts.zero).2.2))
        simp only [sectionEnded]
        rw [closeBack_append _ rc.m_activeSections (rc.m_trackerContext.acquire info.key).2
          (by rw [hm.2.1, hact]), hm.2.2.2.1, j2, st]
      refine ⟨i1, by rw [i2, htr], by rw [i3, e1, j3, s2], ?_⟩
      intro hn hw
      simp only [Body.noFailure, Bool.and_eq_true] at hn
      have hw2 : rc2.m_config.warnAboutMissingAssertions = false := by rw [f2, s3]; exact hw
      rw [i4 hn.2 (by rw [e2]; exact hw2), (sectionEnded_nowarn rc2 _ hw2).1,
        j4 hn.1 (by rw [s3]; exact hw), s4]
  | write c t rest ih =>
    simp only [Body.throwFree] at ht
    obtain ⟨i1, i2, i3, i4⟩ := ih { rc with streams := rc.streams.write c t } ht
    simp only [invoke, Body.track]
    exact ⟨i1, i2, i3, fun hn hw => i4 (by simpa [Body.noFailure] using hn) hw⟩
  | throwTestFailure => simp [Body.throwFree] at ht
  | throwOther w => simp [Body.throwFree] at ht

theorem subSize_zero (f : Nat) (h : f < sizeMod) : subSize f 0 = f := by
  unfold subSize sizeMod at *
  omega

theorem passInvoke_throwFree (rc : RunContext) (tc : TestCase) (o e : String)
    (ht : tc.body.throwFree = true) :
    (passInvoke rc tc o e).rc.m_trackerContext = tc.body.track rc.m_trackerContext ∧
    (passInvoke rc tc o e).rc.m_unfinishedSections = rc.m_unfinishedSections ∧
    (tc.body.noFailure = true → rc.m_config.warnAboutMissingAssertions = false →
      (passInvoke rc tc o e).rc.m_totals.assertions.failed = rc.m_totals.assertions.failed) := by
  simp only [passInvoke, passRan]
  split_ifs with hr
  · obtain ⟨i1, i2, i3, i4⟩ := invoke_throwFree tc.body
      { rc with
        m_reporter := rc.m_reporter.emit (Event.sectionStarting
          ⟨tc.name, tc.description, tc.lineInfo⟩)
        m_lastAssertionInfo := ⟨"TEST_CASE", tc.lineInfo, "", ResultDisposition.Normal⟩
        streams := (StreamRedirect.create (StreamRedirect.create rc.streams false).1 true).1 } ht
    simp only [i1]
    exact ⟨i2, i3, i4⟩
  · obtain ⟨i1, i2, i3, i4⟩ := invoke_throwFree tc.body
      { rc with
        m_reporter := rc.m_reporter.emit (Event.sectionStarting
          ⟨tc.name, tc.description, tc.lineInfo⟩)
        m_lastAssertionInfo := ⟨"TEST_CASE", tc.lineInfo, "", ResultDisposition.Normal⟩ } ht
    simp only [i1]
    exact ⟨i2, i3, i4⟩

/-- One pass over a unit that throws nowhere and records no failure: the
traversal context is the one `track` computes with the tracker of the unit
closed, and the failed count is unchanged. -/
theorem runTestPass_quiet (rc : RunContext) (tc : TestCase) (o e : String)
    (ht : tc.body.throwFree = true) (hn : tc.body.noFailure = true)
    (hw : rc.m_config.warnAboutMissingAssertions = false)
    (hu : rc.m_unfinishedSections = []) (hr : rc.m_totals.assertions.failed < sizeMod) :
    (rc.runTestPass tc o e).rc.m_trackerContext
      = (tc.body.track rc.m_trackerContext).close
          (tc.body.track rc.m_trackerContext).currentTracker ∧
    (rc.runTestPass tc o e).rc.m_totals.assertions.failed = rc.m_totals.assertions.failed ∧
    (rc.runTestPass tc o e).rc.m_unfinishedSections = [] := by
  obtain ⟨p1, p2, p3⟩ := passInvoke_throwFree rc tc o e ht
  have p3 := p3 hn hw
  rw [hu] at p2
  obtain ⟨_, pc, _⟩ := passInvoke_frame rc tc o e
  have hclose : (passInvoke rc tc o e).rc.passClose
      = { (passInvoke rc tc o e).rc with
          m_trackerContext := (tc.body.track rc.m_trackerContext).close
            (tc.body.track rc.m_trackerContext).currentTracker
          m_unfinishedSections := []
          m_messages := [] } := by
    simp [passClose, handleUnfinishedSections, p2, p1]
  have hw2 : (passInvoke rc tc o e).rc.passClose.m_config.warnAboutMissingAssertions = false := by
    rw [hclose]; simp only; rw [pc]; exact hw
  have hcount : (passCounted rc tc o e).rc = (passInvoke rc tc o e).rc.passClose ∧
      (passCounted rc tc o e).val.1
        = (passInvoke rc tc o e).rc.passClose.m_totals.assertions.sub rc.m_totals.assertions := by
    simp only [passCounted, testForMissingAssertions_nowarn _ _ hw2, and_self]
  obtain ⟨e1, e2, e3, e4, e5, e6⟩ := passEnd_frame (passCounted rc tc o e).rc tc
    (passCounted rc tc o e).val.1 (passCounted rc tc o e).val.2.2 (passCounted rc tc o e).val.2.1
  refine ⟨?_, ?_, ?_⟩
  · simp only [runTestPass]
    rw [e4, hcount.1, hclose]
  · have hf : (passInvoke rc tc o e).rc.passClose.m_totals.assertions.failed
        = rc.m_totals.assertions.failed := by rw [hclose]; exact p3
    simp only [runTestPass, passEnd, passAssertions, hcount.1, hcount.2]
    split_ifs with hok
    · simp only [Counts.sub, hf, subSize_self]
      exact subSize_zero _ hr
    · exact hf
  · simp only [runTestPass]
    rw [e2, hcount.1, hclose]

/-- At the start of a round the tracker of the unit is acquired below the root
and opened, with the children it has after `j` passes. -/
theorem acquire_unit (name : String) (b : Body) (j : Nat) (hj : j < b.leaves) :
    (trackedAfter name b j).startCycle.acquire name
      = (⟨some ⟨⟨name, CycleState.Executing, b.kidsOf j⟩,
            [⟨"\x7broot\x7d", CycleState.ExecutingChildren, Trackers.nil, Trackers.nil⟩]⟩,
          RunState.Executing⟩, [0]) := by
  by_cases h0 : j = 0
  · subst h0
    have h := TrackerContext.acquire_child "\x7broot\x7d" CycleState.NotStarted Trackers.nil []
      RunState.Executing name CycleState.NotStarted Trackers.nil Trackers.nil Trackers.nil
      (by simp [Trackers.names]) (Or.inr ⟨rfl, rfl, rfl, rfl⟩)
    simp only [trackedAfter, if_true, TrackerContext.startRun, TrackerContext.startCycle,
      Option.map_some', Zipper.root, List.foldl_nil]
    rw [h]
    simp [CycleState.isComplete, openChild, Zipper.path, Trackers.length, Body.kidsOf]
  · have hs : (b.nodeState j).isComplete = false := Body.nodeState_lt b j hj
    have h := TrackerContext.acquire_child "\x7broot\x7d" CycleState.ExecutingChildren
      Trackers.nil [] RunState.Executing name (b.nodeState j) (b.kidsOf j) Trackers.nil
      (Trackers.cons name (b.nodeState j) (b.kidsOf j) Trackers.nil)
      (by simp [Trackers.names]) (Or.inl rfl)
    simp only [trackedAfter, h0, if_false, TrackerContext.startCycle,
      Option.map_some', Zipper.root, List.foldl_nil]
    rw [h]
    simp [hs, openChild, Zipper.path, Trackers.length]

/-- One pass over a unit that throws nowhere: the traversal context is the one
`track` computes with the tracker of the unit closed. -/
theorem runTestPass_tracker (rc : RunContext) (tc : TestCase) (o e : String)
    (ht : tc.body.throwFree = true) (hu : rc.m_unfinishedSections = []) :
    (rc.runTestPass tc o e).rc.m_trackerContext
      = (tc.body.track rc.m_trackerContext).close
          (tc.body.track rc.m_trackerContext).currentTracker ∧
    (rc.runTestPass tc o e).rc.m_unfinishedSections = [] := by
  obtain ⟨p1, p2, _⟩ := passInvoke_throwFree rc tc o e ht
  rw [hu] at p2
  have hclose : (passInvoke rc tc o e).rc.passClose
      = { (passInvoke rc tc o e).rc with
          m_trackerContext := (tc.body.track rc.m_trackerContext).close
            (tc.body.track rc.m_trackerContext).currentTracker
          m_unfinishedSections := []
          m_messages := [] } := by
    simp [passClose, handleUnfinishedSections, p2, p1]
  obtain ⟨_, _, m3, m4, _⟩ := testForMissingAssertions_frame (passInvoke rc tc o e).rc.passClose
    ((passInvoke rc tc o e).rc.passClose.m_totals.assertions.sub rc.m_totals.assertions)
  obtain ⟨_, e2, _, e4, _⟩ := passEnd_frame (passCounted rc tc o e).rc tc
    (passCounted rc tc o e).val.1 (passCounted rc tc o e).val.2.2 (passCounted rc tc o e).val.2.1
  constructor
  · simp only [runTestPass]
    rw [e4]
    simp only [passCounted]
    rw [m4, hclose]
  · simp only [runTestPass]
    rw [e2]
    simp only [passCounted]
    rw [m3, hclose]

/-- One round of the loop on a unit that throws nowhere moves the traversal
context from `j` passes to `j + 1`; the loop goes on when a leaf is left and the
run is not aborting. -/
theorem runTestCycle_tracker (rc : RunContext) (tc : TestCase) (o e : String) (j : Nat)
    (hj : j < tc.body.leaves)
    (htr : rc.m_trackerContext = trackedAfter tc.name tc.body j)
    (ht : tc.body.throwFree = true) (hd : tc.body.distinctKeys = true)
    (hu : rc.m_unfinishedSections = []) :
    (rc.runTestCycle tc o e).rc.m_trackerContext = trackedAfter tc.name tc.body (j + 1) ∧
    (rc.runTestCycle tc o e).rc.m_unfinishedSections = [] ∧
    (rc.runTestCycle tc o e).rc.m_config = rc.m_config ∧
    (rc.runTestCycle tc o e).val
      = (decide (j + 1 < tc.body.leaves) && !(rc.runTestCycle tc o e).rc.isAborting) := by
  have hacq := acquire_unit tc.name tc.body j hj
  have hin : tc.body.track ⟨some ⟨⟨tc.name, CycleState.Executing, tc.body.kidsOf j⟩,
        [⟨"\x7broot\x7d", CycleState.ExecutingChildren, Trackers.nil, Trackers.nil⟩]⟩,
        RunState.Executing⟩
      = (if tc.body.sectionLeaves = 0 then
          ⟨some ⟨⟨tc.name, CycleState.Executing, tc.body.kidsOf j⟩,
            [⟨"\x7broot\x7d", CycleState.ExecutingChildren, Trackers.nil, Trackers.nil⟩]⟩,
            RunState.Executing⟩
         else
          ⟨some ⟨⟨tc.name, CycleState.ExecutingChildren, tc.body.kidsAt (j + 1)⟩,
            [⟨"\x7broot\x7d", CycleState.ExecutingChildren, Trackers.nil, Trackers.nil⟩]⟩,
            RunState.CompletedCycle⟩) := by
    split_ifs with h0
    · exact Body.track_noSections tc.body h0 _
    · have hl : tc.body.leaves = tc.body.sectionLeaves := by simp [Body.leaves, h0]
      have hX' : (tc.body.kidsOf j = Trackers.nil ∧ j = 0)
          ∨ tc.body.kidsOf j = tc.body.kidsAt j := by
        by_cases hj0 : j = 0
        · left; exact ⟨by simp [Body.kidsOf, hj0], hj0⟩
        · right; simp [Body.kidsOf, hj0]
      have h := Body.track_run tc.body tc.name CycleState.Executing Trackers.nil
        [⟨"\x7broot\x7d", CycleState.ExecutingChildren, Trackers.nil, Trackers.nil⟩]
        (tc.body.kidsOf j) j (Body.openChild_head _ _ _ _) hX' (by simp [Trackers.names]) hd
        (by omega)
      simpa using h
  have hcur : (tc.body.track ⟨some ⟨⟨tc.name, CycleState.Executing, tc.body.kidsOf j⟩,
        [⟨"\x7broot\x7d", CycleState.ExecutingChildren, Trackers.nil, Trackers.nil⟩]⟩,
        RunState.Executing⟩).currentTracker
      = Zipper.path ⟨⟨"\x7broot\x7d", CycleState.ExecutingChildren, Trackers.nil⟩, []⟩
          ++ [Trackers.nil.length] := by
    rw [hin]
    split_ifs <;> rfl
  have hclose := Body.close_after_inner tc.body tc.name "\x7broot\x7d" Trackers.nil Trackers.nil
    [] j hj hin
  have hq := runTestPass_tracker
    { rc with m_trackerContext := (rc.m_trackerContext.startCycle.acquire tc.name).1 } tc o e
    ht hu
  simp only [htr, hacq] at hq
  rw [hcur, hclose] at hq
  have hcfg := runTestPass_config
    { rc with m_trackerContext := (rc.m_trackerContext.startCycle.acquire tc.name).1 } tc o e
  simp only [htr, hacq] at hcfg
  have htrk : (rc.runTestCycle tc o e).rc.m_trackerContext
      = trackedAfter tc.name tc.body (j + 1) := by
    simp only [runTestCycle, htr, hacq]
    rw [hq.1]
    simp [trackedAfter, Body.kidsOf]
  have hconf : (rc.runTestCycle tc o e).rc.m_config = rc.m_config := by
    simp only [runTestCycle, htr, hacq]
    exact hcfg
  refine ⟨htrk, ?_, hconf, ?_⟩
  · simp only [runTestCycle, htr, hacq]
    exact hq.2
  · have hdone : (rc.runTestCycle tc o e).rc.m_trackerContext.isSuccessfullyCompleted [0]
        = decide (tc.body.leaves ≤ j + 1) := by
      rw [htrk]
      simp only [trackedAfter, Nat.add_one_ne_zero, if_false,
        TrackerContext.isSuccessfullyCompleted, TrackerContext.lookup, Zipper.root,
        List.foldl_nil, Tracker.get?, Trackers.get?]
      have := Body.nodeState_isComplete tc.body (j + 1)
      simp only [CycleState.isComplete, Body.nodeState] at this ⊢
      split_ifs at this ⊢ <;> simp_all
    have hval : (rc.runTestCycle tc o e).val
        = (!(rc.runTestCycle tc o e).rc.m_trackerContext.isSuccessfullyCompleted [0]
            && !(rc.runTestCycle tc o e).rc.isAborting) := by
      simp only [runTestCycle, htr, hacq]
    rw [hval, hdone]
    by_cases h : j + 1 < tc.body.leaves
    · have h' : ¬ tc.body.leaves ≤ j + 1 := by omega
      simp [h, h']
    · have h' : tc.body.leaves ≤ j + 1 := by omega
      simp [h, h']

/-- The state after `j` passes over a unit that throws nowhere, as long as
leaves are left. -/
theorem afterPasses_tracker (rc : RunContext) (tc : TestCase)
    (ht : tc.body.throwFree = true) (hd : tc.body.distinctKeys = true)
    (hu : rc.m_unfinishedSections = []) (j : Nat) (hj : j ≤ tc.body.leaves) :
    (afterPasses rc tc j).rc.m_trackerContext = trackedAfter tc.name tc.body j ∧
    (afterPasses rc tc j).rc.m_unfinishedSections = [] ∧
    (afterPasses rc tc j).rc.m_config = rc.m_config := by
  induction j with
  | zero =>
    exact ⟨by simp [afterPasses, runTestStart, trackedAfter, TrackerContext.startRun],
      by simpa [afterPasses, runTestStart] using hu, rfl⟩
  | succ n ih =>
    obtain ⟨i1, i2, i3⟩ := ih (by omega)
    obtain ⟨c1, c2, c3, _⟩ := runTestCycle_tracker (afterPasses rc tc n).rc tc
      (afterPasses rc tc n).redirectedCout (afterPasses rc tc n).redirectedCerr n (by omega)
      i1 ht hd i2
    simp only [afterPasses]
    exact ⟨c1, c2, c3.trans i3⟩

/-- The loop entered after `j` passes, with the run not aborting after any pass
short of the last: it makes the remaining passes, one per leaf, and returns the
state after the last of them. -/
theorem runTestLoop_afterPasses (rc : RunContext) (tc : TestCase)
    (ht : tc.body.throwFree = true) (hd : tc.body.distinctKeys = true)
    (hu : rc.m_unfinishedSections = [])
    (hna : ∀ i, i < tc.body.leaves → (afterPasses rc tc i).rc.isAborting = false)
    (fuel : Nat) :
    ∀ j, j < tc.body.leaves → tc.body.leaves - j ≤ fuel →
      ∃ p, (afterPasses rc tc j).rc.runTestLoop fuel tc
          (afterPasses rc tc j).redirectedCout (afterPasses rc tc j).redirectedCerr = some p ∧
        p.val = tc.body.leaves - j ∧ p.rc = (afterPasses rc tc tc.body.leaves).rc := by
  induction fuel with
  | zero => intro j hj hf; omega
  | succ n ih =>
    intro j hj hf
    obtain ⟨i1, i2, _⟩ := afterPasses_tracker rc tc ht hd hu j (by omega)
    obtain ⟨_, _, _, c4⟩ := runTestCycle_tracker (afterPasses rc tc j).rc tc
      (afterPasses rc tc j).redirectedCout (afterPasses rc tc j).redirectedCerr j hj i1 ht hd i2
    have hstep : (afterPasses rc tc j).rc.runTestCycle tc
        (afterPasses rc tc j).redirectedCout (afterPasses rc tc j).redirectedCerr
        = afterPasses rc tc (j + 1) := rfl
    rw [hstep] at c4
    simp only [runTestLoop]
    rw [hstep]
    by_cases hlt : j + 1 < tc.body.leaves
    · have hv : (afterPasses rc tc (j + 1)).val = true := by
        rw [c4, hna (j + 1) hlt]; simp [hlt]
      obtain ⟨p, hp, hpv, hpr⟩ := ih (j + 1) hlt (by omega)
      rw [if_pos hv, hp]
      refine ⟨_, rfl, ?_, hpr⟩
      simp only [hpv]; omega
    · have hv : (afterPasses rc tc (j + 1)).val = false := by rw [c4]; simp [hlt]
      rw [if_neg (by rw [hv]; simp)]
      have hje : j + 1 = tc.body.leaves := by omega
      refine ⟨_, rfl, ?_, ?_⟩
      · simp only; omega
      · simp only [hje]

/-- C2: for a test unit whose tree of nested sections has `n` leaves and which
records no failure, with the run not aborting, the public `runTest` makes
exactly `n` passes over the unit and returns totals with 0 failed assertions.
That the unit records no failure is `hquiet`: the run-wide failed count after
each pass is the one from before the call; it throws nowhere, and sibling
sections have different keys.  `fuel` only has to cover the `n` passes. -/
theorem runTest_passes_eq_leaves (fuel : Nat) (rc : RunContext) (testCase : TestCase)
    (ht : testCase.body.throwFree = true) (hd : testCase.body.distinctKeys = true)
    (hu : rc.m_unfinishedSections = [])
    (hquiet : ∀ j, j ≤ testCase.body.leaves →
      (afterPasses rc testCase j).rc.m_totals.assertions.failed = rc.m_totals.assertions.failed)
    (ha : rc.isAborting = false) (hfuel : testCase.body.leaves ≤ fuel) :
    ∃ res, rc.runTest fuel testCase = some res ∧ res.passes = testCase.body.leaves ∧
      res.totals.assertions.failed = 0 := by
  have hl := Body.leaves_pos testCase.body
  have hna : ∀ i, i < testCase.body.leaves →
      (afterPasses rc testCase i).rc.isAborting = false := by
    intro i hi
    obtain ⟨_, _, hc⟩ := afterPasses_tracker rc testCase ht hd hu i (by omega)
    simp only [isAborting, hquiet i (by omega), hc] at ha ⊢
    exact ha
  obtain ⟨p, hp, hpv, hpr⟩ := runTestLoop_afterPasses rc testCase ht hd hu hna fuel 0
    (by omega) (by omega)
  have hp' : (rc.runTestStart testCase).runTestLoop fuel testCase "" "" = some p := hp
  simp only [runTest, hp']
  refine ⟨_, rfl, ?_, ?_⟩
  · simpa using hpv
  · have := hquiet testCase.body.leaves (le_refl _)
    rw [← hpr] at this
    simp [Totals.delta, Counts.sub, this, subSize_self]

/-- C2 on a unit with two independent sections at the top level: `runTest`
makes exactly 2 passes and returns 2 passed and 0 failed assertions. -/
theorem runTest_passes_eq_leaves_witness :
    twoSections.leaves = 2 ∧
    ((sampleContext (-1)).runTest 2 (sampleTestCase "T" false twoSections)).map
      (fun res => (res.passes, res.totals.assertions)) = some (2, ⟨2, 0, 0⟩) ∧
    ∃ res, (sampleContext (-1)).runTest 2 (sampleTestCase "T" false twoSections) = some res ∧
      res.passes = (sampleTestCase "T" false twoSections).body.leaves ∧
      res.totals.assertions.failed = 0 :=
  ⟨by decide, by decide,
   runTest_passes_eq_leaves 2 (sampleContext (-1)) (sampleTestCase "T" false twoSections)
     (by decide) (by decide) (by decide) (by decide) (by decide) (by decide)⟩

/-! ## Entering a section -/

/-- C11: `sectionStarted( info, out )` returns true exactly when the tracker
acquired for the key `name@location` reports `isOpen`.  When it returns false,
`m_activeSections`, the last-assertion record, the output parameter, the totals
and the event log of the reporter are unchanged.  When it returns true,
`m_activeSections` has the acquired handle appended, the last-assertion location
is the location of the section, one `sectionStarting` event was reported, the
output parameter holds the run-wide assertion counts, and the totals are
unchanged. -/
theorem sectionStarted_spec (rc : RunContext) (sectionInfo : SectionInfo) (assertions : Counts) :
    (rc.sectionStarted sectionInfo assertions).2.1
      = (rc.m_trackerContext.acquire sectionInfo.key).1.isOpen
          (rc.m_trackerContext.acquire sectionInfo.key).2 ∧
    (((rc.sectionStarted sectionInfo assertions).2.1 = false ∧
        (rc.sectionStarted sectionInfo assertions).1.m_activeSections = rc.m_activeSections ∧
        (rc.sectionStarted sectionInfo assertions).1.m_lastAssertionInfo = rc.m_lastAssertionInfo ∧
        (rc.sectionStarted sectionInfo assertions).2.2 = assertions ∧
        (rc.sectionStarted sectionInfo assertions).1.m_totals = rc.m_totals ∧
        (rc.sectionStarted sectionInfo assertions).1.m_reporter.log = rc.m_reporter.log) ∨
     ((rc.sectionStarted sectionInfo assertions).2.1 = true ∧
        (rc.sectionStarted sectionInfo assertions).1.m_activeSections
          = rc.m_activeSections ++ [(rc.m_trackerContext.acquire sectionInfo.key).2] ∧
        (rc.sectionStarted sectionInfo assertions).1.m_lastAssertionInfo.lineInfo
          = sectionInfo.lineInfo ∧
        (rc.sectionStarted sectionInfo assertions).1.m_reporter.log
          = rc.m_reporter.log ++ [Event.sectionStarting sectionInfo] ∧
        (rc.sectionStarted sectionInfo assertions).2.2 = rc.m_totals.assertions ∧
        (rc.sectionStarted sectionInfo assertions).1.m_totals = rc.m_totals)) := by
  simp only [sectionStarted]
  cases h : (rc.m_trackerContext.acquire sectionInfo.key).1.isOpen
    (rc.m_trackerContext.acquire sectionInfo.key).2 <;> simp [Reporter.emit]

/-! ## The missing-assertions check -/

/-- C19: `testForMissingAssertions( c )` returns true exactly when `c.total()`
is 0, the configuration asks for the warning, and the current tracker has no
children.  When it returns true the run-wide failed count and `c.failed` are
both incremented and nothing else changes; when it returns false neither the
totals nor `c` change. -/
theorem testForMissingAssertions_spec (rc : RunContext) (assertions : Counts) :
    ((rc.testForMissingAssertions assertions).2.2 = true ↔
      (assertions.total = 0 ∧ rc.m_config.warnAboutMissingAssertions = true ∧
        rc.m_trackerContext.hasChildren rc.m_trackerContext.currentTracker = false)) ∧
    (((rc.testForMissingAssertions assertions).2.2 = true ∧
        (rc.testForMissingAssertions assertions).1.m_totals.assertions.failed
          = incr rc.m_totals.assertions.failed ∧
        (rc.testForMissingAssertions assertions).2.1.failed = incr assertions.failed ∧
        (rc.testForMissingAssertions assertions).1.m_totals.assertions.passed
          = rc.m_totals.assertions.passed ∧
        (rc.testForMissingAssertions assertions).1.m_totals.assertions.failedButOk
          = rc.m_totals.assertions.failedButOk ∧
        (rc.testForMissingAssertions assertions).1.m_totals.testCases = rc.m_totals.testCases ∧
        (rc.testForMissingAssertions assertions).2.1.passed = assertions.passed ∧
        (rc.testForMissingAssertions assertions).2.1.failedButOk = assertions.failedButOk) ∨
     ((rc.testForMissingAssertions assertions).2.2 = false ∧
        (rc.testForMissingAssertions assertions).1.m_totals = rc.m_totals ∧
        (rc.testForMissingAssertions assertions).2.1 = assertions)) := by
  simp only [testForMissingAssertions]
  by_cases h1 : assertions.total = 0
  · cases h2 : rc.m_config.warnAboutMissingAssertions
    · simp [h1]
    · cases h3 : rc.m_trackerContext.hasChildren rc.m_trackerContext.currentTracker <;>
        simp [h1]
  · simp [h1]

/-! ## Scoped messages -/

/-- C14: `pushScopedMessage( m )` appends `m` to `m_messages`;
`popScopedMessage( m )` removes every element equal to `m` and keeps the others
in their order; so a push followed by a pop of `m` leaves the list filtered of
`m`, which is the list itself exactly when it held no element equal to `m`. -/
theorem scopedMessage_spec (rc : RunContext) (message : MessageInfo) :
    (rc.pushScopedMessage message).m_messages = rc.m_messages ++ [message] ∧
    (rc.popScopedMessage message).m_messages = rc.m_messages.filter (fun m => m ≠ message) ∧
    (∀ m, m ∈ (rc.popScopedMessage message).m_messages ↔ (m ∈ rc.m_messages ∧ m ≠ message)) ∧
    (rc.popScopedMessage message).m_messages.Sublist rc.m_messages ∧
    ((rc.pushScopedMessage message).popScopedMessage message).m_messages
      = rc.m_messages.filter (fun m => m ≠ message) ∧
    (rc.m_messages.filter (fun m => m ≠ message) = rc.m_messages ↔ message ∉ rc.m_messages) := by
  refine ⟨rfl, rfl, ?_, ?_, ?_, ?_⟩
  · intro m
    simp [popScopedMessage]
  · simp [popScopedMessage]
  · simp [pushScopedMessage, popScopedMessage, List.filter_append]
  · rw [List.filter_eq_self]
    constructor
    · intro h hm
      have := h message hm
      simp at this
    · intro h m hm
      have : m ≠ message := fun e => h (e ▸ hm)
      simpa using this


/-! ## Leaving a section by an exception -/

theorem sectionEndedEarly_step (rc : RunContext) (endInfo : SectionEndInfo) (l : List Handle)
    (back : Handle) (h : rc.m_activeSections = l ++ [back]) :
    (rc.sectionEndedEarly endInfo).m_trackerContext
      = (if rc.m_unfinishedSections.isEmpty then rc.m_trackerContext.fail back
         else rc.m_trackerContext.close back) ∧
    (rc.sectionEndedEarly endInfo).m_activeSections = l ∧
    (rc.sectionEndedEarly endInfo).m_unfinishedSections = rc.m_unfinishedSections ++ [endInfo] ∧
    (rc.sectionEndedEarly endInfo).m_reporter.log = rc.m_reporter.log ∧
    (rc.sectionEndedEarly endInfo).m_totals = rc.m_totals := by
  simp [sectionEndedEarly, h]

/-- Leaving further sections early once an unfinished record exists: each handle
is closed and popped, each record appended. -/
theorem foldl_sectionEndedEarly (es : List SectionEndInfo) :
    ∀ (rc : RunContext) (base : List Handle) (hs : List Handle),
      rc.m_activeSections = base ++ hs.reverse → hs.length = es.length →
      rc.m_unfinishedSections ≠ [] →
      (es.foldl sectionEndedEarly rc).m_trackerContext
        = hs.foldl TrackerContext.close rc.m_trackerContext ∧
      (es.foldl sectionEndedEarly rc).m_activeSections = base ∧
      (es.foldl sectionEndedEarly rc).m_unfinishedSections = rc.m_unfinishedSections ++ es ∧
      (es.foldl sectionEndedEarly rc).m_reporter.log = rc.m_reporter.log ∧
      (es.foldl sectionEndedEarly rc).m_totals = rc.m_totals := by
  induction es with
  | nil =>
    intro rc base hs hact hlen _
    have : hs = [] := List.length_eq_zero.mp hlen
    subst this
    simpa using hact
  | cons e es ih =>
    intro rc base hs hact hlen hu
    cases hs with
    | nil => simp at hlen
    | cons h hs =>
      have hact' : rc.m_activeSections = (base ++ hs.reverse) ++ [h] := by
        simp [hact]
      obtain ⟨s1, s2, s3, s4, s5⟩ := sectionEndedEarly_step rc e _ h hact'
      have hne : rc.m_unfinishedSections.isEmpty = false := by
        cases hl : rc.m_unfinishedSections with
        | nil => exact absurd hl hu
        | cons a b => rfl
      rw [hne] at s1
      simp only [Bool.false_eq_true, if_false] at s1
      obtain ⟨i1, i2, i3, i4, i5⟩ := ih (rc.sectionEndedEarly e) base hs s2
        (by simpa using hlen) (by rw [s3]; simp)
      simp only [List.foldl_cons]
      exact ⟨by rw [i1, s1], i2, by rw [i3, s3]; simp, by rw [i4, s4], by rw [i5, s5]⟩

/-- C17: with `m_activeSections` not empty, `sectionEndedEarly( e )` calls
`fail()` on the last handle when `m_unfinishedSections` is empty and `close()`
otherwise, pops that handle and appends `e` to `m_unfinishedSections`; it
reports nothing and changes no counter.  So when an unwind leaves nested open
sections, starting without unfinished record, the innermost handle is failed,
the others are closed from the inside out, and `m_unfinishedSections` holds the
records innermost first. -/
theorem sectionEndedEarly_spec (rc : RunContext) (endInfo : SectionEndInfo)
    (hne : rc.m_activeSections ≠ [])
    (rc0 : RunContext) (base : List Handle) (innermost : Handle) (outer : List Handle)
    (e0 : SectionEndInfo) (es : List SectionEndInfo)
    (hact : rc0.m_activeSections = base ++ (innermost :: outer).reverse)
    (hlen : outer.length = es.length) (hu : rc0.m_unfinishedSections = []) :
    (∃ (l : List Handle) (back : Handle), rc.m_activeSections = l ++ [back] ∧
      (rc.sectionEndedEarly endInfo).m_trackerContext
        = (if rc.m_unfinishedSections.isEmpty then rc.m_trackerContext.fail back
           else rc.m_trackerContext.close back) ∧
      (rc.sectionEndedEarly endInfo).m_activeSections = l ∧
      (rc.sectionEndedEarly endInfo).m_unfinishedSections
        = rc.m_unfinishedSections ++ [endInfo] ∧
      (rc.sectionEndedEarly endInfo).m_reporter.log = rc.m_reporter.log ∧
      (rc.sectionEndedEarly endInfo).m_totals = rc.m_totals) ∧
    (((e0 :: es).foldl sectionEndedEarly rc0).m_trackerContext
        = outer.foldl TrackerContext.close (rc0.m_trackerContext.fail innermost) ∧
      ((e0 :: es).foldl sectionEndedEarly rc0).m_unfinishedSections = e0 :: es ∧
      ((e0 :: es).foldl sectionEndedEarly rc0).m_activeSections = base ∧
      ((e0 :: es).foldl sectionEndedEarly rc0).m_reporter.log = rc0.m_reporter.log ∧
      ((e0 :: es).foldl sectionEndedEarly rc0).m_totals = rc0.m_totals) := by
  constructor
  · obtain ⟨l, back, hl⟩ : ∃ l back, rc.m_activeSections = l ++ [back] :=
      ⟨rc.m_activeSections.dropLast, rc.m_activeSections.getLast hne,
        (List.dropLast_append_getLast hne).symm⟩
    exact ⟨l, back, hl, sectionEndedEarly_step rc endInfo l back hl⟩
  · have hact' : rc0.m_activeSections = (base ++ outer.reverse) ++ [innermost] := by
      simp [hact]
    obtain ⟨s1, s2, s3, s4, s5⟩ := sectionEndedEarly_step rc0 e0 _ innermost hact'
    simp only [hu, List.isEmpty_nil, if_true, List.nil_append] at s1 s3
    obtain ⟨i1, i2, i3, i4, i5⟩ := foldl_sectionEndedEarly es (rc0.sectionEndedEarly e0)
      base outer s2 hlen (by rw [s3]; simp)
    simp only [List.foldl_cons]
    exact ⟨by rw [i1, s1], by rw [i3, s3]; simp, i2, by rw [i4, s4], by rw [i5, s5]⟩


/-- C17 on the state with three open sections, left from the innermost out. -/
theorem sectionEndedEarly_spec_witness :
    threeOpenSections.m_activeSections ≠ [] ∧
    threeOpenSections.m_activeSections
      = [] ++ ([0, 0, 0, 0] :: [[0, 0, 0], [0, 0]]).reverse ∧
    [[0, 0, 0], [0, 0]].length = [sampleEndInfo "B" 3, sampleEndInfo "A" 2].length ∧
    threeOpenSections.m_unfinishedSections = [] ∧
    ((∃ (l : List Handle) (back : Handle), threeOpenSections.m_activeSections = l ++ [back] ∧
      (threeOpenSections.sectionEndedEarly (sampleEndInfo "C" 4)).m_trackerContext
        = (if threeOpenSections.m_unfinishedSections.isEmpty then
            threeOpenSections.m_trackerContext.fail back
           else threeOpenSections.m_trackerContext.close back) ∧
      (threeOpenSections.sectionEndedEarly (sampleEndInfo "C" 4)).m_activeSections = l ∧
      (threeOpenSections.sectionEndedEarly (sampleEndInfo "C" 4)).m_unfinishedSections
        = threeOpenSections.m_unfinishedSections ++ [sampleEndInfo "C" 4] ∧
      (threeOpenSections.sectionEndedEarly (sampleEndInfo "C" 4)).m_reporter.log
        = threeOpenSections.m_reporter.log ∧
      (threeOpenSections.sectionEndedEarly (sampleEndInfo "C" 4)).m_totals
        = threeOpenSections.m_totals) ∧
    (((sampleEndInfo "C" 4 :: [sampleEndInfo "B" 3, sampleEndInfo "A" 2]).foldl
          sectionEndedEarly threeOpenSections).m_trackerContext
        = [[0, 0, 0], [0, 0]].foldl TrackerContext.close
            (threeOpenSections.m_trackerContext.fail [0, 0, 0, 0]) ∧
      ((sampleEndInfo "C" 4 :: [sampleEndInfo "B" 3, sampleEndInfo "A" 2]).foldl
          sectionEndedEarly threeOpenSections).m_unfinishedSections
        = sampleEndInfo "C" 4 :: [sampleEndInfo "B" 3, sampleEndInfo "A" 2] ∧
      ((sampleEndInfo "C" 4 :: [sampleEndInfo "B" 3, sampleEndInfo "A" 2]).foldl
          sectionEndedEarly threeOpenSections).m_activeSections = [] ∧
      ((sampleEndInfo "C" 4 :: [sampleEndInfo "B" 3, sampleEndInfo "A" 2]).foldl
          sectionEndedEarly threeOpenSections).m_reporter.log = threeOpenSections.m_reporter.log ∧
      ((sampleEndInfo "C" 4 :: [sampleEndInfo "B" 3, sampleEndInfo "A" 2]).foldl
          sectionEndedEarly threeOpenSections).m_totals = threeOpenSections.m_totals)) :=
  ⟨by decide, by decide, rfl, by decide,
   sectionEndedEarly_spec threeOpenSections (sampleEndInfo "C" 4) (by decide)
     threeOpenSections [] [0, 0, 0, 0] [[0, 0, 0], [0, 0]] (sampleEndInfo "C" 4)
     [sampleEndInfo "B" 3, sampleEndInfo "A" 2] (by decide) rfl (by decide)⟩

end RunContext

/-! ## Output capture -/

namespace Streams

theorem write_frame (s : Streams) (c : Bool) (t : String) :
    (s.write c t).cout = s.cout ∧ (s.write c t).cerr = s.cerr ∧
    (s.write c t).buffers.length = s.buffers.length := by
  simp [write]

theorem write_getD (s : Streams) (c : Bool) (t : String) (i : Nat) (hi : i < s.buffers.length) :
    (s.write c t).buffers.getD i ""
      = if s.rdbuf c = i then s.buffers.getD i "" ++ t else s.buffers.getD i "" := by
  simp only [write, List.getD_eq_getElem?_getD]
  split_ifs with h
  · subst h
    simp [List.getElem?_set, hi]
  · simp [List.getElem?_set, h]

/-- The content of a buffer after a sequence of writes, when one stream writes
into it and the other does not. -/
theorem writes_getD (ws : List (Bool × String)) :
    ∀ (s : Streams) (c : Bool) (i : Nat), i < s.buffers.length → s.rdbuf c = i →
      s.rdbuf (!c) ≠ i →
      (s.writes ws).buffers.getD i "" = s.buffers.getD i "" ++ written c ws ∧
      (s.writes ws).cout = s.cout ∧ (s.writes ws).cerr = s.cerr ∧
      (s.writes ws).buffers.length = s.buffers.length := by
  induction ws with
  | nil => intro s c i _ _ _; simp [writes, written]
  | cons w ws ih =>
    intro s c i hi hc hn
    obtain ⟨f1, f2, f3⟩ := write_frame s w.1 w.2
    have hrd : ∀ b, (s.write w.1 w.2).rdbuf b = s.rdbuf b := by
      intro b; simp [rdbuf, f1, f2]
    obtain ⟨i1, i2, i3, i4⟩ := ih (s.write w.1 w.2) c i (by rw [f3]; exact hi)
      (by rw [hrd]; exact hc) (by rw [hrd]; exact hn)
    have hw : (s.writes (w :: ws)) = (s.write w.1 w.2).writes ws := rfl
    rw [hw]
    refine ⟨?_, by rw [i2, f1], by rw [i3, f2], by rw [i4, f3]⟩
    rw [i1, write_getD s w.1 w.2 i hi]
    by_cases hwc : w.1 = c
    · simp [written, hwc, hc, String.append_assoc]
    · have hw1 : w.1 = !c := by cases hb : w.1 <;> cases c <;> simp_all
      have h1 : s.rdbuf w.1 ≠ i := by rw [hw1]; exact hn
      simp [written, hwc, h1]

end Streams

/-- C13, as the claim states it, fails: a redirect of `Catch::cout()` released
into a target string that already holds `old`, after `new` was written to the
stream, leaves `oldnew` in the string, not the written content alone. -/
theorem streamRedirect_appends :
    Streams.written false [(false, "new")] = "new" ∧
    ((StreamRedirect.create sampleStreams false).2.release
      ((StreamRedirect.create sampleStreams false).1.writes [(false, "new")]) "old").2
      = "oldnew" := by
  decide

/-- C13, amended: after a `StreamRedirect` is released, the target string is its
previous value followed by the content written to the stream during the
lifetime of the redirect, in order, and by nothing written to the other stream;
the stream has its original buffer again and the other stream keeps its own.
Two redirects nested in one scope, on `Catch::cout()` and then on
`Catch::cerr()`, released in reverse order, each append the content of their own
stream to their own target and each restore their own stream.  The other stream
does not point at the address the new string stream gets. -/
theorem streamRedirect_spec (s : Streams) (toCerr : Bool) (d dOut dErr : String)
    (ws : List (Bool × String)) (hother : s.rdbuf (!toCerr) ≠ s.buffers.length) :
    (((StreamRedirect.create s toCerr).2.release
        ((StreamRedirect.create s toCerr).1.writes ws) d).2 = d ++ Streams.written toCerr ws ∧
      ((StreamRedirect.create s toCerr).2.release
        ((StreamRedirect.create s toCerr).1.writes ws) d).1.rdbuf toCerr = s.rdbuf toCerr ∧
      ((StreamRedirect.create s toCerr).2.release
        ((StreamRedirect.create s toCerr).1.writes ws) d).1.rdbuf (!toCerr)
        = s.rdbuf (!toCerr)) ∧
    (((StreamRedirect.create s false).2.release
        ((StreamRedirect.create (StreamRedirect.create s false).1 true).2.release
          ((StreamRedirect.create (StreamRedirect.create s false).1 true).1.writes ws) dErr).1
        dOut).2 = dOut ++ Streams.written false ws ∧
      ((StreamRedirect.create (StreamRedirect.create s false).1 true).2.release
          ((StreamRedirect.create (StreamRedirect.create s false).1 true).1.writes ws) dErr).2
        = dErr ++ Streams.written true ws ∧
      ((StreamRedirect.create s false).2.release
        ((StreamRedirect.create (StreamRedirect.create s false).1 true).2.release
          ((StreamRedirect.create (StreamRedirect.create s false).1 true).1.writes ws) dErr).1
        dOut).1.cout = s.cout ∧
      ((StreamRedirect.create s false).2.release
        ((StreamRedirect.create (StreamRedirect.create s false).1 true).2.release
          ((StreamRedirect.create (StreamRedirect.create s false).1 true).1.writes ws) dErr).1
        dOut).1.cerr = s.cerr) := by
  constructor
  · have hlen : s.buffers.length < (StreamRedirect.create s toCerr).1.buffers.length := by
      cases toCerr <;> simp [StreamRedirect.create, Streams.setRdbuf]
    have hc : (StreamRedirect.create s toCerr).1.rdbuf toCerr = s.buffers.length := by
      cases toCerr <;> simp [StreamRedirect.create, Streams.setRdbuf, Streams.rdbuf]
    have hn : (StreamRedirect.create s toCerr).1.rdbuf (!toCerr) ≠ s.buffers.length := by
      cases toCerr <;>
        simpa [StreamRedirect.create, Streams.setRdbuf, Streams.rdbuf] using hother
    have hempty : (StreamRedirect.create s toCerr).1.buffers.getD s.buffers.length "" = "" := by
      cases toCerr <;> simp [StreamRedirect.create, Streams.setRdbuf]
    obtain ⟨w1, w2, w3, _⟩ := Streams.writes_getD ws (StreamRedirect.create s toCerr).1 toCerr
      s.buffers.length hlen hc hn
    have hoss : (StreamRedirect.create s toCerr).2.m_oss = s.buffers.length := rfl
    have hprev : (StreamRedirect.create s toCerr).2.m_prevBuf = s.rdbuf toCerr := rfl
    have htc : (StreamRedirect.create s toCerr).2.toCerr = toCerr := rfl
    simp only [StreamRedirect.release, hoss, hprev, htc, w1, hempty]
    have hkeep : ((StreamRedirect.create s toCerr).1.writes ws).rdbuf (!toCerr)
        = s.rdbuf (!toCerr) := by
      cases toCerr
      · simp only [Streams.rdbuf, StreamRedirect.create, Streams.setRdbuf] at w3 ⊢
        simpa using w3
      · simp only [Streams.rdbuf, StreamRedirect.create, Streams.setRdbuf] at w2 ⊢
        simpa using w2
    refine ⟨by simp, ?_, ?_⟩
    · cases toCerr <;> simp [Streams.setRdbuf, Streams.rdbuf]
    · rw [← hkeep]
      cases toCerr <;> simp [Streams.setRdbuf, Streams.rdbuf]
  · have hl1 : (StreamRedirect.create s false).1.buffers.length = s.buffers.length + 1 := by
      simp [StreamRedirect.create, Streams.setRdbuf]
    have hs2 : (StreamRedirect.create (StreamRedirect.create s false).1 true).1
        = ⟨s.buffers ++ [""] ++ [""], s.buffers.length, s.buffers.length + 1⟩ := by
      simp [StreamRedirect.create, Streams.setRdbuf]
    obtain ⟨o1, o2, o3, o4⟩ := Streams.writes_getD ws
      ⟨s.buffers ++ [""] ++ [""], s.buffers.length, s.buffers.length + 1⟩ false
      s.buffers.length (by simp) (by simp [Streams.rdbuf]) (by simp [Streams.rdbuf])
    obtain ⟨e1, _, _, _⟩ := Streams.writes_getD ws
      ⟨s.buffers ++ [""] ++ [""], s.buffers.length, s.buffers.length + 1⟩ true
      (s.buffers.length + 1) (by simp) (by simp [Streams.rdbuf]) (by simp [Streams.rdbuf])
    have g0 : (s.buffers ++ [""] ++ [""]).getD s.buffers.length "" = "" := by
      rw [List.append_assoc, List.getD_eq_getElem?_getD,
        List.getElem?_append_right (le_refl _)]
      simp
    have g1 : (s.buffers ++ [""] ++ [""]).getD (s.buffers.length + 1) "" = "" := by
      rw [List.append_assoc, List.getD_eq_getElem?_getD,
        List.getElem?_append_right (Nat.le_succ _)]
      simp
    simp only [g0] at o1
    simp only [g1] at e1
    rw [hs2]
    have r2 : (StreamRedirect.create (StreamRedirect.create s false).1 true).2
        = ⟨true, s.cerr, s.buffers.length + 1⟩ := by
      simp [StreamRedirect.create, Streams.setRdbuf, Streams.rdbuf]
    have r1 : (StreamRedirect.create s false).2 = ⟨false, s.cout, s.buffers.length⟩ := by
      simp [StreamRedirect.create, Streams.rdbuf]
    rw [r2, r1]
    simp only [StreamRedirect.release, Streams.setRdbuf, if_true, Bool.false_eq_true, if_false]
    refine ⟨?_, ?_, ?_, ?_⟩
    · rw [o1]; simp
    · rw [e1]; simp
    · trivial
    · trivial


/-- C13, amended, on writes to both streams with a target that holds `old`. -/
theorem streamRedirect_spec_witness :
    sampleStreams.rdbuf (!false) ≠ sampleStreams.buffers.length ∧
    ((((StreamRedirect.create sampleStreams false).2.release
        ((StreamRedirect.create sampleStreams false).1.writes [(false, "a"), (true, "b"), (false, "c")]) "old").2 = "old" ++ Streams.written false [(false, "a"), (true, "b"), (false, "c")] ∧
      ((StreamRedirect.create sampleStreams false).2.release
        ((StreamRedirect.create sampleStreams false).1.writes [(false, "a"), (true, "b"), (false, "c")]) "old").1.rdbuf false = sampleStreams.rdbuf false ∧
      ((StreamRedirect.create sampleStreams false).2.release
        ((StreamRedirect.create sampleStreams false).1.writes [(false, "a"), (true, "b"), (false, "c")]) "old").1.rdbuf (!false)
        = sampleStreams.rdbuf (!false)) ∧
    (((StreamRedirect.create sampleStreams false).2.release
        ((StreamRedirect.create (StreamRedirect.create sampleStreams false).1 true).2.release
          ((StreamRedirect.create (StreamRedirect.create sampleStreams false).1 true).1.writes [(false, "a"), (true, "b"), (false, "c")]) "err").1
        "out").2 = "out" ++ Streams.written false [(false, "a"), (true, "b"), (false, "c")] ∧
      ((StreamRedirect.create (StreamRedirect.create sampleStreams false).1 true).2.release
          ((StreamRedirect.create (StreamRedirect.create sampleStreams false).1 true).1.writes [(false, "a"), (true, "b"), (false, "c")]) "err").2
        = "err" ++ Streams.written true [(false, "a"), (true, "b"), (false, "c")] ∧
      ((StreamRedirect.create sampleStreams false).2.release
        ((StreamRedirect.create (StreamRedirect.create sampleStreams false).1 true).2.release
          ((StreamRedirect.create (StreamRedirect.create sampleStreams false).1 true).1.writes [(false, "a"), (true, "b"), (false, "c")]) "err").1
        "out").1.cout = sampleStreams.cout ∧
      ((StreamRedirect.create sampleStreams false).2.release
        ((StreamRedirect.create (StreamRedirect.create sampleStreams false).1 true).2.release
          ((StreamRedirect.create (StreamRedirect.create sampleStreams false).1 true).1.writes [(false, "a"), (true, "b"), (false, "c")]) "err").1
        "out").1.cerr = sampleStreams.cerr)) :=
  ⟨by decide, streamRedirect_spec sampleStreams false "old" "out" "err"
    [(false, "a"), (true, "b"), (false, "c")] (by decide)⟩

namespace RunContext

/-! ## Leaving a section -/

theorem subSize_of_mod (x p k : Nat) (h : x % sizeMod = (p + k) % sizeMod) :
    subSize x p = k % sizeMod := by
  unfold subSize sizeMod at *
  omega

/-- The counters after a sequence of `assertionEnded` calls, up to the wrap of
`size_t`. -/
theorem foldl_assertionEnded (results : List AssertionResult) :
    ∀ rc : RunContext,
      (results.foldl assertionEnded rc).m_totals.assertions.passed % sizeMod
        = (rc.m_totals.assertions.passed
            + results.countP AssertionResult.countsPassed) % sizeMod ∧
      (results.foldl assertionEnded rc).m_totals.assertions.failed % sizeMod
        = (rc.m_totals.assertions.failed
            + results.countP AssertionResult.countsFailed) % sizeMod ∧
      (results.foldl assertionEnded rc).m_totals.assertions.failedButOk
        = rc.m_totals.assertions.failedButOk ∧
      (results.foldl assertionEnded rc).m_activeSections = rc.m_activeSections ∧
      (results.foldl assertionEnded rc).m_trackerContext = rc.m_trackerContext ∧
      (results.foldl assertionEnded rc).m_config = rc.m_config := by
  induction results with
  | nil => intro rc; simp
  | cons r rs ih =>
    intro rc
    obtain ⟨i1, i2, i3, i4, i5, i6⟩ := ih (rc.assertionEnded r)
    obtain ⟨a1, _, _, _, a5, a6, _, _, a9⟩ := assertionEnded_frame rc r
    simp only [List.foldl_cons]
    refine ⟨?_, ?_, by rw [i3, a9], by rw [i4, a1], by rw [i5, a6], by rw [i6, a5]⟩
    · rw [i1]
      by_cases h1 : r.resultType = ResultWas.Ok
      · have hc : r.countsPassed = true := by simp [AssertionResult.countsPassed, h1]
        simp only [assertionEnded, countAssertion, h1, if_true, List.countP_cons, hc, incr]
        unfold sizeMod; omega
      · have hc : r.countsPassed = false := by simp [AssertionResult.countsPassed, h1]
        cases h2 : r.isOk <;>
          simp [assertionEnded, countAssertion, h1, h2, List.countP_cons, hc]
    · rw [i2]
      by_cases h1 : r.resultType = ResultWas.Ok
      · have hc : r.countsFailed = false := by
          simp [AssertionResult.countsFailed, AssertionResult.countsPassed, h1]
        simp [assertionEnded, countAssertion, h1, List.countP_cons, hc]
      · cases h2 : r.isOk
        · have hc : r.countsFailed = true := by
            simp [AssertionResult.countsFailed, AssertionResult.countsPassed, h1, h2]
          simp only [assertionEnded, countAssertion, h1, h2, if_false, Bool.not_false, if_true,
            List.countP_cons, hc, incr]
          unfold sizeMod; omega
        · have hc : r.countsFailed = false := by
            simp [AssertionResult.countsFailed, AssertionResult.countsPassed, h1, h2]
          simp [assertionEnded, countAssertion, h1, h2, List.countP_cons, hc]

theorem countP_ok_failed_le (results : List AssertionResult) :
    results.countP AssertionResult.countsPassed
      + results.countP AssertionResult.countsFailed ≤ results.length := by
  induction results with
  | nil => simp
  | cons r rs ih =>
    by_cases h1 : r.resultType = ResultWas.Ok
    · simp [List.countP_cons, h1, AssertionResult.countsPassed, AssertionResult.countsFailed]
      simp only [AssertionResult.countsPassed, AssertionResult.countsFailed] at ih
      omega
    · cases h2 : r.isOk <;>
        simp [List.countP_cons, h1, h2, AssertionResult.countsPassed,
          AssertionResult.countsFailed] <;>
        simp only [AssertionResult.countsPassed, AssertionResult.countsFailed] at ih <;>
        omega

/-- C12: for a section entered by `sectionStarted` returning true with snapshot
`s`, followed by a sequence of `assertionEnded` calls and then `sectionEnded`
with `prevAssertions = s`: the counts in the reported `sectionEnded` event are
the number of results counted as passed and the number counted as failed, plus
1 failed exactly when the missing-assertions check fires, and no
failed-but-permitted; the handle of the section is closed and popped, so
`m_activeSections` is as before the entry; `m_messages` is empty.  In every
state `sectionEnded` drops the last handle of `m_activeSections`, which leaves
an empty list as it is.  The number of calls is below `2^64`. -/
theorem sectionEnded_counts (rc : RunContext) (sectionInfo : SectionInfo) (assertions : Counts)
    (results : List AssertionResult) (duration : Nat)
    (other : RunContext) (endInfo : SectionEndInfo)
    (hopen : (rc.sectionStarted sectionInfo assertions).2.1 = true)
    (hlen : results.length < sizeMod) :
    (other.sectionEnded endInfo).m_activeSections = other.m_activeSections.dropLast ∧
    ∃ st : SectionStats,
      ((results.foldl assertionEnded (rc.sectionStarted sectionInfo assertions).1).sectionEnded
          ⟨sectionInfo, (rc.sectionStarted sectionInfo assertions).2.2, duration⟩).m_reporter.log
        = (results.foldl assertionEnded (rc.sectionStarted sectionInfo assertions).1).m_reporter.log
            ++ [Event.sectionEnded st] ∧
      st.sectionInfo = sectionInfo ∧
      st.assertions.passed = results.countP AssertionResult.countsPassed ∧
      st.assertions.failed
        = results.countP AssertionResult.countsFailed
            + (if st.missingAssertions then 1 else 0) ∧
      st.assertions.failedButOk = 0 ∧
      st.missingAssertions
        = ((results.foldl assertionEnded (rc.sectionStarted sectionInfo assertions).1
            ).testForMissingAssertions
              ((results.foldl assertionEnded (rc.sectionStarted sectionInfo assertions).1
                ).m_totals.assertions.sub (rc.sectionStarted sectionInfo assertions).2.2)).2.2 ∧
      ((results.foldl assertionEnded (rc.sectionStarted sectionInfo assertions).1).sectionEnded
          ⟨sectionInfo, (rc.sectionStarted sectionInfo assertions).2.2, duration⟩).m_activeSections
        = rc.m_activeSections ∧
      ((results.foldl assertionEnded (rc.sectionStarted sectionInfo assertions).1).sectionEnded
          ⟨sectionInfo, (rc.sectionStarted sectionInfo assertions).2.2, duration⟩).m_trackerContext
        = (rc.m_trackerContext.acquire sectionInfo.key).1.close
            (rc.m_trackerContext.acquire sectionInfo.key).2 ∧
      ((results.foldl assertionEnded (rc.sectionStarted sectionInfo assertions).1).sectionEnded
          ⟨sectionInfo, (rc.sectionStarted sectionInfo assertions).2.2, duration⟩).m_messages
        = [] := by
  refine ⟨sectionEnded_activeSections other endInfo, ?_⟩
  obtain ⟨s1, _, _, s4⟩ := sectionStarted_frame rc sectionInfo assertions
  simp only [hopen, if_true] at s1
  have hsnap : (rc.sectionStarted sectionInfo assertions).2.2 = rc.m_totals.assertions := by
    cases h : (rc.m_trackerContext.acquire sectionInfo.key).1.isOpen
      (rc.m_trackerContext.acquire sectionInfo.key).2
    · simp [sectionStarted, h] at hopen
    · simp [sectionStarted, h]
  have htr : (rc.sectionStarted sectionInfo assertions).1.m_trackerContext
      = (rc.m_trackerContext.acquire sectionInfo.key).1 := by
    simp only [sectionStarted]; split_ifs <;> rfl
  obtain ⟨f1, f2, f3, f4, f5, _⟩ := foldl_assertionEnded results
    (rc.sectionStarted sectionInfo assertions).1
  rw [s4] at f1 f2 f3
  rw [s1] at f4
  rw [htr] at f5
  generalize hrc2 : results.foldl assertionEnded (rc.sectionStarted sectionInfo assertions).1
    = rc2 at *
  rw [hsnap]
  have hsum := countP_ok_failed_le results
  have hp : subSize rc2.m_totals.assertions.passed rc.m_totals.assertions.passed
      = results.countP AssertionResult.countsPassed := by
    rw [subSize_of_mod _ _ _ f1]; exact Nat.mod_eq_of_lt (by omega)
  have hf : subSize rc2.m_totals.assertions.failed rc.m_totals.assertions.failed
      = results.countP AssertionResult.countsFailed := by
    rw [subSize_of_mod _ _ _ f2]; exact Nat.mod_eq_of_lt (by omega)
  have hb : subSize rc2.m_totals.assertions.failedButOk rc.m_totals.assertions.failedButOk
      = 0 := by rw [f3]; exact subSize_self _
  obtain ⟨m1, m2, _, m4, _⟩ := testForMissingAssertions_frame rc2
    (rc2.m_totals.assertions.sub rc.m_totals.assertions)
  obtain ⟨k1, k2, _⟩ := closeBack_frame
    (rc2.testForMissingAssertions (rc2.m_totals.assertions.sub rc.m_totals.assertions)).1
  have hS : ((rc2.testForMissingAssertions
          (rc2.m_totals.assertions.sub rc.m_totals.assertions)).2.2 = false ∧
        (rc2.testForMissingAssertions
          (rc2.m_totals.assertions.sub rc.m_totals.assertions)).2.1
          = rc2.m_totals.assertions.sub rc.m_totals.assertions) ∨
      ((rc2.testForMissingAssertions
          (rc2.m_totals.assertions.sub rc.m_totals.assertions)).2.2 = true ∧
        (rc2.m_totals.assertions.sub rc.m_totals.assertions).total = 0 ∧
        (rc2.testForMissingAssertions
          (rc2.m_totals.assertions.sub rc.m_totals.assertions)).2.1
          = { rc2.m_totals.assertions.sub rc.m_totals.assertions with
              failed := incr (rc2.m_totals.assertions.sub rc.m_totals.assertions).failed }) := by
    simp only [testForMissingAssertions]
    split_ifs with h1 h2 h3
    · left; exact ⟨rfl, rfl⟩
    · left; exact ⟨rfl, rfl⟩
    · left; exact ⟨rfl, rfl⟩
    · right; exact ⟨rfl, by simpa using h1, rfl⟩
  refine ⟨⟨sectionInfo,
    (rc2.testForMissingAssertions (rc2.m_totals.assertions.sub rc.m_totals.assertions)).2.1,
    duration,
    (rc2.testForMissingAssertions (rc2.m_totals.assertions.sub rc.m_totals.assertions)).2.2⟩,
    ?_, rfl, ?_, ?_, ?_, rfl, ?_, ?_, ?_⟩
  · simp [sectionEnded, Reporter.emit, k1, m1]
  · rcases hS with ⟨_, h⟩ | ⟨_, _, h⟩ <;> simp only [h] <;> simp [Counts.sub, hp]
  · rcases hS with ⟨h1, h⟩ | ⟨h1, h0, h⟩
    · simp only [h, h1]; simp [Counts.sub, hf]
    · simp only [Counts.total, Counts.sub, hp, hf, hb] at h0
      rw [Nat.mod_eq_of_lt (by omega)] at h0
      have h0' : results.countP AssertionResult.countsFailed = 0 := by
        omega
      simp only [h, h1]
      simp [Counts.sub, hf, h0', incr, sizeMod]
  · rcases hS with ⟨_, h⟩ | ⟨_, _, h⟩ <;> simp only [h] <;> simp [Counts.sub, hb]
  · rw [sectionEnded_activeSections, f4]; simp
  · simp only [sectionEnded]
    rw [closeBack_append _ rc.m_activeSections (rc.m_trackerContext.acquire sectionInfo.key).2
      (by rw [m2, f4]), m4, f5]
  · exact (sectionEnded_frame rc2 _).2.2.2.2.2.2.2.2.2.2


/-- C12 on a fourth section entered inside the three open ones, with two passing
results and one failing result. -/
theorem sectionEnded_counts_witness :
    (threeOpenSections.sectionStarted (sampleSection "D" 5) Counts.zero).2.1 = true ∧
    [passingResult, failingResult, passingResult].length < sizeMod ∧
    (((sampleContext (-1)).sectionEnded (sampleEndInfo "D" 5)).m_activeSections = (sampleContext (-1)).m_activeSections.dropLast ∧
    ∃ st : SectionStats,
      (([passingResult, failingResult, passingResult].foldl assertionEnded (threeOpenSections.sectionStarted (sampleSection "D" 5) Counts.zero).1).sectionEnded
          ⟨(sampleSection "D" 5), (threeOpenSections.sectionStarted (sampleSection "D" 5) Counts.zero).2.2, 7⟩).m_reporter.log
        = ([passingResult, failingResult, passingResult].foldl assertionEnded (threeOpenSections.sectionStarted (sampleSection "D" 5) Counts.zero).1).m_reporter.log
            ++ [Event.sectionEnded st] ∧
      st.sectionInfo = (sampleSection "D" 5) ∧
      st.assertions.passed = [passingResult, failingResult, passingResult].countP AssertionResult.countsPassed ∧
      st.assertions.failed
        = [passingResult, failingResult, passingResult].countP AssertionResult.countsFailed
            + (if st.missingAssertions then 1 else 0) ∧
      st.assertions.failedButOk = 0 ∧
      st.missingAssertions
        = (([passingResult, failingResult, passingResult].foldl assertionEnded (threeOpenSections.sectionStarted (sampleSection "D" 5) Counts.zero).1
            ).testForMissingAssertions
              (([passingResult, failingResult, passingResult].foldl assertionEnded (threeOpenSections.sectionStarted (sampleSection "D" 5) Counts.zero).1
                ).m_totals.assertions.sub (threeOpenSections.sectionStarted (sampleSection "D" 5) Counts.zero).2.2)).2.2 ∧
      (([passingResult, failingResult, passingResult].foldl assertionEnded (threeOpenSections.sectionStarted (sampleSection "D" 5) Counts.zero).1).sectionEnded
          ⟨(sampleSection "D" 5), (threeOpenSections.sectionStarted (sampleSection "D" 5) Counts.zero).2.2, 7⟩).m_activeSections
        = threeOpenSections.m_activeSections ∧
      (([passingResult, failingResult, passingResult].foldl assertionEnded (threeOpenSections.sectionStarted (sampleSection "D" 5) Counts.zero).1).sectionEnded
          ⟨(sampleSection "D" 5), (threeOpenSections.sectionStarted (sampleSection "D" 5) Counts.zero).2.2, 7⟩).m_trackerContext
        = (threeOpenSections.m_trackerContext.acquire (sampleSection "D" 5).key).1.close
            (threeOpenSections.m_trackerContext.acquire (sampleSection "D" 5).key).2 ∧
      (([passingResult, failingResult, passingResult].foldl assertionEnded (threeOpenSections.sectionStarted (sampleSection "D" 5) Counts.zero).1).sectionEnded
          ⟨(sampleSection "D" 5), (threeOpenSections.sectionStarted (sampleSection "D" 5) Counts.zero).2.2, 7⟩).m_messages
        = []) :=
  ⟨by decide, by decide,
   sectionEnded_counts threeOpenSections (sampleSection "D" 5) Counts.zero
     [passingResult, failingResult, passingResult] 7 (sampleContext (-1)) (sampleEndInfo "D" 5)
     (by decide) (by decide)⟩


/-! ## Exceptions leaving the body -/

theorem passRan_config (rc : RunContext) (tc : TestCase) (o e : String) :
    (passRan rc tc o e).rc.m_config = rc.m_config := by
  simp only [passRan]
  split_ifs with hr
  · exact (invoke_frame tc.body _).2.1
  · exact (invoke_frame tc.body _).2.1

/-- Without the missing-assertions warning the replay of end records counts
nothing. -/
theorem foldl_sectionEnded_nowarn (l : List SectionEndInfo) :
    ∀ rc : RunContext, rc.m_config.warnAboutMissingAssertions = false →
      (l.foldl sectionEnded rc).m_totals = rc.m_totals ∧
      (l.foldl sectionEnded rc).m_config = rc.m_config := by
  induction l with
  | nil => intro rc _; simp
  | cons e l ih =>
    intro rc hw
    have hc := (sectionEnded_frame rc e).2.1
    obtain ⟨i1, i2⟩ := ih (rc.sectionEnded e) (by rw [hc]; exact hw)
    simp only [List.foldl_cons]
    exact ⟨i1.trans (sectionEnded_nowarn rc e hw).1, i2.trans hc⟩

/-- After the handlers of the `try` block, a pass without the missing-assertions
warning over a unit that is not `okToFail` counts nothing more. -/
theorem runTestPass_nowarn (rc : RunContext) (tc : TestCase) (o e : String)
    (hok : tc.okToFail = false) (hw : rc.m_config.warnAboutMissingAssertions = false) :
    (rc.runTestPass tc o e).rc.m_totals = (rc.passInvoke tc o e).rc.m_totals := by
  have hc : (passInvoke rc tc o e).rc.m_config = rc.m_config := (passInvoke_frame rc tc o e).2.1
  have hfold := foldl_sectionEnded_nowarn (passInvoke rc tc o e).rc.m_unfinishedSections.reverse
    { (passInvoke rc tc o e).rc with
      m_trackerContext := (passInvoke rc tc o e).rc.m_trackerContext.close
        (passInvoke rc tc o e).rc.m_trackerContext.currentTracker } (by simpa [hc] using hw)
  have hclose : (passInvoke rc tc o e).rc.passClose.m_totals = (passInvoke rc tc o e).rc.m_totals ∧
      (passInvoke rc tc o e).rc.passClose.m_config = rc.m_config := by
    simp only [passClose, handleUnfinishedSections]
    exact ⟨hfold.1, hfold.2.trans hc⟩
  have hm := testForMissingAssertions_nowarn (passInvoke rc tc o e).rc.passClose
    ((passInvoke rc tc o e).rc.passClose.m_totals.assertions.sub rc.m_totals.assertions)
    (by rw [hclose.2]; exact hw)
  simp only [runTestPass, passEnd, passCounted, hm, hok, Bool.false_eq_true, if_false]
  exact hclose.1

/-- C18: in a single pass over a unit that is not `okToFail`, with the
missing-assertions warning off, let `ran` be the state when control leaves the
`try` block of lines 281-296, before a handler runs.  If the body left by the
`TestFailureException` signal, the run-wide failed count after the pass is the
one of `ran`; if it left by any other exception, the failed count after the
pass is that of `ran` plus one, in `size_t` arithmetic.  The pass is a total
function, so that no exception leaves it, and the last event it emits is the
`sectionEnded` of the unit's own section. -/
theorem runTestPass_exceptions (rc : RunContext) (testCase : TestCase)
    (redirectedCout redirectedCerr : String)
    (hok : testCase.okToFail = false)
    (hw : rc.m_config.warnAboutMissingAssertions = false) :
    ((rc.passRan testCase redirectedCout redirectedCerr).val = Outcome.testFailure →
        (rc.runTestPass testCase redirectedCout redirectedCerr).rc.m_totals.assertions.failed
          = (rc.passRan testCase redirectedCout redirectedCerr).rc.m_totals.assertions.failed) ∧
    (∀ what, (rc.passRan testCase redirectedCout redirectedCerr).val
          = Outcome.otherException what →
        (rc.runTestPass testCase redirectedCout redirectedCerr).rc.m_totals.assertions.failed
          = incr (rc.passRan testCase redirectedCout redirectedCerr).rc.m_totals.assertions.failed) ∧
    ∃ st : SectionStats,
      (rc.runTestPass testCase redirectedCout redirectedCerr).rc.m_reporter.log.getLast?
        = some (Event.sectionEnded st) ∧
      st.sectionInfo = ⟨testCase.name, testCase.description, testCase.lineInfo⟩ := by
  have hp := runTestPass_nowarn rc testCase redirectedCout redirectedCerr hok hw
  refine ⟨?_, ?_, ?_⟩
  · intro hv
    rw [hp]
    simp only [passInvoke, hv]
  · intro w hv
    rw [hp]
    simp [passInvoke, hv, useActiveException, assertionEnded, countAssertion]
  · refine ⟨passStats testCase
      (passCounted rc testCase redirectedCout redirectedCerr).val.1
      (passCounted rc testCase redirectedCout redirectedCerr).val.2.2
      (passCounted rc testCase redirectedCout redirectedCerr).val.2.1, ?_, rfl⟩
    simp [runTestPass, (passEnd_frame _ _ _ _ _).2.2.2.2.2]

/-- C18 on a unit that records one failing assertion and then throws
`"boom"`: the body recorded one failure, the pass ends with two. -/
theorem runTestPass_exceptions_witness :
    (throwingUnit (some "boom")).okToFail = false ∧
    (sampleContext (-1)).m_config.warnAboutMissingAssertions = false ∧
    ((sampleContext (-1)).passRan (throwingUnit (some "boom")) "" "").val
      = Outcome.otherException "boom" ∧
    ((sampleContext (-1)).passRan (throwingUnit (some "boom")) "" "").rc.m_totals.assertions.failed
      = 1 ∧
    ((sampleContext (-1)).runTestPass (throwingUnit (some "boom")) "" "").rc.m_totals.assertions.failed
      = 2 ∧
    ((sampleContext (-1)).passRan (throwingUnit none) "" "").val = Outcome.testFailure ∧
    ((sampleContext (-1)).runTestPass (throwingUnit none) "" "").rc.m_totals.assertions.failed
      = 1 ∧
    ((sampleContext (-1)).runTestPass (throwingUnit (some "boom")) "" "").rc.m_totals.assertions.failed
      = incr ((sampleContext (-1)).passRan (throwingUnit (some "boom")) "" "").rc.m_totals.assertions.failed :=
  ⟨rfl, rfl, by decide, by decide, by decide, by decide, by decide,
   (runTestPass_exceptions (sampleContext (-1)) (throwingUnit (some "boom")) "" "" rfl rfl).2.1
     "boom" (by decide)⟩


/-! ## Reclassification in every pass -/

/-- The failed and failed-but-permitted counts after a pass over an `okToFail`
unit. -/
theorem pass_okToFail_failed (rc : RunContext) (tc : TestCase) (o e : String)
    (hok : tc.okToFail = true) (hrange : rc.m_totals.assertions.failed < sizeMod) :
    (rc.runTestPass tc o e).rc.m_totals.assertions.failed = rc.m_totals.assertions.failed ∧
    (rc.runTestPass tc o e).rc.m_totals.assertions.failedButOk
      = addSize rc.m_totals.assertions.failedButOk
          (subSize (rc.passCounted tc o e).rc.m_totals.assertions.failed
            rc.m_totals.assertions.failed) := by
  obtain ⟨h1, _, h3⟩ := passCounted_counts rc tc o e
  constructor
  · simp only [runTestPass, passEnd, passAssertions, hok, if_true, h1]
    exact subSize_sub_cancel _ _ hrange
  · simp only [runTestPass, passEnd, passAssertions, hok, if_true, h1, h3]

theorem loop_okToFail_failed (tc : TestCase) (hok : tc.okToFail = true) (fuel : Nat) :
    ∀ (rc : RunContext) (o e : String), rc.m_totals.assertions.failed < sizeMod →
      ∀ p ∈ rc.runTestLoop fuel tc o e,
        p.rc.m_totals.assertions.failed = rc.m_totals.assertions.failed := by
  induction fuel with
  | zero => intro rc o e _ p hp; simp [runTestLoop] at hp
  | succ n ih =>
    intro rc o e hr p hp
    have hc : (rc.runTestCycle tc o e).rc.m_totals.assertions.failed
        = rc.m_totals.assertions.failed :=
      (pass_okToFail_failed { rc with m_trackerContext :=
        (rc.m_trackerContext.startCycle.acquire tc.name).1 } tc o e hok hr).1
    simp only [runTestLoop] at hp
    split_ifs at hp with hv
    · cases hq : (rc.runTestCycle tc o e).rc.runTestLoop n tc
          (rc.runTestCycle tc o e).redirectedCout (rc.runTestCycle tc o e).redirectedCerr with
      | none => simp [hq] at hp
      | some q =>
        simp [hq] at hp
        have := ih _ _ _ (by rw [hc]; exact hr) q hq
        rw [← hp]
        exact this.trans hc
    · simp at hp
      rw [← hp]
      exact hc

end RunContext

/-- C15, amended: for a unit flagged `okToFail` the reclassification of lines
312-316 is part of every pass and works on that pass's own delta.  At every
loop-condition check the run-wide failed count has its value from before the
call, and the failed-but-permitted count has grown in pass `j + 1` by the
failures that pass counted, in `size_t` arithmetic; the public `runTest`
returns with the failed count unchanged. -/
theorem runTest_okToFail_each_pass (rc : RunContext) (testCase : TestCase)
    (hok : testCase.okToFail = true) (hrange : rc.m_totals.assertions.failed < sizeMod) :
    (∀ j, (afterPasses rc testCase j).rc.m_totals.assertions.failed
        = rc.m_totals.assertions.failed ∧
      (afterPasses rc testCase (j + 1)).rc.m_totals.assertions.failedButOk
        = addSize (afterPasses rc testCase j).rc.m_totals.assertions.failedButOk
            (subSize
              (RunContext.passCounted
                { (afterPasses rc testCase j).rc with
                  m_trackerContext :=
                    ((afterPasses rc testCase j).rc.m_trackerContext.startCycle.acquire
                      testCase.name).1 }
                testCase (afterPasses rc testCase j).redirectedCout
                (afterPasses rc testCase j).redirectedCerr).rc.m_totals.assertions.failed
              rc.m_totals.assertions.failed)) ∧
    ∀ fuel, ∀ res ∈ rc.runTest fuel testCase,
      res.rc.m_totals.assertions.failed = rc.m_totals.assertions.failed := by
  have hall : ∀ j, (afterPasses rc testCase j).rc.m_totals.assertions.failed
      = rc.m_totals.assertions.failed := by
    intro j
    induction j with
    | zero => rfl
    | succ j ih =>
      have := (RunContext.pass_okToFail_failed
        { (afterPasses rc testCase j).rc with
          m_trackerContext :=
            ((afterPasses rc testCase j).rc.m_trackerContext.startCycle.acquire
              testCase.name).1 }
        testCase (afterPasses rc testCase j).redirectedCout
        (afterPasses rc testCase j).redirectedCerr hok (by simpa [ih] using hrange)).1
      exact this.trans ih
  refine ⟨fun j => ⟨hall j, ?_⟩, ?_⟩
  · have := (RunContext.pass_okToFail_failed
        { (afterPasses rc testCase j).rc with
          m_trackerContext :=
            ((afterPasses rc testCase j).rc.m_trackerContext.startCycle.acquire
              testCase.name).1 }
        testCase (afterPasses rc testCase j).redirectedCout
        (afterPasses rc testCase j).redirectedCerr hok (by simpa [hall j] using hrange)).2
    simp only [hall j] at this
    exact this
  · intro fuel res hres
    simp only [RunContext.runTest] at hres
    cases hq : (rc.runTestStart testCase).runTestLoop fuel testCase "" "" with
    | none => simp [hq] at hres
    | some q =>
      simp [hq] at hres
      have := RunContext.loop_okToFail_failed testCase hok fuel
        (rc.runTestStart testCase) "" "" hrange q (by simp [hq])
      rw [← hres]
      exact this


/-- C15 refuted: the first pass over an `okToFail` unit with two failing
sections counts one failure, the loop goes on to a second pass, and at the
check between the two passes the run-wide failed count is 0 and the
failed-but-permitted count is 1 already. -/
theorem runTest_okToFail_reclassified_in_pass :
    okToFailSections.okToFail = true ∧
    (RunContext.passCounted
      { ((sampleContext (-1)).runTestStart okToFailSections) with
        m_trackerContext :=
          (((sampleContext (-1)).runTestStart okToFailSections).m_trackerContext.startCycle.acquire
            okToFailSections.name).1 }
      okToFailSections "" "").rc.m_totals.assertions = ⟨0, 1, 0⟩ ∧
    (afterPasses (sampleContext (-1)) okToFailSections 1).val = true ∧
    (afterPasses (sampleContext (-1)) okToFailSections 1).rc.m_totals.assertions = ⟨0, 0, 1⟩ ∧
    (afterPasses (sampleContext (-1)) okToFailSections 2).val = false ∧
    (afterPasses (sampleContext (-1)) okToFailSections 2).rc.m_totals.assertions = ⟨0, 0, 2⟩ ∧
    ((sampleContext (-1)).runTest 2 okToFailSections).map
      (fun res => (res.passes, res.rc.m_totals.assertions)) = some (2, ⟨0, 0, 2⟩) := by
  decide

/-- C15, amended, on the unit with two failing sections: after the first pass
the failed count is 0, as before the call. -/
theorem runTest_okToFail_each_pass_witness :
    okToFailSections.okToFail = true ∧
    (sampleContext (-1)).m_totals.assertions.failed < sizeMod ∧
    (afterPasses (sampleContext (-1)) okToFailSections 1).rc.m_totals.assertions.failed
      = (sampleContext (-1)).m_totals.assertions.failed ∧
    (afterPasses (sampleContext (-1)) okToFailSections 1).rc.m_totals.assertions.failed = 0 :=
  ⟨rfl, by decide,
   ((runTest_okToFail_each_pass (sampleContext (-1)) okToFailSections rfl (by decide)).1 1).1,
   by decide⟩

/-! ## The abort condition is not sticky -/

theorem castSize_natCast (t : Nat) (h : t < sizeMod) : castSize (t : Int) = t := by
  unfold castSize
  unfold sizeMod at h ⊢
  omega

theorem failures_measures (n : Nat) (rest : Body) :
    (failures n rest).throwFree = rest.throwFree ∧
    (failures n rest).distinctKeys = rest.distinctKeys ∧
    (failures n rest).sectionLeaves = rest.sectionLeaves := by
  induction n with
  | zero => exact ⟨rfl, rfl, rfl⟩
  | succ n ih => simpa [failures, Body.throwFree, Body.distinctKeys, Body.sectionLeaves] using ih

namespace RunContext

theorem foldl_failing (n : Nat) :
    ∀ rc : RunContext, rc.m_totals.assertions.failed < sizeMod →
      ((List.replicate n failingResult).foldl assertionEnded rc).m_totals.assertions.failed
        = (rc.m_totals.assertions.failed + n) % sizeMod ∧
      ((List.replicate n failingResult).foldl assertionEnded rc).m_config = rc.m_config := by
  induction n with
  | zero => intro rc h; simp [Nat.mod_eq_of_lt h]
  | succ n ih =>
    intro rc h
    have hf : (rc.assertionEnded failingResult).m_totals.assertions.failed
        = incr rc.m_totals.assertions.failed := by
      simp [assertionEnded, countAssertion, failingResult]
    have hlt : (rc.assertionEnded failingResult).m_totals.assertions.failed < sizeMod := by
      rw [hf]; unfold incr; exact Nat.mod_lt _ (by unfold sizeMod; omega)
    obtain ⟨i1, i2⟩ := ih (rc.assertionEnded failingResult) hlt
    simp only [List.replicate_succ, List.foldl_cons]
    refine ⟨?_, i2.trans (assertionEnded_frame rc failingResult).2.2.2.2.1⟩
    rw [i1, hf]
    unfold incr sizeMod
    omega

theorem invoke_failures (n : Nat) (rest : Body) :
    ∀ rc : RunContext, invoke (failures n rest) rc
      = invoke rest ((List.replicate n failingResult).foldl assertionEnded rc) := by
  induction n with
  | zero => intro rc; rfl
  | succ n ih =>
    intro rc
    simp only [failures, invoke, List.replicate_succ, List.foldl_cons]
    exact ih _

theorem invoke_failures_failed (n : Nat) (rest : Body) (rc : RunContext)
    (ht : rest.throwFree = true) (hn : rest.noFailure = true)
    (hw : rc.m_config.warnAboutMissingAssertions = false)
    (hr : rc.m_totals.assertions.failed < sizeMod) :
    (invoke (failures n rest) rc).1.m_totals.assertions.failed
      = (rc.m_totals.assertions.failed + n) % sizeMod := by
  obtain ⟨f1, f2⟩ := foldl_failing n rc hr
  rw [invoke_failures, (invoke_throwFree rest _ ht).2.2.2 hn (by rw [f2]; exact hw), f1]

/-- The failed count when the single pass leaves its `try` block, for a body
that records `n` failing assertions and then counts no further failure. -/
theorem passInvoke_failures (rc : RunContext) (tc : TestCase) (o e : String)
    (n : Nat) (rest : Body) (hb : tc.body = failures n rest)
    (ht : rest.throwFree = true) (hn : rest.noFailure = true)
    (hw : rc.m_config.warnAboutMissingAssertions = false)
    (hr : rc.m_totals.assertions.failed < sizeMod) :
    (passInvoke rc tc o e).rc.m_totals.assertions.failed
      = (rc.m_totals.assertions.failed + n) % sizeMod := by
  have htb : tc.body.throwFree = true := by rw [hb, (failures_measures n rest).1]; exact ht
  simp only [passInvoke, passRan]
  split_ifs with hred
  · simp only [(invoke_throwFree tc.body _ htb).1]
    rw [hb]
    exact invoke_failures_failed n rest _ ht hn hw hr
  · simp only [(invoke_throwFree tc.body _ htb).1]
    rw [hb]
    exact invoke_failures_failed n rest _ ht hn hw hr

/-- Without the missing-assertions warning the closing of the pass and the
missing-assertions check count nothing. -/
theorem passCounted_nowarn (rc : RunContext) (tc : TestCase) (o e : String)
    (hw : rc.m_config.warnAboutMissingAssertions = false) :
    (rc.passCounted tc o e).rc.m_totals = (rc.passInvoke tc o e).rc.m_totals ∧
    (rc.passCounted tc o e).rc.m_config = rc.m_config := by
  have hc : (passInvoke rc tc o e).rc.m_config = rc.m_config := (passInvoke_frame rc tc o e).2.1
  have hfold := foldl_sectionEnded_nowarn (passInvoke rc tc o e).rc.m_unfinishedSections.reverse
    { (passInvoke rc tc o e).rc with
      m_trackerContext := (passInvoke rc tc o e).rc.m_trackerContext.close
        (passInvoke rc tc o e).rc.m_trackerContext.currentTracker } (by simpa [hc] using hw)
  have hclose : (passInvoke rc tc o e).rc.passClose.m_totals = (passInvoke rc tc o e).rc.m_totals ∧
      (passInvoke rc tc o e).rc.passClose.m_config = rc.m_config := by
    simp only [passClose, handleUnfinishedSections]
    exact ⟨hfold.1, hfold.2.trans hc⟩
  have hm := testForMissingAssertions_nowarn (passInvoke rc tc o e).rc.passClose
    ((passInvoke rc tc o e).rc.passClose.m_totals.assertions.sub rc.m_totals.assertions)
    (by rw [hclose.2]; exact hw)
  simp only [passCounted, hm]
  exact hclose

end RunContext


/-- The failed count and the threshold after `n` failing assertions on a fresh
context. -/
theorem afterFailures_failed (t n : Nat) :
    (afterFailures t n).m_totals.assertions.failed = n % sizeMod ∧
    (afterFailures t n).m_config.abortAfter = t := by
  obtain ⟨f1, f2⟩ := RunContext.foldl_failing n (sampleContext t) (by show (0 : Nat) < sizeMod; decide)
  refine ⟨?_, by rw [afterFailures, f2]; rfl⟩
  rw [afterFailures, f1]
  simp [sampleContext, RunContext.create, Totals.zero, Counts.zero]


namespace RunContext

/-- The failed count after one round of the loop over a unit, not `okToFail`,
whose body records `n` failing assertions and then counts no further failure,
without the missing-assertions warning. -/
theorem runTestCycle_failures (rc : RunContext) (tc : TestCase) (o e : String)
    (n : Nat) (rest : Body) (hb : tc.body = failures n rest)
    (ht : rest.throwFree = true) (hn : rest.noFailure = true)
    (hok : tc.okToFail = false)
    (hw : rc.m_config.warnAboutMissingAssertions = false)
    (hr : rc.m_totals.assertions.failed < sizeMod) :
    (rc.runTestCycle tc o e).rc.m_totals.assertions.failed
      = (rc.m_totals.assertions.failed + n) % sizeMod ∧
    (rc.runTestCycle tc o e).rc.m_config = rc.m_config := by
  have hp := runTestPass_nowarn
    { rc with m_trackerContext := (rc.m_trackerContext.startCycle.acquire tc.name).1 }
    tc o e hok hw
  have hi := passInvoke_failures
    { rc with m_trackerContext := (rc.m_trackerContext.startCycle.acquire tc.name).1 }
    tc o e n rest hb ht hn hw hr
  constructor
  · simp only [runTestCycle]
    rw [hp, hi]
  · simp only [runTestCycle]
    rw [runTestPass_config]

/-- The failed count when a pass reaches its bookkeeping, for a body that
records `n` failing assertions and then counts no further failure, without the
missing-assertions warning. -/
theorem passCounted_failures (rc : RunContext) (tc : TestCase) (o e : String)
    (n : Nat) (rest : Body) (hb : tc.body = failures n rest)
    (ht : rest.throwFree = true) (hn : rest.noFailure = true)
    (hw : rc.m_config.warnAboutMissingAssertions = false)
    (hr : rc.m_totals.assertions.failed < sizeMod) :
    (rc.passCounted tc o e).rc.m_totals.assertions.failed
      = (rc.m_totals.assertions.failed + n) % sizeMod ∧
    (rc.passCounted tc o e).rc.m_config = rc.m_config := by
  obtain ⟨p1, p2⟩ := passCounted_nowarn rc tc o e hw
  exact ⟨by rw [p1]; exact passInvoke_failures rc tc o e n rest hb ht hn hw hr, p2⟩

end RunContext


/-- C20: `isAborting` is not sticky.  For every abort threshold `t` with
`0 < t` (and `t` a value of `size_t`), the fresh context with that threshold is
aborting after `t` failing `assertionEnded` calls, and one more failing
`assertionEnded` makes `isAborting` false again.  A unit that records `t + 1`
failing assertions and then has two sections ends its first pass with the failed
count `t + 1`, in `size_t` arithmetic, and not aborting, and the loop condition
of the public `runTest` holds: the loop goes on.  For a unit flagged `okToFail`
that records `t` failing assertions the run is aborting when the pass reaches
its bookkeeping and is not aborting once the reclassification has been made. -/
theorem isAborting_not_sticky (t : Nat) (ht : 0 < t) (hlt : t < sizeMod) :
    (afterFailures t t).isAborting = true ∧
    ((afterFailures t t).assertionEnded failingResult).isAborting = false ∧
    (afterPasses (sampleContext t) (overshootUnit t) 1).rc.m_totals.assertions.failed
      = incr t ∧
    (afterPasses (sampleContext t) (overshootUnit t) 1).rc.isAborting = false ∧
    (afterPasses (sampleContext t) (overshootUnit t) 1).val = true ∧
    (RunContext.passCounted
      { ((sampleContext t).runTestStart (okToFailFailures t)) with
        m_trackerContext :=
          (((sampleContext t).runTestStart (okToFailFailures t)).m_trackerContext.startCycle.acquire
            (okToFailFailures t).name).1 }
      (okToFailFailures t) "" "").rc.isAborting = true ∧
    (afterPasses (sampleContext t) (okToFailFailures t) 1).rc.isAborting = false := by
  have hcast := castSize_natCast t hlt
  obtain ⟨a1, a2⟩ := afterFailures_failed t t
  have hne : incr t ≠ t := by unfold incr; unfold sizeMod at hlt ⊢; omega
  have h0 : (0 : Nat) < sizeMod := by decide
  have hstep : ∀ tc, afterPasses (sampleContext t) tc 1
      = ((sampleContext t).runTestStart tc).runTestCycle tc "" "" := fun _ => rfl
  obtain ⟨o1, o2⟩ := RunContext.runTestCycle_failures
    ((sampleContext t).runTestStart (overshootUnit t)) (overshootUnit t) "" "" (t + 1)
    twoSections rfl (by decide) (by decide) rfl rfl h0
  have hover : (afterPasses (sampleContext t) (overshootUnit t) 1).rc.m_totals.assertions.failed
      = incr t := by
    rw [hstep, o1]
    show (0 + (t + 1)) % sizeMod = incr t
    rw [Nat.zero_add]
    rfl
  have hcfg : (afterPasses (sampleContext t) (overshootUnit t) 1).rc.m_config.abortAfter = t := by
    rw [hstep, o2]
    rfl
  have hab : (afterPasses (sampleContext t) (overshootUnit t) 1).rc.isAborting = false := by
    simp only [RunContext.isAborting, hover, hcfg, hcast]
    exact decide_eq_false hne
  have hleaves : (overshootUnit t).body.leaves = 2 := by
    have hsl : (overshootUnit t).body.sectionLeaves = twoSections.sectionLeaves :=
      (failures_measures (t + 1) twoSections).2.2
    have h2 : twoSections.sectionLeaves = 2 := by decide
    rw [Body.leaves, hsl, h2]
    rfl
  have htf : (overshootUnit t).body.throwFree = true :=
    (failures_measures (t + 1) twoSections).1.trans (by decide)
  have hdk : (overshootUnit t).body.distinctKeys = true :=
    (failures_measures (t + 1) twoSections).2.1.trans (by decide)
  have htr : ((sampleContext t).runTestStart (overshootUnit t)).m_trackerContext
      = trackedAfter (overshootUnit t).name (overshootUnit t).body 0 :=
    (RunContext.afterPasses_tracker (sampleContext t) (overshootUnit t) htf hdk rfl 0 (Nat.zero_le _)).1
  obtain ⟨_, _, _, c4⟩ := RunContext.runTestCycle_tracker
    ((sampleContext t).runTestStart (overshootUnit t)) (overshootUnit t) "" "" 0
    (by rw [hleaves]; omega) htr htf hdk rfl
  have hval : (afterPasses (sampleContext t) (overshootUnit t) 1).val = true := by
    rw [hstep] at hab ⊢
    rw [c4, hab, hleaves]
    rfl
  obtain ⟨k1, k2⟩ := RunContext.passCounted_failures
    { ((sampleContext t).runTestStart (okToFailFailures t)) with
      m_trackerContext :=
        (((sampleContext t).runTestStart (okToFailFailures t)).m_trackerContext.startCycle.acquire
          (okToFailFailures t).name).1 }
    (okToFailFailures t) "" "" t Body.done rfl rfl rfl rfl h0
  have hfail := (RunContext.pass_okToFail_failed
    { ((sampleContext t).runTestStart (okToFailFailures t)) with
      m_trackerContext :=
        (((sampleContext t).runTestStart (okToFailFailures t)).m_trackerContext.startCycle.acquire
          (okToFailFailures t).name).1 }
    (okToFailFailures t) "" "" rfl h0).1
  have hcfg2 : (afterPasses (sampleContext t) (okToFailFailures t) 1).rc.m_config.abortAfter
      = t := by
    rw [hstep]
    simp only [RunContext.runTestCycle]
    rw [RunContext.runTestPass_config]
    rfl
  have hf0 : (afterPasses (sampleContext t) (okToFailFailures t) 1).rc.m_totals.assertions.failed
      = 0 := by
    rw [hstep]
    simp only [RunContext.runTestCycle]
    rw [hfail]
    rfl
  refine ⟨?_, ?_, hover, hab, hval, ?_, ?_⟩
  · simp [RunContext.isAborting, a1, a2, hcast, Nat.mod_eq_of_lt hlt]
  · have hf : ((afterFailures t t).assertionEnded failingResult).m_totals.assertions.failed
        = incr t := by
      have : (afterFailures t t).m_totals.assertions.failed = t := by
        rw [a1]; exact Nat.mod_eq_of_lt hlt
      simp [RunContext.assertionEnded, RunContext.countAssertion, failingResult, this]
    have hc := (RunContext.assertionEnded_frame (afterFailures t t) failingResult).2.2.2.2.1
    simp only [RunContext.isAborting, hf, hc, a2, hcast]
    exact decide_eq_false hne
  · simp only [RunContext.isAborting, k1, k2]
    have : ((0 : Nat) + t) % sizeMod = t := by rw [Nat.zero_add]; exact Nat.mod_eq_of_lt hlt
    refine decide_eq_true ?_
    show (0 + t) % sizeMod = castSize ((t : Nat) : Int)
    rw [this, hcast]
  · simp only [RunContext.isAborting, hf0, hcfg2, hcast]
    exact decide_eq_false (Nat.ne_of_lt ht)

/-- C20 with the threshold 1: aborting after one failure, not after two; the
first pass over the unit with two failures ends with the loop going on. -/
theorem isAborting_not_sticky_witness :
    0 < 1 ∧ 1 < sizeMod ∧
    (afterFailures 1 1).isAborting = true ∧
    ((afterFailures 1 1).assertionEnded failingResult).isAborting = false ∧
    (afterPasses (sampleContext 1) (overshootUnit 1) 1).rc.m_totals.assertions.failed = 2 ∧
    (afterPasses (sampleContext 1) (overshootUnit 1) 1).rc.isAborting = false ∧
    (afterPasses (sampleContext 1) (overshootUnit 1) 1).val = true :=
  ⟨by decide, by decide,
   (isAborting_not_sticky 1 (by decide) (by decide)).1,
   (isAborting_not_sticky 1 (by decide) (by decide)).2.1,
   by decide, by decide,
   (isAborting_not_sticky 1 (by decide) (by decide)).2.2.2.2.1⟩

/-! ## Growth of the counters -/

theorem incr_of_lt (x : Nat) (h : x + 1 < sizeMod) : incr x = x + 1 := by
  unfold incr; exact Nat.mod_eq_of_lt h

namespace RunContext

theorem assertionEnded_steps (rc : RunContext) (r : AssertionResult)
    (hp : rc.m_totals.assertions.passed + 1 < sizeMod)
    (hf : rc.m_totals.assertions.failed + 1 < sizeMod) :
    rc.m_totals.assertions.passed ≤ (rc.assertionEnded r).m_totals.assertions.passed ∧
    (rc.assertionEnded r).m_totals.assertions.passed ≤ rc.m_totals.assertions.passed + 1 ∧
    rc.m_totals.assertions.failed ≤ (rc.assertionEnded r).m_totals.assertions.failed ∧
    (rc.assertionEnded r).m_totals.assertions.failed ≤ rc.m_totals.assertions.failed + 1 := by
  simp only [assertionEnded, countAssertion]
  split_ifs <;> simp [incr_of_lt _ hp, incr_of_lt _ hf]

theorem testForMissingAssertions_steps (rc : RunContext) (a : Counts)
    (hf : rc.m_totals.assertions.failed + 1 < sizeMod) :
    rc.m_totals.assertions.failed ≤ (rc.testForMissingAssertions a).1.m_totals.assertions.failed ∧
    (rc.testForMissingAssertions a).1.m_totals.assertions.failed
      ≤ rc.m_totals.assertions.failed + 1 := by
  simp only [testForMissingAssertions]
  split_ifs <;> simp [incr_of_lt _ hf]

theorem sectionEnded_steps (rc : RunContext) (e : SectionEndInfo)
    (hf : rc.m_totals.assertions.failed + 1 < sizeMod) :
    rc.m_totals.assertions.failed ≤ (rc.sectionEnded e).m_totals.assertions.failed ∧
    (rc.sectionEnded e).m_totals.assertions.failed ≤ rc.m_totals.assertions.failed + 1 := by
  have h := testForMissingAssertions_steps rc (rc.m_totals.assertions.sub e.prevAssertions) hf
  have hc := (closeBack_frame (rc.testForMissingAssertions
    (rc.m_totals.assertions.sub e.prevAssertions)).1).2.2.2.2.2.2.2
  simp only [sectionEnded]
  rw [hc]
  exact h

theorem foldl_sectionEnded_steps (l : List SectionEndInfo) :
    ∀ rc : RunContext, rc.m_totals.assertions.failed + l.length < sizeMod →
      rc.m_totals.assertions.failed ≤ (l.foldl sectionEnded rc).m_totals.assertions.failed ∧
      (l.foldl sectionEnded rc).m_totals.assertions.failed
        ≤ rc.m_totals.assertions.failed + l.length ∧
      (l.foldl sectionEnded rc).m_totals.assertions.passed = rc.m_totals.assertions.passed := by
  induction l with
  | nil => intro rc _; simp
  | cons e l ih =>
    intro rc h
    simp only [List.length_cons] at h
    obtain ⟨s1, s2⟩ := sectionEnded_steps rc e (by omega)
    have s3 := (sectionEnded_frame rc e).2.2.2.2.2.2.2.2.1
    obtain ⟨i1, i2, i3⟩ := ih (rc.sectionEnded e) (by omega)
    simp only [List.foldl_cons, List.length_cons]
    exact ⟨by omega, by omega, i3.trans s3⟩


/-- What an invocation of a body adds to the counters: at most one passed
assertion per assertion of the body, and the failed count together with the
number of unfinished sections grows by at most one per assertion or section. -/
theorem invoke_steps (b : Body) :
    ∀ rc : RunContext, rc.m_totals.assertions.passed + b.steps < sizeMod →
      rc.m_totals.assertions.failed + rc.m_unfinishedSections.length + b.steps < sizeMod →
      rc.m_totals.assertions.passed ≤ (invoke b rc).1.m_totals.assertions.passed ∧
      (invoke b rc).1.m_totals.assertions.passed ≤ rc.m_totals.assertions.passed + b.steps ∧
      rc.m_totals.assertions.failed ≤ (invoke b rc).1.m_totals.assertions.failed ∧
      (invoke b rc).1.m_totals.assertions.failed + (invoke b rc).1.m_unfinishedSections.length
        ≤ rc.m_totals.assertions.failed + rc.m_unfinishedSections.length + b.steps := by
  induction b with
  | done => intro rc _ _; simp [invoke, Body.steps]
  | assertion r rest ih =>
    intro rc hp hf
    simp only [Body.steps] at hp hf ⊢
    obtain ⟨a1, a2, a3, a4⟩ := assertionEnded_steps rc r (by omega) (by omega)
    have au := (assertionEnded_frame rc r).2.1
    obtain ⟨i1, i2, i3, i4⟩ := ih (rc.assertionEnded r) (by omega) (by rw [au]; omega)
    rw [au] at i4
    simp only [invoke]
    exact ⟨by omega, by omega, by omega, by omega⟩
  | inSection info elapsed inner rest ihi ihr =>
    intro rc hp hf
    simp only [Body.steps] at hp hf ⊢
    obtain ⟨_, s2, _, s4⟩ := sectionStarted_frame rc info Counts.zero
    simp only [invoke]
    cases hs : (rc.sectionStarted info Counts.zero).2.1 with
    | false =>
      simp only [Bool.false_eq_true, if_false]
      obtain ⟨i1, i2, i3, i4⟩ := ihr (rc.sectionStarted info Counts.zero).1
        (by rw [s4]; omega) (by rw [s4, s2]; omega)
      rw [s4] at i1 i2 i3 i4
      rw [s2] at i4
      exact ⟨by omega, by omega, by omega, by omega⟩
    | true =>
      simp only [if_true]
      obtain ⟨j1, j2, j3, j4⟩ := ihi (rc.sectionStarted info Counts.zero).1
        (by rw [s4]; omega) (by rw [s4, s2]; omega)
      rw [s4] at j1 j2 j3 j4
      rw [s2] at j4
      rcases hinv : invoke inner (rc.sectionStarted info Counts.zero).1 with ⟨rc2, o⟩
      rw [hinv] at j1 j2 j3 j4
      simp only at j1 j2 j3 j4
      cases o with
      | returned =>
        simp only
        obtain ⟨f1, f2⟩ := sectionEnded_steps rc2
          ⟨info, (rc.sectionStarted info Counts.zero).2.2, elapsed⟩ (by omega)
        obtain ⟨fu, _, _, _, _, _, _, _, fp, _⟩ := sectionEnded_frame rc2
          ⟨info, (rc.sectionStarted info Counts.zero).2.2, elapsed⟩
        obtain ⟨i1, i2, i3, i4⟩ := ihr (rc2.sectionEnded
          ⟨info, (rc.sectionStarted info Counts.zero).2.2, elapsed⟩)
          (by rw [fp]; omega) (by rw [fu]; omega)
        rw [fp] at i1 i2
        rw [fu] at i4
        exact ⟨by omega, by omega, by omega, by omega⟩
      | testFailure =>
        simp only
        obtain ⟨_, e2, _, e4⟩ := sectionEndedEarly_frame rc2
          ⟨info, (rc.sectionStarted info Counts.zero).2.2, elapsed⟩
        rw [e4, e2]
        simp only [List.length_append, List.length_singleton]
        exact ⟨by omega, by omega, by omega, by omega⟩
      | otherException w =>
        simp only
        obtain ⟨_, e2, _, e4⟩ := sectionEndedEarly_frame rc2
          ⟨info, (rc.sectionStarted info Counts.zero).2.2, elapsed⟩
        rw [e4, e2]
        simp only [List.length_append, List.length_singleton]
        exact ⟨by omega, by omega, by omega, by omega⟩
  | write c t rest ih =>
    intro rc hp hf
    simp only [Body.steps] at hp hf ⊢
    obtain ⟨i1, i2, i3, i4⟩ := ih { rc with streams := rc.streams.write c t } hp hf
    simp only [invoke]
    exact ⟨i1, i2, i3, i4⟩
  | throwTestFailure => intro rc _ _; simp [invoke, Body.steps]
  | throwOther w => intro rc _ _; simp [invoke, Body.steps]


theorem useActiveException_steps (rc : RunContext) (b : ResultBuilder) (what : String)
    (hf : rc.m_totals.assertions.failed + 1 < sizeMod) :
    (rc.useActiveException b what).m_totals.assertions.passed = rc.m_totals.assertions.passed ∧
    (rc.useActiveException b what).m_totals.assertions.failed
      = rc.m_totals.assertions.failed + 1 ∧
    (rc.useActiveException b what).m_unfinishedSections = rc.m_unfinishedSections := by
  simp [useActiveException, assertionEnded, countAssertion, incr_of_lt _ hf]

/-- The counters and the unfinished sections when a pass leaves its `try` block
are those of the invocation of the body, started on the counters and unfinished
sections the pass found. -/
theorem passRan_invoke (rc : RunContext) (tc : TestCase) (o e : String) :
    ∃ rc1 : RunContext, rc1.m_totals = rc.m_totals ∧
      rc1.m_unfinishedSections = rc.m_unfinishedSections ∧
      (passRan rc tc o e).rc.m_totals = (invoke tc.body rc1).1.m_totals ∧
      (passRan rc tc o e).rc.m_unfinishedSections = (invoke tc.body rc1).1.m_unfinishedSections := by
  simp only [passRan]
  split_ifs with hred
  · exact ⟨{ rc with
        m_reporter := rc.m_reporter.emit (Event.sectionStarting
          ⟨tc.name, tc.description, tc.lineInfo⟩)
        m_lastAssertionInfo := ⟨"TEST_CASE", tc.lineInfo, "", ResultDisposition.Normal⟩
        streams := (StreamRedirect.create (StreamRedirect.create rc.streams false).1 true).1 },
      rfl, rfl, rfl, rfl⟩
  · exact ⟨{ rc with
        m_reporter := rc.m_reporter.emit (Event.sectionStarting
          ⟨tc.name, tc.description, tc.lineInfo⟩)
        m_lastAssertionInfo := ⟨"TEST_CASE", tc.lineInfo, "", ResultDisposition.Normal⟩ },
      rfl, rfl, rfl, rfl⟩

/-- What the `try` block of a pass and its handlers add to the counters. -/
theorem passInvoke_steps (rc : RunContext) (tc : TestCase) (o e : String)
    (hp : rc.m_totals.assertions.passed + tc.body.steps < sizeMod)
    (hf : rc.m_totals.assertions.failed + rc.m_unfinishedSections.length + tc.body.steps + 1
      < sizeMod) :
    rc.m_totals.assertions.passed ≤ (passInvoke rc tc o e).rc.m_totals.assertions.passed ∧
    (passInvoke rc tc o e).rc.m_totals.assertions.passed
      ≤ rc.m_totals.assertions.passed + tc.body.steps ∧
    rc.m_totals.assertions.failed ≤ (passInvoke rc tc o e).rc.m_totals.assertions.failed ∧
    (passInvoke rc tc o e).rc.m_totals.assertions.failed
        + (passInvoke rc tc o e).rc.m_unfinishedSections.length
      ≤ rc.m_totals.assertions.failed + rc.m_unfinishedSections.length + tc.body.steps + 1 := by
  obtain ⟨rc1, ht, hu, rt, ru⟩ := passRan_invoke rc tc o e
  obtain ⟨i1, i2, i3, i4⟩ := invoke_steps tc.body rc1 (by rw [ht]; exact hp)
    (by rw [ht, hu]; omega)
  rw [ht, ← rt] at i1 i2 i3 i4
  rw [hu, ← ru] at i4
  simp only [passInvoke]
  cases hv : (rc.passRan tc o e).val with
  | returned => simp only; exact ⟨i1, i2, i3, by omega⟩
  | testFailure => simp only; exact ⟨i1, i2, i3, by omega⟩
  | otherException w =>
    obtain ⟨u1, u2, u3⟩ := useActiveException_steps (rc.passRan tc o e).rc
      (rc.passRan tc o e).rc.makeUnexpectedResultBuilder w (by omega)
    simp only
    rw [u1, u2, u3]
    exact ⟨i1, i2, by omega, by omega⟩


end RunContext

theorem subSize_of_le (a b : Nat) (hab : b ≤ a) (ha : a < sizeMod) : subSize a b = a - b := by
  unfold subSize
  unfold sizeMod at ha ⊢
  omega

theorem addSize_of_lt (a b : Nat) (h : a + b < sizeMod) : addSize a b = a + b := by
  unfold addSize; exact Nat.mod_eq_of_lt h

namespace RunContext

theorem passClose_steps (rc : RunContext)
    (hf : rc.m_totals.assertions.failed + rc.m_unfinishedSections.length < sizeMod) :
    rc.m_totals.assertions.failed ≤ rc.passClose.m_totals.assertions.failed ∧
    rc.passClose.m_totals.assertions.failed
      ≤ rc.m_totals.assertions.failed + rc.m_unfinishedSections.length ∧
    rc.passClose.m_totals.assertions.passed = rc.m_totals.assertions.passed := by
  have h := foldl_sectionEnded_steps rc.m_unfinishedSections.reverse
    { rc with m_trackerContext := rc.m_trackerContext.close rc.m_trackerContext.currentTracker }
    (by simpa using hf)
  simp only [List.length_reverse] at h
  simp only [passClose, handleUnfinishedSections]
  exact h

/-- What a pass has added to the counters when it reaches its bookkeeping. -/
theorem passCounted_steps (rc : RunContext) (tc : TestCase) (o e : String)
    (hp : rc.m_totals.assertions.passed + tc.body.steps < sizeMod)
    (hf : rc.m_totals.assertions.failed + (tc.body.steps + rc.m_unfinishedSections.length + 2)
      < sizeMod) :
    rc.m_totals.assertions.passed ≤ (passCounted rc tc o e).rc.m_totals.assertions.passed ∧
    (passCounted rc tc o e).rc.m_totals.assertions.passed
      ≤ rc.m_totals.assertions.passed + tc.body.steps ∧
    rc.m_totals.assertions.failed ≤ (passCounted rc tc o e).rc.m_totals.assertions.failed ∧
    (passCounted rc tc o e).rc.m_totals.assertions.failed
      ≤ rc.m_totals.assertions.failed + (tc.body.steps + rc.m_unfinishedSections.length + 2) ∧
    (passCounted rc tc o e).rc.m_totals.testCases = rc.m_totals.testCases ∧
    (passCounted rc tc o e).rc.m_unfinishedSections = [] := by
  obtain ⟨i1, i2, i3, i4⟩ := passInvoke_steps rc tc o e hp (by omega)
  obtain ⟨c1, c2, c3⟩ := passClose_steps (passInvoke rc tc o e).rc (by omega)
  obtain ⟨_, cu, _, ct, _⟩ := passClose_frame (passInvoke rc tc o e).rc
  obtain ⟨m1, m2⟩ := testForMissingAssertions_steps (passInvoke rc tc o e).rc.passClose
    ((passInvoke rc tc o e).rc.passClose.m_totals.assertions.sub rc.m_totals.assertions)
    (by omega)
  obtain ⟨_, _, mu, _, _, _, _, _, mt, mp, _⟩ :=
    testForMissingAssertions_frame (passInvoke rc tc o e).rc.passClose
      ((passInvoke rc tc o e).rc.passClose.m_totals.assertions.sub rc.m_totals.assertions)
  have it := (passInvoke_frame rc tc o e).2.2.1
  simp only [passCounted]
  rw [mp, c3, mt, ct, it, mu, cu]
  exact ⟨i1, i2, by omega, by omega, rfl, rfl⟩


theorem passEnd_passed (rc : RunContext) (tc : TestCase) (a : Counts) (d : Nat) (m : Bool) :
    (rc.passEnd tc a d m).m_totals.assertions.passed = rc.m_totals.assertions.passed ∧
    (tc.okToFail = false → (rc.passEnd tc a d m).m_totals = rc.m_totals) := by
  simp only [passEnd]
  split_ifs with h
  · exact ⟨rfl, fun h2 => by simp [h] at h2⟩
  · exact ⟨rfl, fun _ => rfl⟩

/-- One pass with room for its steps: no counter is lowered, each assertion
counter grows by at most the steps of the pass, the test-case counters are left
alone, and no unfinished section remains. -/
theorem runTestPass_steps (rc : RunContext) (tc : TestCase) (o e : String)
    (h : rc.m_totals.headroom (tc.body.steps + rc.m_unfinishedSections.length + 2)) :
    rc.m_totals.atMost (rc.runTestPass tc o e).rc.m_totals ∧
    (rc.runTestPass tc o e).rc.m_totals.assertions.passed
      ≤ rc.m_totals.assertions.passed + (tc.body.steps + rc.m_unfinishedSections.length + 2) ∧
    (rc.runTestPass tc o e).rc.m_totals.assertions.failed
      ≤ rc.m_totals.assertions.failed + (tc.body.steps + rc.m_unfinishedSections.length + 2) ∧
    (rc.runTestPass tc o e).rc.m_totals.assertions.failedButOk
      ≤ rc.m_totals.assertions.failedButOk
          + (tc.body.steps + rc.m_unfinishedSections.length + 2) ∧
    (rc.runTestPass tc o e).rc.m_totals.testCases = rc.m_totals.testCases ∧
    (rc.runTestPass tc o e).rc.m_unfinishedSections = [] := by
  obtain ⟨h1, h2, h3, h4, h5⟩ := h
  obtain ⟨c1, c2, c3, c4, c5, c6⟩ := passCounted_steps rc tc o e (by omega) h2
  obtain ⟨_, _, k3⟩ := passCounted_counts rc tc o e
  obtain ⟨_, e2, _, _, e5, _⟩ := passEnd_frame (passCounted rc tc o e).rc tc
    (passCounted rc tc o e).val.1 (passCounted rc tc o e).val.2.2 (passCounted rc tc o e).val.2.1
  obtain ⟨q1, q2⟩ := passEnd_passed (passCounted rc tc o e).rc tc
    (passCounted rc tc o e).val.1 (passCounted rc tc o e).val.2.2 (passCounted rc tc o e).val.2.1
  have hu : (rc.runTestPass tc o e).rc.m_unfinishedSections = [] := by
    simp only [runTestPass]; rw [e2, c6]
  have ht : (rc.runTestPass tc o e).rc.m_totals.testCases = rc.m_totals.testCases := by
    simp only [runTestPass]; rw [e5, c5]
  have hp : (rc.runTestPass tc o e).rc.m_totals.assertions.passed
      = (passCounted rc tc o e).rc.m_totals.assertions.passed := by
    simp only [runTestPass]; rw [q1]
  cases hok : tc.okToFail with
  | false =>
    have hall : (rc.runTestPass tc o e).rc.m_totals = (passCounted rc tc o e).rc.m_totals := by
      simp only [runTestPass]; exact q2 hok
    refine ⟨?_, ?_, ?_, ?_, ht, hu⟩
    · unfold Totals.atMost
      rw [hall, c5, k3]
      exact ⟨c1, c3, le_refl _, le_refl _, le_refl _⟩
    · rw [hall]; omega
    · rw [hall]; exact c4
    · rw [hall, k3]; omega
  | true =>
    obtain ⟨f1, f2⟩ := pass_okToFail_failed rc tc o e hok (by omega)
    have hs := subSize_of_le _ _ c3 (by omega)
    rw [hs, addSize_of_lt _ _ (by omega)] at f2
    refine ⟨?_, ?_, ?_, ?_, ht, hu⟩
    · unfold Totals.atMost
      rw [ht, hp, f1, f2]
      exact ⟨c1, le_refl _, by omega, le_refl _, le_refl _⟩
    · rw [hp]; omega
    · rw [f1]; omega
    · rw [f2]; omega


/-- The loop of the public `runTest` with room for `fuel` passes: no counter is
lowered and the test-case counters are left alone. -/
theorem runTestLoop_steps (tc : TestCase) (u : Nat) (fuel : Nat) :
    ∀ (rc : RunContext) (o e : String), rc.m_unfinishedSections.length ≤ u →
      rc.m_totals.headroom (fuel * (tc.body.steps + u + 2)) →
      ∀ p ∈ rc.runTestLoop fuel tc o e,
        rc.m_totals.atMost p.rc.m_totals ∧ p.rc.m_totals.testCases = rc.m_totals.testCases := by
  induction fuel with
  | zero => intro rc o e _ _ p hp; simp [runTestLoop] at hp
  | succ n ih =>
    intro rc o e hu hh p hp
    unfold Totals.headroom at hh
    rw [Nat.succ_mul] at hh
    obtain ⟨h1, h2, h3, h4, h5⟩ := hh
    have hpass := runTestPass_steps
      { rc with m_trackerContext := (rc.m_trackerContext.startCycle.acquire tc.name).1 } tc o e
      (by unfold Totals.headroom; simp only; exact ⟨by omega, by omega, by omega, by omega,
        by omega⟩)
    have hcyc : (rc.runTestCycle tc o e).rc
        = (runTestPass { rc with m_trackerContext :=
            (rc.m_trackerContext.startCycle.acquire tc.name).1 } tc o e).rc := rfl
    rw [← hcyc] at hpass
    simp only at hpass
    obtain ⟨s1, s2, s3, s4, s5, s6⟩ := hpass
    unfold Totals.atMost at s1
    obtain ⟨m1, m2, m3, m4, m5⟩ := s1
    simp only [runTestLoop] at hp
    split_ifs at hp with hv
    · cases hq : (rc.runTestCycle tc o e).rc.runTestLoop n tc
          (rc.runTestCycle tc o e).redirectedCout (rc.runTestCycle tc o e).redirectedCerr with
      | none => simp [hq] at hp
      | some q =>
        simp [hq] at hp
        obtain ⟨i1, i2⟩ := ih (rc.runTestCycle tc o e).rc _ _ (by rw [s6]; simp)
          (by
            unfold Totals.headroom
            rw [s5]
            exact ⟨by omega, by omega, by omega, by omega, by omega⟩) q hq
        unfold Totals.atMost at i1 ⊢
        rw [← hp]
        simp only
        rw [i2, s5] at i1 ⊢
        exact ⟨⟨by omega, by omega, by omega, le_refl _, le_refl _⟩, rfl⟩
    · simp at hp
      rw [← hp]
      simp only
      unfold Totals.atMost
      exact ⟨⟨m1, m2, m3, m4, m5⟩, s5⟩


/-- The public `runTest` with room for `fuel` passes lowers no counter. -/
theorem runTest_steps (fuel : Nat) (rc : RunContext) (tc : TestCase)
    (h : rc.m_totals.headroom (fuel * (tc.body.steps + rc.m_unfinishedSections.length + 2))) :
    ∀ res ∈ rc.runTest fuel tc, rc.m_totals.atMost res.rc.m_totals := by
  intro res hres
  simp only [runTest] at hres
  cases hq : (rc.runTestStart tc).runTestLoop fuel tc "" "" with
  | none => simp [hq] at hres
  | some q =>
    simp [hq] at hres
    obtain ⟨i1, i2⟩ := runTestLoop_steps tc rc.m_unfinishedSections.length fuel
      (rc.runTestStart tc) "" "" (le_refl _) h q hq
    have hs : (rc.runTestStart tc).m_totals = rc.m_totals := rfl
    rw [hs] at i1 i2
    unfold Totals.headroom at h
    unfold Totals.atMost at i1 ⊢
    rw [← hres]
    simp only [Totals.delta, Counts.add, Counts.sub, i2, subSize_self]
    rw [addSize_of_lt _ _ (by omega), addSize_of_lt _ _ (by omega)]
    exact ⟨i1.1, i1.2.1, i1.2.2.1, by omega, by omega⟩

/-- The fatal-error handler with room for its steps lowers no counter. -/
theorem handleFatalErrorCondition_steps (rc : RunContext) (message : String)
    (h : rc.m_totals.headroom (rc.m_unfinishedSections.length + 1)) :
    ∀ r ∈ rc.handleFatalErrorCondition message, rc.m_totals.atMost r.m_totals := by
  intro r hr
  unfold Totals.headroom at h
  obtain ⟨h1, h2, h3, h4, h5⟩ := h
  have hcap : ∀ b : ResultBuilder, b.resultType = ResultWas.FatalErrorCondition →
      (rc.captureExpression b).m_totals.assertions.failed = rc.m_totals.assertions.failed + 1 ∧
      (rc.captureExpression b).m_totals.assertions.passed = rc.m_totals.assertions.passed ∧
      (rc.captureExpression b).m_totals.assertions.failedButOk
        = rc.m_totals.assertions.failedButOk ∧
      (rc.captureExpression b).m_totals.testCases = rc.m_totals.testCases ∧
      (rc.captureExpression b).m_unfinishedSections = rc.m_unfinishedSections := by
    intro b hb
    simp [captureExpression, assertionEnded, countAssertion, hb, incr_of_lt _ (show
      rc.m_totals.assertions.failed + 1 < sizeMod by omega)]
  obtain ⟨k1, k2, k3, k4, k5⟩ := hcap
    { rc.makeUnexpectedResultBuilder with
      resultType := ResultWas.FatalErrorCondition, message := message } rfl
  obtain ⟨f1, f2, f3⟩ := foldl_sectionEnded_steps
    (rc.captureExpression { rc.makeUnexpectedResultBuilder with
      resultType := ResultWas.FatalErrorCondition, message := message }).m_unfinishedSections.reverse
    (rc.captureExpression { rc.makeUnexpectedResultBuilder with
      resultType := ResultWas.FatalErrorCondition, message := message })
    (by rw [k1, List.length_reverse, k5]; omega)
  obtain ⟨_, _, _, _, _, _, _, _, g8, _, g10⟩ := handleUnfinishedSections_frame
    (rc.captureExpression { rc.makeUnexpectedResultBuilder with
      resultType := ResultWas.FatalErrorCondition, message := message })
  rw [k1, List.length_reverse, k5] at f2
  rw [k1] at f1
  rw [k2] at f3
  rw [k4] at g8
  rw [k3] at g10
  simp only [handleFatalErrorCondition] at hr
  split at hr
  · simp at hr
  · simp only [Option.mem_def, Option.some.injEq] at hr
    rw [← hr]
    unfold Totals.atMost
    simp only [testGroupEnded]
    have e1 : (rc.captureExpression { rc.makeUnexpectedResultBuilder with
        resultType := ResultWas.FatalErrorCondition,
        message := message }).handleUnfinishedSections.m_totals.assertions.failed
        = (List.foldl sectionEnded (rc.captureExpression { rc.makeUnexpectedResultBuilder with
            resultType := ResultWas.FatalErrorCondition, message := message })
          (rc.captureExpression { rc.makeUnexpectedResultBuilder with
            resultType := ResultWas.FatalErrorCondition,
            message := message }).m_unfinishedSections.reverse).m_totals.assertions.failed := rfl
    have e2 : (rc.captureExpression { rc.makeUnexpectedResultBuilder with
        resultType := ResultWas.FatalErrorCondition,
        message := message }).handleUnfinishedSections.m_totals.assertions.passed
        = (List.foldl sectionEnded (rc.captureExpression { rc.makeUnexpectedResultBuilder with
            resultType := ResultWas.FatalErrorCondition, message := message })
          (rc.captureExpression { rc.makeUnexpectedResultBuilder with
            resultType := ResultWas.FatalErrorCondition,
            message := message }).m_unfinishedSections.reverse).m_totals.assertions.passed := rfl
    rw [g8, g10, e1, e2, f3, incr_of_lt _ (by omega)]
    exact ⟨le_refl _, by omega, le_refl _, le_refl _, by omega⟩


/-! ## No counter is lowered, but for units that are allowed to fail -/

/-- C16 refuted: in the first pass over the `okToFail` unit with one failing and
one passing assertion, the run-wide failed count is 1 when the pass reaches its
bookkeeping and 0 after it: the bookkeeping of lines 312-316 lowers a run-wide
counter. -/
theorem passEnd_lowers_failed :
    okToFailUnit.okToFail = true ∧
    (passCounted
      { ((sampleContext (-1)).runTestStart okToFailUnit) with
        m_trackerContext :=
          (((sampleContext (-1)).runTestStart okToFailUnit).m_trackerContext.startCycle.acquire
            okToFailUnit.name).1 }
      okToFailUnit "" "").rc.m_totals.assertions = ⟨1, 1, 0⟩ ∧
    (passCounted
      { ((sampleContext (-1)).runTestStart okToFailUnit) with
        m_trackerContext :=
          (((sampleContext (-1)).runTestStart okToFailUnit).m_trackerContext.startCycle.acquire
            okToFailUnit.name).1 }
      okToFailUnit "" "").val.1 = ⟨1, 1, 0⟩ ∧
    ((passCounted
      { ((sampleContext (-1)).runTestStart okToFailUnit) with
        m_trackerContext :=
          (((sampleContext (-1)).runTestStart okToFailUnit).m_trackerContext.startCycle.acquire
            okToFailUnit.name).1 }
      okToFailUnit "" "").rc.passEnd okToFailUnit ⟨1, 1, 0⟩ 0 false).m_totals.assertions
      = ⟨1, 0, 1⟩ ∧
    (afterPasses (sampleContext (-1)) okToFailUnit 1).rc.m_totals.assertions = ⟨1, 0, 1⟩ ∧
    ¬ (passCounted
      { ((sampleContext (-1)).runTestStart okToFailUnit) with
        m_trackerContext :=
          (((sampleContext (-1)).runTestStart okToFailUnit).m_trackerContext.startCycle.acquire
            okToFailUnit.name).1 }
      okToFailUnit "" "").rc.m_totals.atMost
        (afterPasses (sampleContext (-1)) okToFailUnit 1).rc.m_totals := by
  decide

/-- The missing-assertions check leaves the counters as they are or raises the
failed count by one. -/
theorem testForMissingAssertions_oneMore (rc : RunContext) (a : Counts)
    (hf : rc.m_totals.assertions.failed + 1 < sizeMod) :
    (rc.testForMissingAssertions a).1.m_totals = rc.m_totals ∨
    (rc.testForMissingAssertions a).1.m_totals
      = { rc.m_totals with assertions :=
          { rc.m_totals.assertions with failed := rc.m_totals.assertions.failed + 1 } } := by
  simp only [testForMissingAssertions]
  split_ifs
  · left; rfl
  · left; rfl
  · left; rfl
  · right; rw [incr_of_lt _ hf]

/-- C16, amended: as long as no counter wraps around the range of `size_t`, no
step of the orchestrator lowers a run-wide counter, except the bookkeeping at
the end of a pass over a unit flagged `okToFail`.  `assertionEnded`,
`sectionEnded` and the missing-assertions check need room for one more count and
raise at most one counter, by one: `assertionEnded` the passed or the failed
count, the other two the failed count;
`sectionStarted`, `sectionEndedEarly` and the bookkeeping for a unit that is not
`okToFail` leave the counters as they are.  The bookkeeping for an `okToFail`
unit lowers the failed count by the failures `a.failed` of the pass and raises
the failed-but-permitted count by the same amount, in `size_t` arithmetic.  A
whole pass needs room for one count per assertion and section of the body and
per unfinished section, plus two, and over an `okToFail` unit it leaves the
failed count at its value from before the pass; the public `runTest` needs that room for each
of its passes; `handleFatalErrorCondition` needs room for one count per
unfinished section, plus one. -/
theorem counters_monotone (rc : RunContext) :
    (∀ r, rc.m_totals.headroom 1 →
      rc.m_totals.atMost (rc.assertionEnded r).m_totals ∧
      ((rc.assertionEnded r).m_totals = rc.m_totals ∨
       (rc.assertionEnded r).m_totals
         = { rc.m_totals with assertions :=
             { rc.m_totals.assertions with passed := rc.m_totals.assertions.passed + 1 } } ∨
       (rc.assertionEnded r).m_totals
         = { rc.m_totals with assertions :=
             { rc.m_totals.assertions with failed := rc.m_totals.assertions.failed + 1 } })) ∧
    (∀ info a, (rc.sectionStarted info a).1.m_totals = rc.m_totals) ∧
    (∀ e, rc.m_totals.headroom 1 →
      rc.m_totals.atMost (rc.sectionEnded e).m_totals ∧
      ((rc.sectionEnded e).m_totals = rc.m_totals ∨
       (rc.sectionEnded e).m_totals
         = { rc.m_totals with assertions :=
             { rc.m_totals.assertions with failed := rc.m_totals.assertions.failed + 1 } })) ∧
    (∀ e, (rc.sectionEndedEarly e).m_totals = rc.m_totals) ∧
    (∀ a, rc.m_totals.headroom 1 →
      rc.m_totals.atMost (rc.testForMissingAssertions a).1.m_totals ∧
      ((rc.testForMissingAssertions a).1.m_totals = rc.m_totals ∨
       (rc.testForMissingAssertions a).1.m_totals
         = { rc.m_totals with assertions :=
             { rc.m_totals.assertions with failed := rc.m_totals.assertions.failed + 1 } })) ∧
    (∀ (tc : TestCase) a d m, tc.okToFail = false → (rc.passEnd tc a d m).m_totals = rc.m_totals) ∧
    (∀ (tc : TestCase) a d m, tc.okToFail = true →
      (rc.passEnd tc a d m).m_totals.assertions.failed
        = subSize rc.m_totals.assertions.failed a.failed ∧
      (rc.passEnd tc a d m).m_totals.assertions.failedButOk
        = addSize rc.m_totals.assertions.failedButOk a.failed ∧
      (rc.passEnd tc a d m).m_totals.assertions.passed = rc.m_totals.assertions.passed ∧
      (rc.passEnd tc a d m).m_totals.testCases = rc.m_totals.testCases) ∧
    (∀ (tc : TestCase) o e,
      rc.m_totals.headroom (tc.body.steps + rc.m_unfinishedSections.length + 2) →
      rc.m_totals.atMost (rc.runTestPass tc o e).rc.m_totals ∧
      (tc.okToFail = true →
        (rc.runTestPass tc o e).rc.m_totals.assertions.failed
          = rc.m_totals.assertions.failed)) ∧
    (∀ fuel (tc : TestCase),
      rc.m_totals.headroom (fuel * (tc.body.steps + rc.m_unfinishedSections.length + 2)) →
      ∀ res ∈ rc.runTest fuel tc, rc.m_totals.atMost res.rc.m_totals) ∧
    (∀ message, rc.m_totals.headroom (rc.m_unfinishedSections.length + 1) →
      ∀ r ∈ rc.handleFatalErrorCondition message, rc.m_totals.atMost r.m_totals) := by
  refine ⟨?_, ?_, ?_, ?_, ?_, ?_, ?_, ?_, ?_, ?_⟩
  · intro r h
    obtain ⟨h1, h2, _⟩ := h
    obtain ⟨a1, _, a3, _⟩ := assertionEnded_steps rc r h1 h2
    obtain ⟨_, _, _, _, _, _, _, a8, a9⟩ := assertionEnded_frame rc r
    constructor
    · unfold Totals.atMost
      rw [a8, a9]
      exact ⟨a1, a3, le_refl _, le_refl _, le_refl _⟩
    · simp only [assertionEnded, countAssertion]
      split_ifs
      · right; left; rw [incr_of_lt _ h1]
      · right; right; rw [incr_of_lt _ h2]
      · left; rfl
  · intro info a
    exact (sectionStarted_frame rc info a).2.2.2
  · intro e h
    obtain ⟨_, h2, _⟩ := h
    obtain ⟨s1, _⟩ := sectionEnded_steps rc e h2
    obtain ⟨_, _, _, _, _, _, _, f8, f9, f10, _⟩ := sectionEnded_frame rc e
    constructor
    · unfold Totals.atMost
      rw [f8, f9, f10]
      exact ⟨le_refl _, s1, le_refl _, le_refl _, le_refl _⟩
    · have hc := (closeBack_frame (rc.testForMissingAssertions
        (rc.m_totals.assertions.sub e.prevAssertions)).1).2.2.2.2.2.2.2
      simp only [sectionEnded]
      rw [hc]
      exact testForMissingAssertions_oneMore rc _ h2
  · intro e
    exact (sectionEndedEarly_frame rc e).2.2.2
  · intro a h
    obtain ⟨_, h2, _⟩ := h
    obtain ⟨s1, _⟩ := testForMissingAssertions_steps rc a h2
    obtain ⟨_, _, _, _, _, _, _, _, f9, f10, f11⟩ := testForMissingAssertions_frame rc a
    constructor
    · unfold Totals.atMost
      rw [f9, f10, f11]
      exact ⟨le_refl _, s1, le_refl _, le_refl _, le_refl _⟩
    · exact testForMissingAssertions_oneMore rc a h2
  · intro tc a d m hok
    exact (passEnd_passed rc tc a d m).2 hok
  · intro tc a d m hok
    simp [passEnd, passAssertions, hok]
  · intro tc o e h
    exact ⟨(runTestPass_steps rc tc o e h).1,
      fun hok => (pass_okToFail_failed rc tc o e hok (Nat.lt_of_le_of_lt (Nat.le_add_right _ _)
        h.2.1)).1⟩
  · intro fuel tc h
    exact runTest_steps fuel rc tc h
  · intro message h
    exact handleFatalErrorCondition_steps rc message h

/-- C16, amended, on a fresh context: a failing assertion raises the failed
count by one and nothing else, and the public `runTest` over the `okToFail`
unit with two failing sections lowers no counter and returns after two
passes. -/
theorem counters_monotone_witness :
    (sampleContext (-1)).m_totals.headroom 1 ∧
    ((sampleContext (-1)).assertionEnded failingResult).m_totals = ⟨⟨0, 1, 0⟩, ⟨0, 0, 0⟩⟩ ∧
    ((sampleContext (-1)).m_totals.atMost
      ((sampleContext (-1)).assertionEnded failingResult).m_totals ∧
     (((sampleContext (-1)).assertionEnded failingResult).m_totals
        = (sampleContext (-1)).m_totals ∨
      ((sampleContext (-1)).assertionEnded failingResult).m_totals
        = { (sampleContext (-1)).m_totals with assertions :=
            { (sampleContext (-1)).m_totals.assertions with
              passed := (sampleContext (-1)).m_totals.assertions.passed + 1 } } ∨
      ((sampleContext (-1)).assertionEnded failingResult).m_totals
        = { (sampleContext (-1)).m_totals with assertions :=
            { (sampleContext (-1)).m_totals.assertions with
              failed := (sampleContext (-1)).m_totals.assertions.failed + 1 } })) ∧
    (sampleContext (-1)).m_totals.headroom
      (2 * (okToFailSections.body.steps + (sampleContext (-1)).m_unfinishedSections.length + 2)) ∧
    ((sampleContext (-1)).runTest 2 okToFailSections).map (fun res => res.passes) = some 2 ∧
    ∀ res ∈ (sampleContext (-1)).runTest 2 okToFailSections,
      (sampleContext (-1)).m_totals.atMost res.rc.m_totals :=
  ⟨by decide, by decide,
   (counters_monotone (sampleContext (-1))).1 failingResult (by decide),
   by decide, by decide,
   (counters_monotone (sampleContext (-1))).2.2.2.2.2.2.2.2.1 2 okToFailSections (by decide)⟩


/-! ## Failures counted and failures reported -/

theorem Tally.of_eq (rc rc2 : RunContext) (hl : rc2.m_reporter.log = rc.m_reporter.log)
    (hf : rc2.m_totals.assertions.failed = rc.m_totals.assertions.failed) : Tally rc rc2 :=
  ⟨[], by simp [hl], fun h => by simp [hf, Nat.mod_eq_of_lt h]⟩

theorem Tally.trans (a b c : RunContext) (h1 : Tally a b) (h2 : Tally b c) : Tally a c := by
  obtain ⟨e1, l1, f1⟩ := h1
  obtain ⟨e2, l2, f2⟩ := h2
  refine ⟨e1 ++ e2, by rw [l2, l1, List.append_assoc], fun h => ?_⟩
  have hb := f1 h
  have hlt : b.m_totals.assertions.failed < sizeMod := by
    rw [hb]; exact Nat.mod_lt _ (by decide)
  rw [List.countP_append, f2 hlt, hb]
  unfold sizeMod
  omega

/-- One event that reports no failure, and the failed count as it was. -/
theorem Tally.emit (rc rc2 : RunContext) (e : Event) (he : e.countsFailure = false)
    (hl : rc2.m_reporter.log = rc.m_reporter.log ++ [e])
    (hf : rc2.m_totals.assertions.failed = rc.m_totals.assertions.failed) : Tally rc rc2 :=
  ⟨[e], hl, fun h => by simp [hf, he, Nat.mod_eq_of_lt h]⟩

theorem Tally.emit_some (rc rc2 : RunContext)
    (hl : ∃ e : Event, rc2.m_reporter.log = rc.m_reporter.log ++ [e] ∧ e.countsFailure = false)
    (hf : rc2.m_totals.assertions.failed = rc.m_totals.assertions.failed) : Tally rc rc2 := by
  obtain ⟨e, hl, he⟩ := hl
  exact Tally.emit rc rc2 e he hl hf

theorem assertionEnded_tally (rc : RunContext) (r : AssertionResult) :
    Tally rc (rc.assertionEnded r) := by
  refine ⟨[Event.assertionEnded ⟨r, rc.m_messages, countAssertion rc.m_totals r⟩],
    by simp [assertionEnded, Reporter.emit], fun h => ?_⟩
  simp only [assertionEnded, countAssertion, List.countP_cons, List.countP_nil,
    Event.countsFailure, Event.failedAssertion, Event.missingAssertions,
    AssertionResult.countsFailed, AssertionResult.countsPassed, Bool.or_false]
  split_ifs with h1 h2 <;> simp_all [incr, Nat.mod_eq_of_lt h]

theorem testForMissingAssertions_flag (rc : RunContext) (a : Counts)
    (h : rc.m_totals.assertions.failed < sizeMod) :
    (rc.testForMissingAssertions a).1.m_reporter = rc.m_reporter ∧
    (rc.testForMissingAssertions a).1.m_totals.assertions.failed
      = (rc.m_totals.assertions.failed
          + if (rc.testForMissingAssertions a).2.2 then 1 else 0) % sizeMod := by
  simp only [testForMissingAssertions]
  split_ifs <;> simp_all [incr, Nat.mod_eq_of_lt h]

theorem sectionEnded_tally (rc : RunContext) (e : SectionEndInfo) :
    Tally rc (rc.sectionEnded e) := by
  obtain ⟨k1, _, _, _, _, _, _, k8⟩ := closeBack_frame (rc.testForMissingAssertions
    (rc.m_totals.assertions.sub e.prevAssertions)).1
  have m1 := (testForMissingAssertions_frame rc (rc.m_totals.assertions.sub e.prevAssertions)).1
  refine ⟨[Event.sectionEnded ⟨e.sectionInfo,
      (rc.testForMissingAssertions (rc.m_totals.assertions.sub e.prevAssertions)).2.1,
      e.durationInSeconds,
      (rc.testForMissingAssertions (rc.m_totals.assertions.sub e.prevAssertions)).2.2⟩],
    by simp [sectionEnded, Reporter.emit, k1, m1], fun h => ?_⟩
  obtain ⟨_, m2⟩ := testForMissingAssertions_flag rc
    (rc.m_totals.assertions.sub e.prevAssertions) h
  simp only [sectionEnded]
  rw [k8, m2]
  simp [List.countP_cons, Event.countsFailure, Event.failedAssertion, Event.missingAssertions]

theorem sectionStarted_tally (rc : RunContext) (info : SectionInfo) (a : Counts) :
    Tally rc (rc.sectionStarted info a).1 := by
  simp only [sectionStarted]
  cases h : (rc.m_trackerContext.acquire info.key).1.isOpen
    (rc.m_trackerContext.acquire info.key).2
  · exact Tally.of_eq _ _ (by simp) (by simp)
  · exact Tally.emit _ _ (Event.sectionStarting info) rfl (by simp [Reporter.emit]) (by simp)

theorem sectionEndedEarly_tally (rc : RunContext) (e : SectionEndInfo) :
    Tally rc (rc.sectionEndedEarly e) :=
  Tally.of_eq _ _ (by simp [sectionEndedEarly]) (by simp [sectionEndedEarly])

theorem invoke_tally (b : Body) : ∀ rc : RunContext, Tally rc (invoke b rc).1 := by
  induction b with
  | done => intro rc; exact Tally.of_eq _ _ rfl rfl
  | assertion r rest ih =>
    intro rc
    simp only [invoke]
    exact Tally.trans _ _ _ (assertionEnded_tally rc r) (ih _)
  | inSection info elapsed inner rest ihi ihr =>
    intro rc
    have hs := sectionStarted_tally rc info Counts.zero
    simp only [invoke]
    cases hopen : (rc.sectionStarted info Counts.zero).2.1 with
    | false =>
      simp only [Bool.false_eq_true, if_false]
      exact Tally.trans _ _ _ hs (ihr _)
    | true =>
      simp only [if_true]
      have hi := ihi (rc.sectionStarted info Counts.zero).1
      rcases hinv : invoke inner (rc.sectionStarted info Counts.zero).1 with ⟨rc2, o⟩
      rw [hinv] at hi
      simp only at hi
      cases o with
      | returned =>
        simp only
        exact Tally.trans _ _ _ hs (Tally.trans _ _ _ hi
          (Tally.trans _ _ _ (sectionEnded_tally rc2 _) (ihr _)))
      | testFailure =>
        simp only
        exact Tally.trans _ _ _ hs (Tally.trans _ _ _ hi (sectionEndedEarly_tally rc2 _))
      | otherException w =>
        simp only
        exact Tally.trans _ _ _ hs (Tally.trans _ _ _ hi (sectionEndedEarly_tally rc2 _))
  | write c t rest ih =>
    intro rc
    simp only [invoke]
    exact Tally.trans _ _ _ (Tally.of_eq rc { rc with streams := rc.streams.write c t } rfl rfl)
      (ih _)
  | throwTestFailure => intro rc; exact Tally.of_eq _ _ rfl rfl
  | throwOther w => intro rc; exact Tally.of_eq _ _ rfl rfl

theorem passRan_tally (rc : RunContext) (tc : TestCase) (o e : String) :
    Tally rc (passRan rc tc o e).rc := by
  simp only [passRan]
  split_ifs with hred
  · have h1 : Tally rc { rc with
        m_reporter := rc.m_reporter.emit (Event.sectionStarting
          ⟨tc.name, tc.description, tc.lineInfo⟩)
        m_lastAssertionInfo := ⟨"TEST_CASE", tc.lineInfo, "", ResultDisposition.Normal⟩
        streams := (StreamRedirect.create (StreamRedirect.create rc.streams false).1 true).1 } :=
      Tally.emit _ _ (Event.sectionStarting ⟨tc.name, tc.description, tc.lineInfo⟩) rfl
        (by simp [Reporter.emit]) rfl
    have h2 := invoke_tally tc.body { rc with
        m_reporter := rc.m_reporter.emit (Event.sectionStarting
          ⟨tc.name, tc.description, tc.lineInfo⟩)
        m_lastAssertionInfo := ⟨"TEST_CASE", tc.lineInfo, "", ResultDisposition.Normal⟩
        streams := (StreamRedirect.create (StreamRedirect.create rc.streams false).1 true).1 }
    exact Tally.trans _ _ _ h1 (Tally.trans _ _ _ h2 (Tally.of_eq _ _ rfl rfl))
  · have h1 : Tally rc { rc with
        m_reporter := rc.m_reporter.emit (Event.sectionStarting
          ⟨tc.name, tc.description, tc.lineInfo⟩)
        m_lastAssertionInfo := ⟨"TEST_CASE", tc.lineInfo, "", ResultDisposition.Normal⟩ } :=
      Tally.emit _ _ (Event.sectionStarting ⟨tc.name, tc.description, tc.lineInfo⟩) rfl
        (by simp [Reporter.emit]) rfl
    have h2 := invoke_tally tc.body { rc with
        m_reporter := rc.m_reporter.emit (Event.sectionStarting
          ⟨tc.name, tc.description, tc.lineInfo⟩)
        m_lastAssertionInfo := ⟨"TEST_CASE", tc.lineInfo, "", ResultDisposition.Normal⟩ }
    exact Tally.trans _ _ _ h1 h2

theorem passInvoke_tally (rc : RunContext) (tc : TestCase) (o e : String) :
    Tally rc (passInvoke rc tc o e).rc := by
  have h := passRan_tally rc tc o e
  simp only [passInvoke]
  cases hv : (rc.passRan tc o e).val with
  | returned => simpa using h
  | testFailure => simpa using h
  | otherException w =>
    simp only
    exact Tally.trans _ _ _ h (assertionEnded_tally _ _)

theorem foldl_sectionEnded_tally (l : List SectionEndInfo) :
    ∀ rc : RunContext, Tally rc (l.foldl sectionEnded rc) := by
  induction l with
  | nil => intro rc; exact Tally.of_eq _ _ rfl rfl
  | cons e l ih =>
    intro rc
    simp only [List.foldl_cons]
    exact Tally.trans _ _ _ (sectionEnded_tally rc e) (ih _)

theorem passClose_tally (rc : RunContext) : Tally rc rc.passClose := by
  obtain ⟨evs, l, f⟩ := foldl_sectionEnded_tally rc.m_unfinishedSections.reverse
    { rc with m_trackerContext := rc.m_trackerContext.close rc.m_trackerContext.currentTracker }
  exact ⟨evs, l, f⟩

/-- A pass over a unit that is not `okToFail` reports every failure it counts. -/
theorem runTestPass_tally (rc : RunContext) (tc : TestCase) (o e : String)
    (hok : tc.okToFail = false) : Tally rc (rc.runTestPass tc o e).rc := by
  have h1 := Tally.trans _ _ _ (passInvoke_tally rc tc o e)
    (passClose_tally (passInvoke rc tc o e).rc)
  have m1 := (testForMissingAssertions_frame (passInvoke rc tc o e).rc.passClose
    ((passInvoke rc tc o e).rc.passClose.m_totals.assertions.sub rc.m_totals.assertions)).1
  refine Tally.trans _ _ _ h1 ⟨[Event.sectionEnded (passStats tc
      (passCounted rc tc o e).val.1 (passCounted rc tc o e).val.2.2
      (passCounted rc tc o e).val.2.1)], ?_, fun h => ?_⟩
  · simp only [runTestPass]
    rw [(passEnd_frame _ _ _ _ _).2.2.2.2.2]
    simp only [passCounted]
    rw [m1]
  · obtain ⟨_, m2⟩ := testForMissingAssertions_flag (passInvoke rc tc o e).rc.passClose
      ((passInvoke rc tc o e).rc.passClose.m_totals.assertions.sub rc.m_totals.assertions) h
    simp only [runTestPass]
    rw [(passEnd_passed _ tc _ _ _).2 hok]
    simp only [passCounted]
    rw [m2]
    simp [List.countP_cons, Event.countsFailure, Event.failedAssertion, Event.missingAssertions,
      passStats]

theorem runTestCycle_tally (rc : RunContext) (tc : TestCase) (o e : String)
    (hok : tc.okToFail = false) : Tally rc (rc.runTestCycle tc o e).rc := by
  obtain ⟨evs, l, f⟩ := runTestPass_tally
    { rc with m_trackerContext := (rc.m_trackerContext.startCycle.acquire tc.name).1 } tc o e hok
  exact ⟨evs, l, f⟩

theorem runTestLoop_tally (tc : TestCase) (hok : tc.okToFail = false) (fuel : Nat) :
    ∀ (rc : RunContext) (o e : String), ∀ p ∈ rc.runTestLoop fuel tc o e, Tally rc p.rc := by
  induction fuel with
  | zero => intro rc o e p hp; simp [runTestLoop] at hp
  | succ n ih =>
    intro rc o e p hp
    have hc := runTestCycle_tally rc tc o e hok
    simp only [runTestLoop] at hp
    split_ifs at hp with hv
    · cases hq : (rc.runTestCycle tc o e).rc.runTestLoop n tc
          (rc.runTestCycle tc o e).redirectedCout (rc.runTestCycle tc o e).redirectedCerr with
      | none => simp [hq] at hp
      | some q =>
        simp [hq] at hp
        have := ih _ _ _ q hq
        rw [← hp]
        exact Tally.trans _ _ _ hc this
    · simp at hp
      rw [← hp]
      exact hc

/-- The public `runTest` over a unit that is not `okToFail` reports every
failure it counts. -/
theorem runTest_tally (fuel : Nat) (rc : RunContext) (tc : TestCase)
    (hok : tc.okToFail = false) : ∀ res ∈ rc.runTest fuel tc, Tally rc res.rc := by
  intro res hres
  simp only [runTest] at hres
  cases hq : (rc.runTestStart tc).runTestLoop fuel tc "" "" with
  | none => simp [hq] at hres
  | some q =>
    simp [hq] at hres
    have hl := runTestLoop_tally tc hok fuel (rc.runTestStart tc) "" "" q hq
    have hs : Tally rc (rc.runTestStart tc) :=
      Tally.emit _ _ (Event.testCaseStarting tc.toTestCaseInfo) rfl
        (by simp [runTestStart, Reporter.emit]) rfl
    rw [← hres]
    exact Tally.trans _ _ _ hs (Tally.trans _ _ _ hl
      (Tally.emit_some _ _ ⟨_, rfl, rfl⟩ rfl))

theorem countP_countsFailure (l : List Event) :
    l.countP Event.countsFailure
      = l.countP Event.failedAssertion + l.countP Event.missingAssertions := by
  induction l with
  | nil => rfl
  | cons e l ih =>
    simp only [List.countP_cons, ih, Event.countsFailure]
    cases e <;> simp [Event.failedAssertion, Event.missingAssertions] <;> omega

/-! ## A unit run while the run is aborting -/

/-- C6, as the claim states it, fails in three ways, each with the abort
threshold 1 and a fresh run context.  The first unit records one failing
assertion and the run is aborting, yet `runTest` on the second unit makes one
pass and the failing assertion of its body is counted.  A first unit flagged
`okToFail` records one failing assertion and leaves the failed count at 0: the
run is not aborting.  With the missing-assertions warning on, a first unit with
an empty section and one failing assertion records that one failing assertion
and leaves the failed count at 2: the run is not aborting. -/
theorem runTest_second_unit_invoked :
    (((sampleContext 1).runTest 3 (failingUnit "first")).bind (fun r1 =>
      (r1.rc.runTest 3 (failingUnit "second")).map (fun r2 =>
        (r1.totals.assertions.failed, r1.rc.isAborting, r2.passes, r2.totals.assertions.failed)))
      = some (1, true, 1, 1)) ∧
    (((sampleContext 1).runTest 3 okToFailUnit).map (fun r1 =>
        (r1.rc.m_reporter.log.countP Event.failedAssertion,
         r1.rc.m_reporter.log.countP Event.missingAssertions,
         r1.rc.m_totals.assertions.failed, r1.rc.isAborting))
      = some (1, 0, 0, false)) ∧
    (((create (warningConfig 1) sampleReporter sampleStreams).runTest 3 emptySectionUnit).map
        (fun r1 =>
          (r1.rc.m_reporter.log.countP Event.failedAssertion,
           r1.rc.m_totals.assertions.failed, r1.rc.isAborting))
      = some (1, 2, false)) := by
  decide

/-- C6, amended: with the abort threshold 1 and a fresh run context, let
`runTest` on a first unit that is not `okToFail` return after the reporter has
received, since the run context was created, exactly one `assertionEnded` with a
failing result and no `sectionEnded` flagged by the missing-assertions check.  Then `isAborting()` is
true.  A following `runTest` on a second unit still invokes the unit, since the
loop tests its condition only after a pass: it makes at least one pass, exactly
one when `isAborting()` is true after that pass, and in that case it
returns. -/
theorem runTest_while_aborting (config : IConfig) (reporter : Reporter) (streams : Streams)
    (fuel1 fuel : Nat) (first second : TestCase) (res1 : RunResult)
    (hthreshold : config.abortAfter = 1)
    (hnot : first.okToFail = false)
    (hfirst : (create config reporter streams).runTest fuel1 first = some res1)
    (hone : (res1.rc.m_reporter.log.drop
      (create config reporter streams).m_reporter.log.length).countP Event.failedAssertion = 1)
    (hmiss : (res1.rc.m_reporter.log.drop
      (create config reporter streams).m_reporter.log.length).countP Event.missingAssertions
        = 0) :
    res1.rc.isAborting = true ∧
    (∀ res ∈ res1.rc.runTest fuel second, 1 ≤ res.passes ∧
      (((res1.rc.runTestStart second).runTestCycle second "" "").rc.isAborting = true →
        res.passes = 1)) ∧
    (((res1.rc.runTestStart second).runTestCycle second "" "").rc.isAborting = true →
        (res1.rc.runTest (fuel + 1) second).isSome = true) := by
  have hcfg : res1.rc.m_config.abortAfter = 1 := by
    rw [runTest_config fuel1 _ first res1 hfirst]
    simpa [create] using hthreshold
  have hfailed : res1.rc.m_totals.assertions.failed = 1 := by
    obtain ⟨evs, l, f⟩ := runTest_tally fuel1 (create config reporter streams) first hnot
      res1 hfirst
    rw [l, List.drop_left] at hone hmiss
    have h0 : (create config reporter streams).m_totals.assertions.failed = 0 := rfl
    rw [f (by rw [h0]; decide), h0, countP_countsFailure, hone, hmiss]
    rfl
  have hval : ((res1.rc.runTestStart second).runTestCycle second "" "").rc.isAborting = true →
      ((res1.rc.runTestStart second).runTestCycle second "" "").val = false := by
    intro ha
    simp only [runTestCycle] at ha ⊢
    simp [ha]
  refine ⟨?_, ?_, ?_⟩
  · simp [isAborting, hcfg, hfailed, castSize, sizeMod]
  · intro res hres
    simp only [runTest] at hres
    cases hq : runTestLoop fuel (res1.rc.runTestStart second) second "" "" with
    | none => rw [hq] at hres; simp at hres
    | some q =>
      rw [hq] at hres
      simp only [Option.mem_def, Option.some.injEq] at hres
      subst hres
      obtain ⟨g1, g2⟩ := runTestLoop_passes fuel (res1.rc.runTestStart second) second "" "" q hq
      exact ⟨g1, fun ha => g2 (hval ha)⟩
  · intro ha
    have := runTestLoop_stops fuel (res1.rc.runTestStart second) second "" "" (hval ha)
    simp only [runTest]
    cases hq : runTestLoop (fuel + 1) (res1.rc.runTestStart second) second "" "" with
    | none => rw [hq] at this; simp at this
    | some q => simp

/-- C6, amended, on a first unit that records one failing assertion and a second
unit with two sections of one passing assertion each: the run is aborting after
the first unit and still aborting after the first pass over the second, which is
the only pass although the second unit has two leaves. -/
theorem runTest_while_aborting_witness :
    (sampleConfig 1).abortAfter = 1 ∧
    (failingUnit "first").okToFail = false ∧
    (create (sampleConfig 1) sampleReporter sampleStreams).runTest 3 (failingUnit "first")
      = some afterFirstUnit ∧
    (afterFirstUnit.rc.m_reporter.log.drop
      (create (sampleConfig 1) sampleReporter sampleStreams).m_reporter.log.length).countP
        Event.failedAssertion = 1 ∧
    (afterFirstUnit.rc.m_reporter.log.drop
      (create (sampleConfig 1) sampleReporter sampleStreams).m_reporter.log.length).countP
        Event.missingAssertions = 0 ∧
    twoSectionsUnit.body.leaves = 2 ∧
    ((afterFirstUnit.rc.runTestStart twoSectionsUnit).runTestCycle
      twoSectionsUnit "" "").rc.isAborting = true ∧
    (afterFirstUnit.rc.runTest 3 twoSectionsUnit).map (fun res => res.passes) = some 1 ∧
    (afterFirstUnit.rc.isAborting = true ∧
    (∀ res ∈ afterFirstUnit.rc.runTest 3 twoSectionsUnit, 1 ≤ res.passes ∧
      (((afterFirstUnit.rc.runTestStart twoSectionsUnit).runTestCycle
          twoSectionsUnit "" "").rc.isAborting = true →
        res.passes = 1)) ∧
    (((afterFirstUnit.rc.runTestStart twoSectionsUnit).runTestCycle
          twoSectionsUnit "" "").rc.isAborting = true →
        (afterFirstUnit.rc.runTest (3 + 1) twoSectionsUnit).isSome = true)) :=
  ⟨rfl, rfl, afterFirstUnit_eq, by decide, by decide, by decide, by decide, by decide,
   runTest_while_aborting (sampleConfig 1) sampleReporter sampleStreams 3 3
     (failingUnit "first") twoSectionsUnit afterFirstUnit rfl rfl afterFirstUnit_eq
     (by decide) (by decide)⟩

end RunContext

end Catch
